import Mathlib

/-!
Verification development for the GomokuNoGrid engine: a continuous-coordinate
five-in-a-row game.  The definitions below are a shallow embedding of the
TypeScript sources (`game.ts`, `consts.ts`, `ai/medium.ts`): JavaScript
numbers are modelled as real numbers, stored board coordinates (which the
code rounds to an integer fixed-point scale) as integers, and the mutable
`Game` class as a record transformed by pure functions.  The kd-tree is
modelled as the list of points it contains, with `nearest` queries returning
the distance-sorted list (the claims proved here do not depend on the
library's internal tie/traversal order).  JavaScript `Set` iteration order
is insertion order, modelled by duplicate-free lists.
-/

namespace GomokuNoGrid

open scoped Classical

noncomputable section

/-! ### Constants (src/consts.ts) -/

def SYMBOL_RADIUS : ℤ := 10

def SCALE : ℤ := 1000

/-- MAX_PLACEMENT_DISTANCE = 6 * SYMBOL_RADIUS (world units). -/
def MAX_PLACEMENT_DISTANCE : ℤ := 6 * SYMBOL_RADIUS

/-- PERPENDICULAR_TOLERANCE = 0.4 * SYMBOL_RADIUS * SCALE = 4000 (scaled units). -/
def PERPENDICULAR_TOLERANCE : ℤ := 4000

/-- WIN_D_MAX = Math.round(3.5 * SYMBOL_RADIUS * SCALE) = 35000 (scaled units). -/
def WIN_D_MAX : ℤ := 35000

def WIN_SEARCH_RADIUS : ℤ := 5 * WIN_D_MAX

def WIN_ANGLE_STEP : ℝ := Real.pi / 32

def EPSILON : ℝ := 1 / 10000

def IDEAL_SPACING : ℤ := 25

def LINE_GROUP_SEARCH_RADIUS : ℤ := 200

/-! ### Data model (game.ts) -/

/-- Player 0 plays X, player 1 plays O. -/
abbrev Player := Fin 2

/-- A placed symbol.  Coordinates are stored at the internal integer scale
(the public floating-point unit times SCALE, rounded). -/
structure Point where
  x : ℤ
  y : ℤ
  player : Player
deriving DecidableEq, Repr

instance : Inhabited Point := ⟨⟨0, 0, 0⟩⟩

/-- A maximal gap-bounded collinear run of same-player stones. -/
structure LineGroup where
  dirX : ℝ
  dirY : ℝ
  angleBucket : ℤ
  originX : ℤ
  originY : ℤ
  projections : List ℝ
  stones : List Point

inductive GameState where
  | ONGOING
  | WIN_0
  | WIN_1
deriving DecidableEq, Repr

/-- The full game state.  `tree0`/`tree1` model the two per-player kd-trees
as the lists of points they contain, in insertion order. -/
structure Game where
  tree0 : List Point
  tree1 : List Point
  points : List Point
  state : GameState
  winPoints : List Point
  lineGroups0 : List LineGroup
  lineGroups1 : List LineGroup

def freshGame : Game :=
  { tree0 := [], tree1 := [], points := [], state := GameState.ONGOING,
    winPoints := [], lineGroups0 := [], lineGroups1 := [] }

/-! ### Geometry helpers -/

/-- The squared scaled distance between two stored points (an integer). -/
def sqDist (a b : Point) : ℤ := (a.x - b.x) ^ 2 + (a.y - b.y) ^ 2

/-- The metric handed to the kd-tree: Euclidean distance of the scaled
coordinates divided by SCALE, i.e. distance in world units. -/
def distance (a b : Point) : ℝ := Real.sqrt ((sqDist a b : ℤ)) / (SCALE : ℝ)

/-- JavaScript Math.atan2, via the complex argument (range (-π, π]). -/
def atan2 (y x : ℝ) : ℝ := Complex.arg ⟨x, y⟩

/-! ### Stable sorting (JavaScript Array.prototype.sort with a comparator is
stable; a stable sort is uniquely determined by the comparator's total
preorder, so we model it by stable insertion sort). -/

def insertOn (le : α → α → Prop) (x : α) : List α → List α
  | [] => [x]
  | y :: ys => if le x y then x :: y :: ys else y :: insertOn le x ys

def sortOn (le : α → α → Prop) : List α → List α
  | [] => []
  | x :: xs => insertOn le x (sortOn le xs)

/-! ### kd-tree queries -/

/-- nearest(q, 1): the closest point of the tree together with its distance. -/
def nearest1 (pts : List Point) (q : Point) : Option (Point × ℝ) :=
  match pts with
  | [] => none
  | p :: rest =>
    match nearest1 rest q with
    | none => some (p, distance p q)
    | some (b, d) => if distance p q < d then some (p, distance p q) else some (b, d)

/-- nearest(q, k, maxR): the k closest tree points with distance below the
radius, in ascending-distance order. -/
def nearestK (pts : List Point) (q : Point) (k : ℕ) (maxR : ℝ) :
    List (Point × ℝ) :=
  ((sortOn (fun a b => a.2 ≤ b.2) (pts.map fun p => (p, distance p q))).filter
    fun pd => decide (pd.2 < maxR)).take k

/-! ### Win detection (Game.checkWin) -/

/-- Length of a candidate direction vector in scaled units. -/
def lenR (dx dy : ℤ) : ℝ := Real.sqrt ((dx ^ 2 + dy ^ 2 : ℤ))

/-- The quantized (NOT canonicalized) angle bucket a candidate direction is
assigned in checkWin: round(atan2(uy, ux) / WIN_ANGLE_STEP) for the unit
vector (ux, uy) of (dx, dy). -/
def cwBucket (dx dy : ℤ) : ℤ :=
  let length := lenR dx dy
  let ux := (dx : ℝ) / length
  let uy := (dy : ℝ) / length
  round (atan2 uy ux / WIN_ANGLE_STEP)

/-- Perpendicular distance of the vector (vx, vy) from the line through the
origin with unit direction (ux, uy), via the cross product. -/
def perpDist (ux uy : ℝ) (vx vy : ℤ) : ℝ := |(vx : ℝ) * uy - (vy : ℝ) * ux|

/-- Projection of the vector from `point` to `p` onto the unit direction. -/
def projAlong (ux uy : ℝ) (point p : Point) : ℝ :=
  ((p.x - point.x : ℤ) : ℝ) * ux + ((p.y - point.y : ℤ) : ℝ) * uy

/-- The spacing scan of checkWin: walk consecutive sorted projections,
counting points whose gap is at most WIN_D_MAX; a larger gap resets the
count to 1; reaching 5 is a win. -/
def scanRun : List ℝ → ℕ → Bool
  | a :: b :: rest, c =>
    if b - a ≤ (WIN_D_MAX : ℝ) then
      (if 5 ≤ c + 1 then true else scanRun (b :: rest) (c + 1))
    else scanRun (b :: rest) 1
  | _, _ => false

def lastI (l : List Point) : Point := l.getLast?.getD default

/-- The direction loop of checkWin.  `nearby` is the fixed neighbor list,
the first list argument is the iteration remainder, the second the set of
already-tested angle buckets.  Returns the winning pair (first and last of
the aligned set sorted by projection) on success. -/
def cwLoop (point : Point) (nearby : List (Point × ℝ)) :
    List (Point × ℝ) → List ℤ → Option (Point × Point)
  | [], _ => none
  | od :: rest, tested =>
    let dx := od.1.x - point.x
    let dy := od.1.y - point.y
    if lenR dx dy ≤ EPSILON then cwLoop point nearby rest tested
    else
      let ux := (dx : ℝ) / lenR dx dy
      let uy := (dy : ℝ) / lenR dx dy
      let bucket := cwBucket dx dy
      if bucket ∈ tested then cwLoop point nearby rest tested
      else
        let aligned := point ::
          (nearby.filter fun cd =>
            decide (perpDist ux uy (cd.1.x - point.x) (cd.1.y - point.y) ≤
              (PERPENDICULAR_TOLERANCE : ℝ))).map Prod.fst
        if aligned.length < 5 then cwLoop point nearby rest (bucket :: tested)
        else
          let projections := sortOn (· ≤ ·) (aligned.map (projAlong ux uy point))
          if scanRun projections 1 then
            let sortedAligned :=
              sortOn (fun a b => projAlong ux uy point a ≤ projAlong ux uy point b) aligned
            some (sortedAligned.headI, lastI sortedAligned)
          else cwLoop point nearby rest (bucket :: tested)

/-- Game.checkWin for a just-placed point (the point is already in its tree).
Returns the winning pair when the placement wins. -/
def checkWin (g : Game) (point : Point) : Option (Point × Point) :=
  let tree := if point.player = 0 then g.tree0 else g.tree1
  let nearby := (nearestK tree point g.points.length (WIN_SEARCH_RADIUS : ℝ)).filter
    fun pd => decide (pd.1.x ≠ point.x ∨ pd.1.y ≠ point.y)
  if nearby.length < 4 then none
  else cwLoop point nearby nearby []

/-! ### Line-group maintenance (Game.updateLineGroups) -/

/-- JavaScript Set.add: append if not already present (insertion order). -/
def addUnique [DecidableEq α] (x : α) (l : List α) : List α :=
  if x ∈ l then l else l ++ [x]

/-- Canonicalize a direction so its angle lies in [0, π), returning the
(possibly flipped) unit vector and its quantized bucket. -/
def canonicalDir (dx dy : ℤ) : ℝ × ℝ × ℤ :=
  let len := lenR dx dy
  let ux := (dx : ℝ) / len
  let uy := (dy : ℝ) / len
  let angle := atan2 uy ux
  if angle < 0 then (-ux, -uy, round ((angle + Real.pi) / WIN_ANGLE_STEP))
  else if Real.pi ≤ angle then (-ux, -uy, round ((angle - Real.pi) / WIN_ANGLE_STEP))
  else (ux, uy, round (angle / WIN_ANGLE_STEP))

/-- The gap-splitting loop of updateLineGroups: walk consecutive sorted
projections, keeping a running set; a gap larger than WIN_D_MAX flushes the
set (when it has at least 2 members) and starts a new one; the final set is
flushed at the end. -/
def splitRuns : List (Point × ℝ) → List Point → List (List Point) → List (List Point)
  | cur :: next :: rest, potential, acc =>
    if next.2 - cur.2 ≤ (WIN_D_MAX : ℝ) then
      splitRuns (next :: rest) (addUnique next.1 (addUnique cur.1 potential)) acc
    else
      let p' := addUnique cur.1 potential
      splitRuns (next :: rest) [] (if 2 ≤ p'.length then acc ++ [p'] else acc)
  | _, potential, acc => if 2 ≤ potential.length then acc ++ [potential] else acc

/-- Build one LineGroup from a run: origin is the run's first point,
projections are re-based to it and sorted. -/
def mkGroup (ux uy : ℝ) (bucket : ℤ) (groupPoints : List Point) : LineGroup :=
  let o := groupPoints.headI
  { dirX := ux, dirY := uy, angleBucket := bucket, originX := o.x, originY := o.y,
    projections := sortOn (· ≤ ·) (groupPoints.map (projAlong ux uy o)),
    stones := groupPoints }

/-- Process one neighbor of `point`: derive the canonical direction, collect
the collinear set from `nearby`, project, split into gap-bounded runs and
emit a group per run of size at least 2. -/
def ulgNeighbor (point : Point) (nearby : List (Point × ℝ)) (neighbor : Point) :
    List LineGroup :=
  let dx := neighbor.x - point.x
  let dy := neighbor.y - point.y
  if lenR dx dy ≤ EPSILON then []
  else if (WIN_D_MAX : ℝ) < lenR dx dy then []
  else
    let c := canonicalDir dx dy
    let ux := c.1
    let uy := c.2.1
    let bucket := c.2.2
    let collinear := ((nearby.filter fun cd =>
        decide (cd.1 ≠ neighbor ∧
          perpDist ux uy (cd.1.x - point.x) (cd.1.y - point.y) ≤
            (PERPENDICULAR_TOLERANCE : ℝ))).map Prod.fst).foldl
      (fun l q => addUnique q l) [point, neighbor]
    let projections := sortOn (fun a b => a.2 ≤ b.2)
      (collinear.map fun p => (p, projAlong ux uy point p))
    (splitRuns projections [] []).map (mkGroup ux uy bucket)

/-- Process one point of the player: query its neighbors (excluding itself
and any neighbor already sharing a group with it) and fold the per-neighbor
group construction over them. -/
def ulgPoint (tree : List Point) (groups : List LineGroup) (point : Point) :
    List LineGroup :=
  let nearby := (nearestK tree point 50 (LINE_GROUP_SEARCH_RADIUS : ℝ)).filter
    fun pd => decide (pd.1 ≠ point ∧
      ∀ group ∈ groups, ¬(point ∈ group.stones ∧ pd.1 ∈ group.stones))
  nearby.foldl (fun gs nb => gs ++ ulgNeighbor point nearby nb.1) groups

/-- Game.updateLineGroups: rebuild the player's groups from scratch from that
player's current points. -/
def updateLineGroups (g : Game) (player : Player) : List LineGroup :=
  let tree := if player = 0 then g.tree0 else g.tree1
  let pts := g.points.filter fun p => decide (p.player = player)
  pts.foldl (fun groups point => ulgPoint tree groups point) []

/-! ### Moves (Game.addMove / Game.isValidMove) -/

/-- Game.addMove.  Returns the accepted stored point (or none on rejection)
together with the next game state; a rejected move leaves the game
unchanged. -/
def addMove (g : Game) (x y : ℝ) (player : Player) : Option Point × Game :=
  if g.state ≠ GameState.ONGOING then (none, g)
  else
    let sx := round (x * (SCALE : ℝ))
    let sy := round (y * (SCALE : ℝ))
    let point : Point := ⟨sx, sy, player⟩
    let nearest := (nearest1 g.tree0 point).toList ++ (nearest1 g.tree1 point).toList
    if ∃ pd ∈ nearest, pd.2 < ((SYMBOL_RADIUS * 2 : ℤ) : ℝ) then (none, g)
    else
      let sortedDistances := sortOn (· ≤ ·) (nearest.map Prod.snd)
      if 0 < sortedDistances.length ∧
          ((MAX_PLACEMENT_DISTANCE : ℤ) : ℝ) < sortedDistances.headI then (none, g)
      else
        let g1 : Game :=
          { g with
            tree0 := if player = 0 then g.tree0 ++ [point] else g.tree0,
            tree1 := if player = 0 then g.tree1 else g.tree1 ++ [point],
            points := g.points ++ [point] }
        let g2 : Game :=
          if player = 0 then { g1 with lineGroups0 := updateLineGroups g1 0 }
          else { g1 with lineGroups1 := updateLineGroups g1 1 }
        match checkWin g2 point with
        | some ab =>
          (some point,
            { g2 with
              state := if player = 0 then GameState.WIN_0 else GameState.WIN_1,
              winPoints := [ab.1, ab.2] })
        | none => (some point, g2)

/-- Game.isValidMove: the same legality rule as addMove, non-mutating. -/
def isValidMove (g : Game) (x y : ℝ) : Prop :=
  g.state = GameState.ONGOING ∧
    (let sx := round (x * (SCALE : ℝ))
     let sy := round (y * (SCALE : ℝ))
     let point : Point := ⟨sx, sy, 0⟩
     let nearest := sortOn (fun a b => a.2 ≤ b.2)
       ((nearest1 g.tree0 point).toList ++ (nearest1 g.tree1 point).toList)
     nearest = [] ∨
       (¬nearest.headI.2 < ((SYMBOL_RADIUS * 2 : ℤ) : ℝ) ∧
         nearest.headI.2 ≤ ((MAX_PLACEMENT_DISTANCE : ℤ) : ℝ)))

/-! ### Read-only accessors -/

def getPoints (g : Game) : List Point := g.points

def getState (g : Game) : GameState := g.state

def getWinPoints (g : Game) : List Point := g.winPoints

def getLineGroups (g : Game) (player : Player) : List LineGroup :=
  if player = 0 then g.lineGroups0 else g.lineGroups1

def getPlayerPoints (g : Game) (player : Player) : List Point :=
  g.points.filter fun p => decide (p.player = player)

/-- Game.clone: replay every recorded move (unscaled back to world units)
onto a fresh game. -/
def clone (g : Game) : Game :=
  g.points.foldl
    (fun c p => (addMove c ((p.x : ℝ) / (SCALE : ℝ)) ((p.y : ℝ) / (SCALE : ℝ)) p.player).2)
    freshGame

/-! ### Reachability -/

/-- One submitted move: world coordinates and the acting player (the engine
does not enforce turn alternation). -/
structure Move where
  x : ℝ
  y : ℝ
  player : Player

def playMoves (g : Game) (ms : List Move) : Game :=
  ms.foldl (fun h m => (addMove h m.x m.y m.player).2) g

/-- The game reached from a fresh game by a sequence of attempted moves. -/
def playGame (ms : List Move) : Game := playMoves freshGame ms

/-! ### The medium AI (src/src/ai/types.ts: types.ts and medium.ts) -/

def WIN_SCORE : ℝ := 100000

def MINIMAX_DEPTH : ℕ := 2

inductive MoveReason where
  | CRITICAL_BLOCK
  | DEFENSIVE_BLOCK
  | OFFENSIVE_EXTENSION
  | NEARBY_RANDOM
  | FALLBACK
deriving DecidableEq, Repr

/-- Configurable weights of the medium AI (MediumAIConfig). -/
structure MediumAIConfig where
  lineWeight2 : ℝ
  lineWeight3 : ℝ
  lineWeight4 : ℝ
  openFactor : ℝ
  opponentBias : ℝ
  clusteringDecay : ℝ
  clusteringWeight : ℝ
  criticalBlockScore : ℝ
  defensiveBlockScore : ℝ
  offensiveExtensionScore : ℝ
  threatSizeWeight : ℝ
  clusterQuickWeight : ℝ
  maxCandidates : ℕ

def DEFAULT_MEDIUM_CONFIG : MediumAIConfig :=
  { lineWeight2 := 15, lineWeight3 := 200, lineWeight4 := 5000, openFactor := 3,
    opponentBias := 1.3, clusteringDecay := 30, clusteringWeight := 5,
    criticalBlockScore := 500, defensiveBlockScore := 150,
    offensiveExtensionScore := 50, threatSizeWeight := 30,
    clusterQuickWeight := 10, maxCandidates := 10 }

structure Candidate where
  x : ℝ
  y : ℝ
  reason : MoveReason
  threatSize : ℕ

/-- candidateKey: the pair of rounded scaled coordinates (the JS string key
"sx,sy" determines and is determined by this pair). -/
def candidateKey (x y : ℝ) : ℤ × ℤ :=
  (round (x * (SCALE : ℝ)), round (y * (SCALE : ℝ)))

/-- A JS Map in insertion order, as an association list. -/
abbrev CandMap := List ((ℤ × ℤ) × Candidate)

def mapGet (m : CandMap) (k : ℤ × ℤ) : Option Candidate :=
  (m.find? fun e => decide (e.1 = k)).map Prod.snd

/-- JS Map.set: overwrite in place if the key exists, else append. -/
def mapSet (m : CandMap) (k : ℤ × ℤ) (v : Candidate) : CandMap :=
  if (m.find? fun e => decide (e.1 = k)).isSome then
    m.map fun e => if e.1 = k then (k, v) else e
  else m ++ [(k, v)]

/-- The low extension point of a group: origin + dir·(minProj − spacing),
unscaled (IDEAL_SPACING·SCALE is the spacing at the internal scale). -/
def extLow (group : LineGroup) : ℝ × ℝ :=
  (((group.originX : ℝ) + group.dirX *
      (group.projections.headI - ((IDEAL_SPACING * SCALE : ℤ) : ℝ))) / (SCALE : ℝ),
   ((group.originY : ℝ) + group.dirY *
      (group.projections.headI - ((IDEAL_SPACING * SCALE : ℤ) : ℝ))) / (SCALE : ℝ))

/-- The high extension point of a group: origin + dir·(maxProj + spacing). -/
def extHigh (group : LineGroup) : ℝ × ℝ :=
  (((group.originX : ℝ) + group.dirX *
      (group.projections.getLastD 0 + ((IDEAL_SPACING * SCALE : ℤ) : ℝ))) / (SCALE : ℝ),
   ((group.originY : ℝ) + group.dirY *
      (group.projections.getLastD 0 + ((IDEAL_SPACING * SCALE : ℤ) : ℝ))) / (SCALE : ℝ))

def reasonPriority : MoveReason → ℕ
  | MoveReason.CRITICAL_BLOCK => 4
  | MoveReason.DEFENSIVE_BLOCK => 3
  | MoveReason.OFFENSIVE_EXTENSION => 2
  | MoveReason.NEARBY_RANDOM => 1
  | MoveReason.FALLBACK => 0

/-- One key update of addLineExtensions: set unless a non-NEARBY_RANDOM
candidate already holds the key. -/
def addExtCand (cands : CandMap) (e : ℝ × ℝ) (threat : ℕ) : CandMap :=
  match mapGet cands (candidateKey e.1 e.2) with
  | none => mapSet cands (candidateKey e.1 e.2)
      ⟨e.1, e.2, MoveReason.OFFENSIVE_EXTENSION, threat⟩
  | some c =>
    if c.reason = MoveReason.NEARBY_RANDOM then
      mapSet cands (candidateKey e.1 e.2)
        ⟨e.1, e.2, MoveReason.OFFENSIVE_EXTENSION, threat⟩
    else cands

def addLineExtensions (groups : List LineGroup) (cands : CandMap) : CandMap :=
  groups.foldl
    (fun cs group =>
      if group.stones.length < 2 then cs
      else addExtCand (addExtCand cs (extLow group) group.stones.length)
        (extHigh group) group.stones.length)
    cands

/-- One key update of addBlockingMoves: set unless an existing candidate has
priority and threat at least as high. -/
def addBlockCand (cands : CandMap) (e : ℝ × ℝ) (reason : MoveReason) (threat : ℕ) :
    CandMap :=
  match mapGet cands (candidateKey e.1 e.2) with
  | none => mapSet cands (candidateKey e.1 e.2) ⟨e.1, e.2, reason, threat⟩
  | some c =>
    if reasonPriority c.reason < reasonPriority reason ∨ c.threatSize < threat then
      mapSet cands (candidateKey e.1 e.2) ⟨e.1, e.2, reason, threat⟩
    else cands

def addBlockingMoves (groups : List LineGroup) (cands : CandMap) : CandMap :=
  groups.foldl
    (fun cs group =>
      if group.stones.length < 2 then cs
      else
        addBlockCand
          (addBlockCand cs (extLow group)
            (if 4 ≤ group.stones.length then MoveReason.CRITICAL_BLOCK
             else MoveReason.DEFENSIVE_BLOCK) group.stones.length)
          (extHigh group)
          (if 4 ≤ group.stones.length then MoveReason.CRITICAL_BLOCK
           else MoveReason.DEFENSIVE_BLOCK) group.stones.length)
    cands

def tacticalAngles : List ℝ :=
  [0, Real.pi / 4, Real.pi / 2, 3 * Real.pi / 4, Real.pi, 5 * Real.pi / 4,
    3 * Real.pi / 2, 7 * Real.pi / 4]

def addTacticalNeighbors (playerPoints : List Point) (cands : CandMap) : CandMap :=
  playerPoints.foldl
    (fun cs stone =>
      tacticalAngles.foldl
        (fun cs' angle =>
          match mapGet cs' (candidateKey
              ((stone.x : ℝ) / (SCALE : ℝ) + Real.cos angle * (IDEAL_SPACING : ℝ))
              ((stone.y : ℝ) / (SCALE : ℝ) + Real.sin angle * (IDEAL_SPACING : ℝ))) with
          | none => mapSet cs' (candidateKey
                ((stone.x : ℝ) / (SCALE : ℝ) + Real.cos angle * (IDEAL_SPACING : ℝ))
                ((stone.y : ℝ) / (SCALE : ℝ) + Real.sin angle * (IDEAL_SPACING : ℝ)))
              ⟨(stone.x : ℝ) / (SCALE : ℝ) + Real.cos angle * (IDEAL_SPACING : ℝ),
               (stone.y : ℝ) / (SCALE : ℝ) + Real.sin angle * (IDEAL_SPACING : ℝ),
               MoveReason.OFFENSIVE_EXTENSION, 0⟩
          | some _ => cs')
        cs)
    cands

/-- MediumAI.generateCandidates: line extensions, blocking moves, tactical
neighbors when too few, then drop everything isValidMove rejects. -/
def generateCandidates (cfg : MediumAIConfig) (game : Game) (player : Player) :
    List Candidate :=
  let opponent : Player := if player = 0 then 1 else 0
  let m1 := addLineExtensions (getLineGroups game player) []
  let m2 := addBlockingMoves (getLineGroups game opponent) m1
  let m3 := if m2.length < cfg.maxCandidates
    then addTacticalNeighbors (getPlayerPoints game player) m2 else m2
  (m3.map Prod.snd).filter fun c => decide (isValidMove game c.x c.y)

/-- MediumAI.quickScore: reason score + threat weight + clustering bonus to
the closest own stone. -/
def quickScore (cfg : MediumAIConfig) (c : Candidate) (game : Game)
    (player : Player) : ℝ :=
  let base :=
    (if c.reason = MoveReason.CRITICAL_BLOCK then cfg.criticalBlockScore
     else if c.reason = MoveReason.DEFENSIVE_BLOCK then cfg.defensiveBlockScore
     else if c.reason = MoveReason.OFFENSIVE_EXTENSION then cfg.offensiveExtensionScore
     else 0) + (c.threatSize : ℝ) * cfg.threatSizeWeight
  match (getPlayerPoints game player).map (fun s =>
      Real.sqrt (((s.x : ℝ) - c.x * (SCALE : ℝ)) ^ 2 +
        ((s.y : ℝ) - c.y * (SCALE : ℝ)) ^ 2) / (SCALE : ℝ)) with
  | [] => base
  | d :: ds =>
    base + cfg.clusterQuickWeight * Real.exp (-(ds.foldl min d) / cfg.clusteringDecay)

/-- MediumAI.lineScore's longest gap-bounded run scan (maxRun). -/
def maxRunAux : ℝ → List ℝ → ℕ → ℕ → ℕ
  | _, [], _, best => best
  | prev, next :: rest, cur, best =>
    if next - prev ≤ (WIN_D_MAX : ℝ) then
      maxRunAux next rest (cur + 1) (max best (cur + 1))
    else maxRunAux next rest 1 best

def maxRun : List ℝ → ℕ
  | [] => 1
  | p :: rest => maxRunAux p rest 1 1

/-- MediumAI.lineScore. -/
def lineScore (cfg : MediumAIConfig) (group : LineGroup) (state : Game) : ℝ :=
  if group.projections.length < 2 then 0
  else
    let mr := maxRun group.projections
    if 5 ≤ mr then WIN_SCORE
    else if mr < 2 then 0
    else
      let openEnds : ℕ :=
        (if isValidMove state (extLow group).1 (extLow group).2 then 1 else 0) +
        (if isValidMove state (extHigh group).1 (extHigh group).2 then 1 else 0)
      if openEnds = 0 then 0
      else
        (if mr = 2 then cfg.lineWeight2
         else if mr = 3 then cfg.lineWeight3
         else if mr = 4 then cfg.lineWeight4
         else (mr : ℝ) * 5) *
        (if openEnds = 2 then cfg.openFactor else 1)

/-- The unordered pair distances of the clustering loop (i < j), in world
units; their sum and count are what evaluate uses. -/
def pairDists : List Point → List ℝ
  | [] => []
  | p :: rest => (rest.map fun q => distance p q) ++ pairDists rest

/-- MediumAI.evaluate. -/
def evaluate (cfg : MediumAIConfig) (state : Game) (aiPlayer : Player) : ℝ :=
  let opponent : Player := if aiPlayer = 0 then 1 else 0
  let score :=
    ((getLineGroups state aiPlayer).map fun g => lineScore cfg g state).sum -
    (((getLineGroups state opponent).map fun g => lineScore cfg g state).sum) *
      cfg.opponentBias
  let aiPoints := getPlayerPoints state aiPlayer
  if 1 < aiPoints.length then
    score + cfg.clusteringWeight *
      Real.exp (-((pairDists aiPoints).sum / ((pairDists aiPoints).length : ℝ)) /
        cfg.clusteringDecay)
  else score

/-- The maximizing inner loop of minimax (alpha updates, beta fixed); `f`
is the recursive call at the next depth. -/
def mmLoopMax (cp : Player) (state : Game) (beta : EReal)
    (f : Game → EReal → EReal) :
    List Candidate → EReal → EReal → EReal
  | [], maxEval, _ => maxEval
  | m :: rest, maxEval, alpha =>
    match (addMove (clone state) m.x m.y cp).1 with
    | none => mmLoopMax cp state beta f rest maxEval alpha
    | some _ =>
      let ev := f (addMove (clone state) m.x m.y cp).2 alpha
      if beta ≤ max alpha ev then max maxEval ev
      else mmLoopMax cp state beta f rest (max maxEval ev) (max alpha ev)

/-- The minimizing inner loop of minimax (beta updates, alpha fixed). -/
def mmLoopMin (cp : Player) (state : Game) (alpha : EReal)
    (f : Game → EReal → EReal) :
    List Candidate → EReal → EReal → EReal
  | [], minEval, _ => minEval
  | m :: rest, minEval, beta =>
    match (addMove (clone state) m.x m.y cp).1 with
    | none => mmLoopMin cp state alpha f rest minEval beta
    | some _ =>
      let ev := f (addMove (clone state) m.x m.y cp).2 beta
      if min beta ev ≤ alpha then min minEval ev
      else mmLoopMin cp state alpha f rest (min minEval ev) (min beta ev)

/-- MediumAI.minimax with alpha-beta; JS ±Infinity scores live in EReal. -/
def minimax (cfg : MediumAIConfig) (aiPlayer : Player) :
    ℕ → Game → EReal → EReal → Bool → EReal
  | depth, state, alpha, beta, maximizing =>
    if state.state ≠ GameState.ONGOING then
      (if state.state = (if aiPlayer = 0 then GameState.WIN_0 else GameState.WIN_1)
       then (WIN_SCORE : EReal) else ((-WIN_SCORE : ℝ) : EReal))
    else
      match depth with
      | 0 => ((evaluate cfg state aiPlayer : ℝ) : EReal)
      | d + 1 =>
        let currentPlayer : Player := if maximizing then aiPlayer
          else (if aiPlayer = 0 then 1 else 0)
        let moves := generateCandidates cfg state currentPlayer
        if moves = [] then ((evaluate cfg state aiPlayer : ℝ) : EReal)
        else
          let top := (sortOn (fun a b =>
            quickScore cfg b state currentPlayer ≤ quickScore cfg a state currentPlayer)
            moves).take cfg.maxCandidates
          if maximizing then
            mmLoopMax currentPlayer state beta
              (fun g a => minimax cfg aiPlayer d g a beta false) top ⊥ alpha
          else
            mmLoopMin currentPlayer state alpha
              (fun g b => minimax cfg aiPlayer d g alpha b true) top ⊤ beta

/-- The root candidate loop of getMove: simulate each candidate, keep the
first strict maximum of the minimax scores. -/
def rootLoop (cfg : MediumAIConfig) (game : Game) (player : Player) :
    List Candidate → EReal → Option Candidate → EReal × Option Candidate
  | [], bestScore, bestMove => (bestScore, bestMove)
  | c :: rest, bestScore, bestMove =>
    match (addMove (clone game) c.x c.y player).1 with
    | none => rootLoop cfg game player rest bestScore bestMove
    | some _ =>
      let score := minimax cfg player MINIMAX_DEPTH
        (addMove (clone game) c.x c.y player).2 ⊥ ⊤ false
      if bestScore < score then rootLoop cfg game player rest score (some c)
      else rootLoop cfg game player rest bestScore bestMove

/-- MediumAI.firstMove: 20 ring positions around the first opponent stone,
else a fixed offset (no validity check on the final fallback). -/
def firstMove (game : Game) (opponentPoints : List Point) : ℝ × ℝ :=
  match opponentPoints with
  | [] => (400, 400)
  | target :: _ =>
    match (List.range 20).find? (fun i => decide (isValidMove game
        ((target.x : ℝ) / (SCALE : ℝ) +
          Real.cos (Real.pi * 2 * i / 20) * (IDEAL_SPACING : ℝ))
        ((target.y : ℝ) / (SCALE : ℝ) +
          Real.sin (Real.pi * 2 * i / 20) * (IDEAL_SPACING : ℝ)))) with
    | some i =>
      ((target.x : ℝ) / (SCALE : ℝ) +
         Real.cos (Real.pi * 2 * i / 20) * (IDEAL_SPACING : ℝ),
       (target.y : ℝ) / (SCALE : ℝ) +
         Real.sin (Real.pi * 2 * i / 20) * (IDEAL_SPACING : ℝ))
    | none =>
      ((target.x : ℝ) / (SCALE : ℝ) + (IDEAL_SPACING : ℝ),
       (target.y : ℝ) / (SCALE : ℝ))

/-- One random placement attempt of fallbackMove.  `rng n` models the n-th
Math.random() output (a value in [0,1)); attempt k draws indices 3k, 3k+1,
3k+2 for the target index, the angle and the distance. -/
def fbCand (allPoints : List Point) (rng : ℕ → ℝ) (attempt : ℕ) : ℝ × ℝ :=
  let target := allPoints.getD (⌊rng (3 * attempt) * (allPoints.length : ℝ)⌋).toNat
    default
  ((target.x : ℝ) / (SCALE : ℝ) +
     Real.cos (rng (3 * attempt + 1) * (Real.pi * 2)) *
       ((IDEAL_SPACING : ℝ) + rng (3 * attempt + 2) * 15),
   (target.y : ℝ) / (SCALE : ℝ) +
     Real.sin (rng (3 * attempt + 1) * (Real.pi * 2)) *
       ((IDEAL_SPACING : ℝ) + rng (3 * attempt + 2) * 15))

/-- MediumAI.fallbackMove: 50 random attempts near random existing stones;
the final fallback (a fixed offset of the first stone) skips isValidMove. -/
def fallbackMove (game : Game) (aiPoints opponentPoints : List Point)
    (rng : ℕ → ℝ) : ℝ × ℝ :=
  match (List.range 50).find? (fun a => decide (isValidMove game
      (fbCand (aiPoints ++ opponentPoints) rng a).1
      (fbCand (aiPoints ++ opponentPoints) rng a).2)) with
  | some a => fbCand (aiPoints ++ opponentPoints) rng a
  | none =>
    (((aiPoints ++ opponentPoints).headI.x : ℝ) / (SCALE : ℝ) + (IDEAL_SPACING : ℝ),
     ((aiPoints ++ opponentPoints).headI.y : ℝ) / (SCALE : ℝ))

structure ScoredMove where
  x : ℝ
  y : ℝ
  score : EReal
  reason : MoveReason

/-- MediumAI.getMove. -/
def getMove (cfg : MediumAIConfig) (game : Game) (player : Player)
    (rng : ℕ → ℝ) : ScoredMove :=
  let opponent : Player := if player = 0 then 1 else 0
  let aiPoints := getPlayerPoints game player
  let opponentPoints := getPlayerPoints game opponent
  if aiPoints = [] then
    ⟨(firstMove game opponentPoints).1, (firstMove game opponentPoints).2,
      ((0 : ℝ) : EReal), MoveReason.FALLBACK⟩
  else
    let allCandidates := generateCandidates cfg game player
    if allCandidates = [] then
      ⟨(fallbackMove game aiPoints opponentPoints rng).1,
       (fallbackMove game aiPoints opponentPoints rng).2,
       ((0 : ℝ) : EReal), MoveReason.FALLBACK⟩
    else
      let top := (sortOn (fun a b =>
        quickScore cfg b game player ≤ quickScore cfg a game player)
        allCandidates).take cfg.maxCandidates
      match rootLoop cfg game player top ⊥ none with
      | (_, none) =>
        ⟨(fallbackMove game aiPoints opponentPoints rng).1,
         (fallbackMove game aiPoints opponentPoints rng).2,
         ((0 : ℝ) : EReal), MoveReason.FALLBACK⟩
      | (bestScore, some best) => ⟨best.x, best.y, bestScore, best.reason⟩

/-! ### Bridge lemmas: every real-valued comparison made by the engine
reduces to an exact integer comparison on squared scaled distances, because
stored coordinates are integers. -/

theorem sqDist_nonneg (a b : Point) : 0 ≤ sqDist a b := by
  unfold sqDist; positivity

theorem distance_def' (a b : Point) :
    distance a b = Real.sqrt ((sqDist a b : ℤ)) / 1000 := by
  have : ((SCALE : ℤ) : ℝ) = 1000 := by norm_num [SCALE]
  rw [distance, this]

theorem distance_nonneg (a b : Point) : 0 ≤ distance a b := by
  rw [distance_def']; positivity

theorem distance_lt_iff (a b : Point) {c : ℝ} (hc : 0 < c) :
    distance a b < c ↔ ((sqDist a b : ℤ) : ℝ) < (c * 1000) ^ 2 := by
  rw [distance_def', div_lt_iff (by norm_num : (0:ℝ) < 1000),
    Real.sqrt_lt' (by positivity)]

theorem distance_le_iff (a b : Point) {c : ℝ} (hc : 0 ≤ c) :
    distance a b ≤ c ↔ ((sqDist a b : ℤ) : ℝ) ≤ (c * 1000) ^ 2 := by
  rw [distance_def', div_le_iff (by norm_num : (0:ℝ) < 1000),
    Real.sqrt_le_left (by positivity)]

theorem le_distance_iff (a b : Point) {c : ℝ} (hc : 0 ≤ c) :
    c ≤ distance a b ↔ (c * 1000) ^ 2 ≤ ((sqDist a b : ℤ) : ℝ) := by
  rw [distance_def', le_div_iff (by norm_num : (0:ℝ) < 1000),
    Real.le_sqrt (by positivity) (by exact_mod_cast sqDist_nonneg a b)]

theorem lt_distance_iff (a b : Point) {c : ℝ} (hc : 0 ≤ c) :
    c < distance a b ↔ (c * 1000) ^ 2 < ((sqDist a b : ℤ) : ℝ) := by
  rw [distance_def', lt_div_iff (by norm_num : (0:ℝ) < 1000),
    Real.lt_sqrt (by positivity)]

theorem distance_le_distance_iff (a b c d : Point) :
    distance a b ≤ distance c d ↔ sqDist a b ≤ sqDist c d := by
  rw [distance_def', distance_def',
    div_le_div_iff_of_pos_right (by norm_num : (0:ℝ) < 1000),
    Real.sqrt_le_sqrt_iff (by exact_mod_cast sqDist_nonneg c d)]
  exact_mod_cast Iff.rfl

theorem distance_lt_distance_iff (a b c d : Point) :
    distance a b < distance c d ↔ sqDist a b < sqDist c d := by
  rw [distance_def', distance_def',
    div_lt_div_iff_of_pos_right (by norm_num : (0:ℝ) < 1000),
    Real.sqrt_lt_sqrt_iff (by exact_mod_cast sqDist_nonneg a b)]
  exact_mod_cast Iff.rfl

theorem lenR_nonneg (dx dy : ℤ) : 0 ≤ lenR dx dy := Real.sqrt_nonneg _

theorem lenR_le_iff (dx dy : ℤ) {c : ℝ} (hc : 0 ≤ c) :
    lenR dx dy ≤ c ↔ ((dx ^ 2 + dy ^ 2 : ℤ) : ℝ) ≤ c ^ 2 := by
  rw [lenR, Real.sqrt_le_left hc]

theorem lt_lenR_iff (dx dy : ℤ) {c : ℝ} (hc : 0 ≤ c) :
    c < lenR dx dy ↔ c ^ 2 < ((dx ^ 2 + dy ^ 2 : ℤ) : ℝ) := by
  rw [lenR, Real.lt_sqrt hc]

theorem lenR_le_eps_iff (dx dy : ℤ) :
    lenR dx dy ≤ EPSILON ↔ dx = 0 ∧ dy = 0 := by
  rw [EPSILON, lenR_le_iff dx dy (by norm_num)]
  constructor
  · intro h
    have h1 : ((dx ^ 2 + dy ^ 2 : ℤ) : ℝ) < 1 := lt_of_le_of_lt h (by norm_num)
    have h2 : dx ^ 2 + dy ^ 2 < 1 := by exact_mod_cast h1
    constructor
    · have : dx ^ 2 = 0 := by nlinarith [sq_nonneg dx, sq_nonneg dy]
      exact pow_eq_zero_iff (by norm_num) |>.mp this
    · have : dy ^ 2 = 0 := by nlinarith [sq_nonneg dx, sq_nonneg dy]
      exact pow_eq_zero_iff (by norm_num) |>.mp this
  · rintro ⟨rfl, rfl⟩
    norm_num

/-- A perfect-square radicand evaluates exactly. -/
theorem sqrt_eq_of_sq (m : ℤ) (n : ℝ) (hn : 0 ≤ n) (h : n ^ 2 = (m : ℝ)) :
    Real.sqrt ((m : ℤ) : ℝ) = n := by
  rw [← h, Real.sqrt_sq hn]

/-! ### Stable insertion sort: permutation, membership, sortedness. -/

theorem insertOn_perm (le : α → α → Prop) (x : α) (l : List α) :
    (insertOn le x l).Perm (x :: l) := by
  induction l with
  | nil => simp [insertOn]
  | cons y ys ih =>
    rw [insertOn]
    by_cases h : le x y
    · rw [if_pos h]
    · rw [if_neg h]
      exact ((ih.cons y).trans (List.Perm.swap x y ys))

theorem sortOn_perm (le : α → α → Prop) (l : List α) : (sortOn le l).Perm l := by
  induction l with
  | nil => simp [sortOn]
  | cons x xs ih =>
    rw [sortOn]
    exact (insertOn_perm le x (sortOn le xs)).trans (ih.cons x)

theorem mem_sortOn_iff (le : α → α → Prop) (l : List α) (a : α) :
    a ∈ sortOn le l ↔ a ∈ l :=
  (sortOn_perm le l).mem_iff

theorem sortOn_length (le : α → α → Prop) (l : List α) :
    (sortOn le l).length = l.length :=
  (sortOn_perm le l).length_eq

theorem insertOn_pairwise (le : α → α → Prop)
    (htrans : ∀ a b c, le a b → le b c → le a c)
    (htot : ∀ a b, le a b ∨ le b a) (x : α) (l : List α)
    (hl : l.Pairwise le) : (insertOn le x l).Pairwise le := by
  induction l with
  | nil => simp [insertOn]
  | cons y ys ih =>
    rw [insertOn]
    rcases List.pairwise_cons.mp hl with ⟨hy, hys⟩
    by_cases h : le x y
    · rw [if_pos h]
      refine List.pairwise_cons.mpr ⟨?_, hl⟩
      intro z hz
      rcases List.mem_cons.mp hz with rfl | hz'
      · exact h
      · exact htrans x y z h (hy z hz')
    · rw [if_neg h]
      refine List.pairwise_cons.mpr ⟨?_, ih hys⟩
      intro z hz
      have hz' : z = x ∨ z ∈ ys := by
        have := (insertOn_perm le x ys).mem_iff.mp hz
        simpa using this
      rcases hz' with rfl | hz'
      · rcases htot y z with h' | h'
        · exact h'
        · exact absurd h' h
      · exact hy z hz'

theorem sortOn_pairwise (le : α → α → Prop)
    (htrans : ∀ a b c, le a b → le b c → le a c)
    (htot : ∀ a b, le a b ∨ le b a) (l : List α) :
    (sortOn le l).Pairwise le := by
  induction l with
  | nil => simp [sortOn]
  | cons x xs ih =>
    rw [sortOn]
    exact insertOn_pairwise le htrans htot x (sortOn le xs) ih

/-! ### nearest-query lemmas -/

theorem nearest1_eq_none_iff (pts : List Point) (q : Point) :
    nearest1 pts q = none ↔ pts = [] := by
  cases pts with
  | nil => simp [nearest1]
  | cons p rest =>
    simp only [nearest1]
    constructor
    · intro h
      rcases h1 : nearest1 rest q with _ | pd
      · rw [h1] at h; simp at h
      · rw [h1] at h
        rcases pd with ⟨b, d⟩
        by_cases hlt : distance p q < d <;> simp [hlt] at h
    · intro h; simp at h

theorem nearest1_spec (pts : List Point) (q : Point) :
    ∀ p d, nearest1 pts q = some (p, d) →
      p ∈ pts ∧ d = distance p q ∧ ∀ r ∈ pts, d ≤ distance r q := by
  induction pts with
  | nil => intro p d h; simp [nearest1] at h
  | cons a rest ih =>
    intro p d h
    rw [nearest1] at h
    rcases h1 : nearest1 rest q with _ | pd
    · rw [h1] at h
      simp only [Option.some.injEq, Prod.mk.injEq] at h
      obtain ⟨rfl, rfl⟩ := h
      have hrest : rest = [] := (nearest1_eq_none_iff rest q).mp h1
      subst hrest
      refine ⟨by simp, rfl, ?_⟩
      intro r hr
      rcases List.mem_cons.mp hr with rfl | hr'
      · exact le_refl _
      · simp at hr'
    · rcases pd with ⟨b, db⟩
      simp only [h1] at h
      obtain ⟨hb, hdb, hmin⟩ := ih b db h1
      by_cases hlt : distance a q < db
      · rw [if_pos hlt] at h
        simp only [Option.some.injEq, Prod.mk.injEq] at h
        obtain ⟨rfl, rfl⟩ := h
        refine ⟨by simp, rfl, ?_⟩
        intro r hr
        rcases List.mem_cons.mp hr with rfl | hr'
        · exact le_refl _
        · exact le_trans (le_of_lt hlt) (hdb ▸ hmin r hr')
      · rw [if_neg hlt] at h
        simp only [Option.some.injEq, Prod.mk.injEq] at h
        obtain ⟨rfl, rfl⟩ := h
        refine ⟨by simp [hb], hdb, ?_⟩
        intro r hr
        rcases List.mem_cons.mp hr with rfl | hr'
        · exact le_of_not_lt hlt
        · exact hmin r hr'

theorem nearestK_mem (pts : List Point) (q : Point) (k : ℕ) (maxR : ℝ)
    (pd : Point × ℝ) (h : pd ∈ nearestK pts q k maxR) :
    pd.1 ∈ pts ∧ pd.2 = distance pd.1 q ∧ pd.2 < maxR := by
  rw [nearestK] at h
  have h1 := List.mem_of_mem_take h
  have h2 := List.mem_of_mem_filter h1
  have h3 := List.of_mem_filter h1
  have h4 := (sortOn_perm (fun a b => a.2 ≤ b.2)
    (pts.map fun p => (p, distance p q))).mem_iff.mp h2
  rcases List.mem_map.mp h4 with ⟨p, hp, rfl⟩
  refine ⟨hp, rfl, ?_⟩
  simpa using h3

theorem nearestK_eq_of_len_le (pts : List Point) (q : Point) (k : ℕ) (maxR : ℝ)
    (hk : pts.length ≤ k) :
    nearestK pts q k maxR =
      (sortOn (fun a b => a.2 ≤ b.2) (pts.map fun p => (p, distance p q))).filter
        (fun pd => decide (pd.2 < maxR)) := by
  rw [nearestK]
  apply List.take_of_length_le
  calc ((sortOn (fun a b => a.2 ≤ b.2) (pts.map fun p => (p, distance p q))).filter
        (fun pd => decide (pd.2 < maxR))).length
      ≤ (sortOn (fun a b => a.2 ≤ b.2) (pts.map fun p => (p, distance p q))).length :=
        List.length_filter_le _ _
    _ = pts.length := by rw [sortOn_length, List.length_map]
    _ ≤ k := hk

theorem nearestK_perm_of_len_le (pts : List Point) (q : Point) (k : ℕ) (maxR : ℝ)
    (hk : pts.length ≤ k) :
    (nearestK pts q k maxR).Perm
      ((pts.map fun p => (p, distance p q)).filter fun pd => decide (pd.2 < maxR)) := by
  rw [nearestK_eq_of_len_le pts q k maxR hk]
  exact (sortOn_perm _ _).filter _

theorem headI_mem_of_ne_nil [Inhabited α] {l : List α} (h : l ≠ []) : l.headI ∈ l := by
  cases l with
  | nil => exact absurd rfl h
  | cons a t => simp

theorem sortOn_headI_le (le : α → α → Prop)
    (hrefl : ∀ a, le a a)
    (htrans : ∀ a b c, le a b → le b c → le a c)
    (htot : ∀ a b, le a b ∨ le b a) [Inhabited α] (l : List α)
    {z : α} (hz : z ∈ sortOn le l) : le (sortOn le l).headI z := by
  have hpw := sortOn_pairwise le htrans htot l
  rcases hs : sortOn le l with _ | ⟨h, t⟩
  · rw [hs] at hz; simp at hz
  · rw [hs] at hz hpw
    rcases List.mem_cons.mp hz with rfl | hz'
    · simpa using hrefl z
    · simpa using (List.pairwise_cons.mp hpw).1 z hz'

/-- The distance metric ignores the probe's player field. -/
theorem nearest1_player_irrel (pts : List Point) (sx sy : ℤ) (a b : Player) :
    nearest1 pts ⟨sx, sy, a⟩ = nearest1 pts ⟨sx, sy, b⟩ := by
  induction pts with
  | nil => rfl
  | cons p rest ih =>
    rw [nearest1, nearest1, ih]
    rcases nearest1 rest ⟨sx, sy, b⟩ with _ | pd
    · rfl
    · rfl

/-! ### Structural facts about addMove -/

/-- A rejected addMove returns the game unchanged. -/
theorem addMove_none_eq (g : Game) (x y : ℝ) (p : Player)
    (h : (addMove g x y p).1 = none) : (addMove g x y p).2 = g := by
  simp only [addMove] at h ⊢
  split_ifs at h ⊢
  any_goals rfl
  all_goals exfalso; revert h; split <;> simp

/-- An addMove that survives all three rejection checks returns the placed
point. -/
theorem addMove_isSome_iff (g : Game) (x y : ℝ) (p : Player) :
    (∃ pt, (addMove g x y p).1 = some pt) ↔ (addMove g x y p).1 ≠ none := by
  rcases h : (addMove g x y p).1 with _ | pt
  · simp
  · simp

/-- C3 (claim theorem): once the game is terminal every addMove is rejected,
and every rejected addMove (terminal, too-close or too-far) leaves all four
observables unchanged. -/
theorem addMove_terminal_absorbing_and_rejection_pure (g : Game) (x y : ℝ) (p : Player) :
    (getState g ≠ GameState.ONGOING → (addMove g x y p).1 = none) ∧
    ((addMove g x y p).1 = none →
      getPoints (addMove g x y p).2 = getPoints g ∧
      getState (addMove g x y p).2 = getState g ∧
      getWinPoints (addMove g x y p).2 = getWinPoints g ∧
      ∀ q : Player, getLineGroups (addMove g x y p).2 q = getLineGroups g q) := by
  constructor
  · intro h
    simp only [addMove, getState] at h ⊢
    rw [if_pos h]
  · intro h
    rw [addMove_none_eq g x y p h]
    exact ⟨rfl, rfl, rfl, fun _ => rfl⟩

/-- A game literal that is already won, used to instantiate C3. -/
def wonGameLit : Game := { freshGame with state := GameState.WIN_0 }

/-- C3 witness: at the terminal game literal, the hypotheses of the claim
theorem hold and the conclusions follow from it. -/
theorem addMove_terminal_absorbing_witness :
    (addMove wonGameLit 0 0 0).1 = none ∧
    getPoints (addMove wonGameLit 0 0 0).2 = getPoints wonGameLit ∧
    getState (addMove wonGameLit 0 0 0).2 = getState wonGameLit := by
  have h := addMove_terminal_absorbing_and_rejection_pure wonGameLit 0 0 0
  have hterm : getState wonGameLit ≠ GameState.ONGOING := by
    simp [getState, wonGameLit, freshGame]
  have hnone := h.1 hterm
  exact ⟨hnone, (h.2 hnone).1, (h.2 hnone).2.1⟩

/-- C2 (claim theorem): if isValidMove holds then an immediately following
addMove on the same state is accepted (returns a point, not null), for
either player. -/
theorem isValidMove_addMove_accepts (g : Game) (x y : ℝ) (player : Player)
    (h : isValidMove g x y) :
    (addMove g x y player).1 =
      some ⟨round (x * ((SCALE : ℤ) : ℝ)), round (y * ((SCALE : ℤ) : ℝ)), player⟩ := by
  obtain ⟨hstate, hrest⟩ := h
  dsimp only at hrest
  simp only [addMove]
  rw [if_neg (not_not_intro hstate)]
  rw [nearest1_player_irrel g.tree0 _ _ player 0,
    nearest1_player_irrel g.tree1 _ _ player 0]
  set sx := round (x * ((SCALE : ℤ) : ℝ)) with hsx
  set sy := round (y * ((SCALE : ℤ) : ℝ)) with hsy
  set L : List (Point × ℝ) :=
    (nearest1 g.tree0 ⟨sx, sy, 0⟩).toList ++ (nearest1 g.tree1 ⟨sx, sy, 0⟩).toList with hL
  have pairRefl : ∀ a : Point × ℝ, a.2 ≤ a.2 := fun _ => le_refl _
  have pairTrans : ∀ a b c : Point × ℝ, a.2 ≤ b.2 → b.2 ≤ c.2 → a.2 ≤ c.2 :=
    fun _ _ _ h1 h2 => le_trans h1 h2
  have pairTot : ∀ a b : Point × ℝ, a.2 ≤ b.2 ∨ b.2 ≤ a.2 := fun a b => le_total _ _
  rcases hrest with hnil | ⟨hnear, hfar⟩
  · -- the sorted candidate list is empty, hence no tree contains any point
    have hLnil : L = [] := by
      have := sortOn_length (fun a b : Point × ℝ => a.2 ≤ b.2) L
      rw [hnil] at this
      exact List.length_eq_zero.mp this.symm
    rw [if_neg (by rw [hLnil]; simp)]
    rw [if_neg (by rw [hLnil]; simp [sortOn])]
    split <;> rfl
  · -- the closest existing stone is neither too close nor too far
    have hhead : ∀ pd ∈ L, (sortOn (fun a b : Point × ℝ => a.2 ≤ b.2) L).headI.2 ≤ pd.2 := by
      intro pd hpd
      exact sortOn_headI_le _ pairRefl pairTrans pairTot L
        ((sortOn_perm (fun a b : Point × ℝ => a.2 ≤ b.2) L).mem_iff.mpr hpd)
    rw [if_neg ?hno]
    case hno =>
      rintro ⟨pd, hpd, hlt⟩
      exact hnear (lt_of_le_of_lt (hhead pd hpd) hlt)
    rw [if_neg ?hfa]
    case hfa =>
      rintro ⟨hlen, hgt⟩
      -- the head of the sorted distance list is at most the head of the
      -- sorted pair list's distance, which is at most MAX_PLACEMENT_DISTANCE
      have hLne : L ≠ [] := by
        intro hnil2
        rw [hnil2] at hlen
        simp [sortOn] at hlen
      have hpairne : sortOn (fun a b : Point × ℝ => a.2 ≤ b.2) L ≠ [] := by
        intro hnil2
        have := sortOn_length (fun a b : Point × ℝ => a.2 ≤ b.2) L
        rw [hnil2] at this
        exact hLne (List.length_eq_zero.mp this.symm)
      have hdmem : (sortOn (fun a b : Point × ℝ => a.2 ≤ b.2) L).headI.2 ∈ L.map Prod.snd :=
        List.mem_map_of_mem Prod.snd
          ((sortOn_perm (fun a b : Point × ℝ => a.2 ≤ b.2) L).subset
            (headI_mem_of_ne_nil hpairne))
      have hmin : (sortOn (· ≤ ·) (L.map Prod.snd)).headI ≤
          (sortOn (fun a b : Point × ℝ => a.2 ≤ b.2) L).headI.2 :=
        sortOn_headI_le _ (fun a : ℝ => le_refl a) (fun _ _ _ h1 h2 => le_trans h1 h2)
          (fun _ _ => le_total _ _) _
          ((sortOn_perm (· ≤ ·) (L.map Prod.snd)).mem_iff.mpr hdmem)
    -- contradiction: head ≤ 60 but the if-condition claims 60 < head
      exact absurd hgt (not_lt_of_le (le_trans hmin hfar))
    split <;> rfl

/-- C2 witness: on a fresh game every position is legal and the subsequent
addMove is accepted. -/
theorem isValidMove_addMove_accepts_witness :
    isValidMove freshGame 0 0 ∧
      (addMove freshGame 0 0 0).1 =
        some ⟨round ((0 : ℝ) * ((SCALE : ℤ) : ℝ)), round ((0 : ℝ) * ((SCALE : ℤ) : ℝ)), 0⟩ := by
  have hvalid : isValidMove freshGame 0 0 := by
    refine ⟨rfl, ?_⟩
    left
    rfl
  exact ⟨hvalid, isValidMove_addMove_accepts freshGame 0 0 0 hvalid⟩

/-! ### The shape of an accepted move -/

theorem distance_comm (a b : Point) : distance a b = distance b a := by
  unfold distance sqDist
  ring_nf

theorem addMove_some_spec (g : Game) (x y : ℝ) (p : Player) (pt : Point)
    (h : (addMove g x y p).1 = some pt) :
    pt = ⟨round (x * ((SCALE : ℤ) : ℝ)), round (y * ((SCALE : ℤ) : ℝ)), p⟩ ∧
    (addMove g x y p).2.points = g.points ++ [pt] ∧
    (p = 0 → (addMove g x y p).2.tree0 = g.tree0 ++ [pt] ∧
      (addMove g x y p).2.tree1 = g.tree1) ∧
    (¬p = 0 → (addMove g x y p).2.tree0 = g.tree0 ∧
      (addMove g x y p).2.tree1 = g.tree1 ++ [pt]) ∧
    g.state = GameState.ONGOING ∧
    (∀ pd ∈ (nearest1 g.tree0 pt).toList ++ (nearest1 g.tree1 pt).toList,
      ¬pd.2 < ((SYMBOL_RADIUS * 2 : ℤ) : ℝ)) := by
  simp only [addMove] at h ⊢
  split_ifs at h ⊢ with h1 h2 h3 h4
  · -- accepted, player = 0
    rw [not_not] at h1
    revert h
    split <;>
      (intro h
       simp only [Option.some.injEq] at h
       subst h
       refine ⟨rfl, rfl, fun _ => ⟨rfl, rfl⟩, fun hne => absurd h4 hne, h1, ?_⟩
       intro pd hpd hlt
       exact h2 ⟨pd, hpd, hlt⟩)
  · -- accepted, player ≠ 0
    rw [not_not] at h1
    revert h
    split <;>
      (intro h
       simp only [Option.some.injEq] at h
       subst h
       refine ⟨rfl, rfl, fun he => absurd he h4, fun _ => ⟨rfl, rfl⟩, h1, ?_⟩
       intro pd hpd hlt
       exact h2 ⟨pd, hpd, hlt⟩)

/-! ### C4: the no-overlap invariant -/

theorem player_cases (p : Player) : p = 0 ∨ p = 1 := by
  rcases p with ⟨pv, hp⟩
  interval_cases pv
  · left; rfl
  · right; rfl

/-- The inductive invariant: the two trees hold exactly the two players'
points, and all points are pairwise at least 2×SYMBOL_RADIUS apart in
world units. -/
def Inv (g : Game) : Prop :=
  g.tree0 = g.points.filter (fun p => decide (p.player = 0)) ∧
  g.tree1 = g.points.filter (fun p => decide (p.player = 1)) ∧
  g.points.Pairwise (fun a b => ((2 * SYMBOL_RADIUS : ℤ) : ℝ) ≤ distance a b)

theorem inv_fresh : Inv freshGame := by
  refine ⟨rfl, rfl, ?_⟩
  simp [freshGame]

theorem inv_step (g : Game) (x y : ℝ) (p : Player) (h : Inv g) :
    Inv ((addMove g x y p).2) := by
  obtain ⟨ht0, ht1, hpw⟩ := h
  rcases hres : (addMove g x y p).1 with _ | pt
  · rw [addMove_none_eq g x y p hres]
    exact ⟨ht0, ht1, hpw⟩
  · obtain ⟨hpt, hpoints, htp0, htp1, _, hfar⟩ := addMove_some_spec g x y p pt hres
    -- every existing point is at distance at least 20 from the new point
    have hfar' : ∀ r ∈ g.points, ((2 * SYMBOL_RADIUS : ℤ) : ℝ) ≤ distance r pt := by
      intro r hr
      have hr01 : r ∈ g.tree0 ∨ r ∈ g.tree1 := by
        rcases player_cases r.player with h0 | h0
        · left; rw [ht0]; exact List.mem_filter.mpr ⟨hr, by simp [h0]⟩
        · right; rw [ht1]; exact List.mem_filter.mpr ⟨hr, by simp [h0]⟩
      have key : ∀ tree : List Point, r ∈ tree →
          (∀ pd ∈ (nearest1 tree pt).toList, ¬pd.2 < ((SYMBOL_RADIUS * 2 : ℤ) : ℝ)) →
          ((2 * SYMBOL_RADIUS : ℤ) : ℝ) ≤ distance r pt := by
        intro tree hrt hnd
        rcases hn : nearest1 tree pt with _ | bd
        · rw [(nearest1_eq_none_iff tree pt).mp hn] at hrt
          simp at hrt
        · rcases bd with ⟨b, d⟩
          obtain ⟨_, _, hmin⟩ := nearest1_spec tree pt b d hn
          have hge : ¬d < ((SYMBOL_RADIUS * 2 : ℤ) : ℝ) := by
            apply hnd (b, d)
            rw [hn]
            simp
          have h20 : ((SYMBOL_RADIUS * 2 : ℤ) : ℝ) ≤ d := le_of_not_lt hge
          calc ((2 * SYMBOL_RADIUS : ℤ) : ℝ) = ((SYMBOL_RADIUS * 2 : ℤ) : ℝ) := by ring_nf
            _ ≤ d := h20
            _ ≤ distance r pt := hmin r hrt
      rcases hr01 with hrt | hrt
      · refine key g.tree0 hrt ?_
        intro pd hpd
        exact hfar pd (List.mem_append.mpr (Or.inl hpd))
      · refine key g.tree1 hrt ?_
        intro pd hpd
        exact hfar pd (List.mem_append.mpr (Or.inr hpd))
    have hfilters : pt.player = p := by rw [hpt]
    refine ⟨?_, ?_, ?_⟩
    · rw [hpoints, List.filter_append]
      rcases player_cases p with h0 | h0
      · obtain ⟨e0, _⟩ := htp0 h0
        rw [e0, ht0]
        congr 1
        simp [hfilters, h0]
      · have hne : ¬p = 0 := by rw [h0]; decide
        obtain ⟨e0, _⟩ := htp1 hne
        rw [e0, ht0]
        have hnil : (([pt]).filter (fun q => decide (q.player = 0))) = [] := by
          simp [hfilters, h0]
        rw [hnil, List.append_nil]
    · rw [hpoints, List.filter_append]
      rcases player_cases p with h0 | h0
      · obtain ⟨_, e1⟩ := htp0 h0
        rw [e1, ht1]
        have hnil : (([pt]).filter (fun q => decide (q.player = 1))) = [] := by
          simp [hfilters, h0]
        rw [hnil, List.append_nil]
      · have hne : ¬p = 0 := by rw [h0]; decide
        obtain ⟨_, e1⟩ := htp1 hne
        rw [e1, ht1]
        congr 1
        simp [hfilters, h0]
    · rw [hpoints]
      rw [List.pairwise_append]
      refine ⟨hpw, by simp, ?_⟩
      intro a ha b hb
      rw [List.mem_singleton.mp hb]
      exact hfar' a ha

theorem inv_playMoves (g : Game) (ms : List Move) (h : Inv g) :
    Inv (playMoves g ms) := by
  induction ms generalizing g with
  | nil => exact h
  | cons m rest ih =>
    rw [playMoves, List.foldl_cons]
    exact ih _ (inv_step g m.x m.y m.player h)

/-- C4 (claim theorem): in every reachable game state, any two distinct
accepted symbols are at Euclidean distance (in unscaled world units) at
least 2×SYMBOL_RADIUS from each other. -/
theorem no_overlap_invariant (ms : List Move) :
    (getPoints (playGame ms)).Pairwise
      (fun a b => ((2 * SYMBOL_RADIUS : ℤ) : ℝ) ≤ distance a b) :=
  (inv_playMoves freshGame ms inv_fresh).2.2

/-! ### C5: clone fidelity -/

/-- addMove only reads its coordinates through their rounded scaled values. -/
theorem addMove_round_congr (g : Game) (x y x' y' : ℝ) (p : Player)
    (hx : round (x * ((SCALE : ℤ) : ℝ)) = round (x' * ((SCALE : ℤ) : ℝ)))
    (hy : round (y * ((SCALE : ℤ) : ℝ)) = round (y' * ((SCALE : ℤ) : ℝ))) :
    addMove g x y p = addMove g x' y' p := by
  simp only [addMove, hx, hy]

theorem round_unscale (n : ℤ) :
    round (((n : ℝ) / ((SCALE : ℤ) : ℝ)) * ((SCALE : ℤ) : ℝ)) = n := by
  have h1000 : ((SCALE : ℤ) : ℝ) ≠ 0 := by norm_num [SCALE]
  rw [div_mul_cancel₀ _ h1000, round_intCast]

theorem clone_playGame (ms : List Move) : clone (playGame ms) = playGame ms := by
  induction ms using List.reverseRecOn with
  | nil => rfl
  | append_singleton ms m ih =>
    rw [playGame, playMoves, List.foldl_append, List.foldl_cons, List.foldl_nil]
    rw [playGame, playMoves] at ih
    set g := List.foldl (fun h m => (addMove h m.x m.y m.player).2) freshGame ms with hg
    rcases hres : (addMove g m.x m.y m.player).1 with _ | pt
    · rw [addMove_none_eq g m.x m.y m.player hres]
      exact ih
    · obtain ⟨hpt, hpoints, _, _, _, _⟩ := addMove_some_spec g m.x m.y m.player pt hres
      rw [clone, hpoints, List.foldl_append, List.foldl_cons, List.foldl_nil]
      have hclone : List.foldl
          (fun c p => (addMove c ((p.x : ℝ) / ((SCALE : ℤ) : ℝ)) ((p.y : ℝ) / ((SCALE : ℤ) : ℝ)) p.player).2)
          freshGame g.points = g := ih
      rw [hclone]
      have : addMove g ((pt.x : ℝ) / ((SCALE : ℤ) : ℝ)) ((pt.y : ℝ) / ((SCALE : ℤ) : ℝ)) pt.player =
          addMove g m.x m.y m.player := by
        have hxr : round (((pt.x : ℝ) / ((SCALE : ℤ) : ℝ)) * ((SCALE : ℤ) : ℝ)) =
            round (m.x * ((SCALE : ℤ) : ℝ)) := by
          rw [round_unscale, hpt]
        have hyr : round (((pt.y : ℝ) / ((SCALE : ℤ) : ℝ)) * ((SCALE : ℤ) : ℝ)) =
            round (m.y * ((SCALE : ℤ) : ℝ)) := by
          rw [round_unscale, hpt]
        have hpl : pt.player = m.player := by rw [hpt]
        rw [hpl]
        exact addMove_round_congr g _ _ m.x m.y m.player hxr hyr
      rw [this]

/-- C5 (claim theorem): the clone of any reachable game deep-equals it as a
value: same points, same state, and in fact the same full game record, so
the clone is fully independent of the original (mutating one value cannot
affect another in a value semantics). -/
theorem clone_fidelity (ms : List Move) :
    getPoints (clone (playGame ms)) = getPoints (playGame ms) ∧
    getState (clone (playGame ms)) = getState (playGame ms) ∧
    clone (playGame ms) = playGame ms := by
  refine ⟨?_, ?_, clone_playGame ms⟩
  · rw [clone_playGame ms]
  · rw [clone_playGame ms]

/-! ### C6: checkWin's angle buckets are NOT undirected -/

theorem pi_div_win_angle_step : Real.pi / WIN_ANGLE_STEP = 32 := by
  rw [WIN_ANGLE_STEP]
  field_simp

theorem lenR_pos_of_ne (dx dy : ℤ) (h : ¬(dx = 0 ∧ dy = 0)) : 0 < lenR dx dy := by
  rw [lenR]
  apply Real.sqrt_pos.mpr
  have h1 : (0 : ℤ) < dx ^ 2 + dy ^ 2 := by
    rcases not_and_or.mp h with h' | h'
    · have := pow_two_pos_of_ne_zero h'
      nlinarith [sq_nonneg dy]
    · have := pow_two_pos_of_ne_zero h'
      nlinarith [sq_nonneg dx]
  exact_mod_cast h1

theorem lenR_neg_neg (dx dy : ℤ) : lenR (-dx) (-dy) = lenR dx dy := by
  rw [lenR, lenR]
  congr 1
  push_cast
  ring

theorem lenR_one_zero : lenR 1 0 = 1 := by
  rw [lenR]
  norm_num

/-- cwBucket as the rounded argument of the complex unit direction. -/
theorem cwBucket_eq_arg (dx dy : ℤ) :
    cwBucket dx dy =
      round (Complex.arg ⟨(dx : ℝ) / lenR dx dy, (dy : ℝ) / lenR dx dy⟩ / WIN_ANGLE_STEP) := by
  rw [cwBucket, atan2]

theorem cwBucket_one_zero : cwBucket 1 0 = 0 := by
  rw [cwBucket_eq_arg, lenR_one_zero]
  have hz : (⟨((1 : ℤ) : ℝ) / 1, ((0 : ℤ) : ℝ) / 1⟩ : ℂ) = 1 := by
    simp [Complex.ext_iff]
  rw [hz, Complex.arg_one, zero_div, round_zero]

theorem cwBucket_neg_one_zero : cwBucket (-1) 0 = 32 := by
  rw [cwBucket_eq_arg]
  have hlen : lenR (-1) 0 = 1 := by norm_num [lenR]
  rw [hlen]
  have hz : (⟨((-1 : ℤ) : ℝ) / 1, ((0 : ℤ) : ℝ) / 1⟩ : ℂ) = -1 := by
    simp [Complex.ext_iff]
  rw [hz, Complex.arg_neg_one, pi_div_win_angle_step]
  have : (32 : ℝ) = ((32 : ℤ) : ℝ) := by norm_num
  rw [this, round_intCast]

/-- C6 counterexample: the candidate directions (1,0) and (−1,0) from a
placed point differ by exactly π, yet checkWin quantizes them into the
distinct buckets 0 and 32 — there is no canonicalization in checkWin, so the
opposite direction is NOT skipped as already tried. -/
theorem cwBucket_not_undirected :
    cwBucket 1 0 = 0 ∧ cwBucket (-1) 0 = 32 ∧ cwBucket 1 0 ≠ cwBucket (-1) 0 := by
  refine ⟨cwBucket_one_zero, cwBucket_neg_one_zero, ?_⟩
  rw [cwBucket_one_zero, cwBucket_neg_one_zero]
  decide

/-- C6 (amended claim theorem): in checkWin, two candidate directions that
differ by π always land in buckets exactly 32 apart (in particular never the
same bucket): the undirected canonicalization described by the spec exists
only in updateLineGroups, not in checkWin. -/
theorem cwBucket_opposite (dx dy : ℤ) (h : ¬(dx = 0 ∧ dy = 0)) :
    cwBucket (-dx) (-dy) = cwBucket dx dy + 32 ∨
      cwBucket (-dx) (-dy) = cwBucket dx dy - 32 := by
  have hL : 0 < lenR dx dy := lenR_pos_of_ne dx dy h
  rw [cwBucket_eq_arg, cwBucket_eq_arg, lenR_neg_neg]
  set L := lenR dx dy with hLdef
  set z : ℂ := ⟨(dx : ℝ) / L, (dy : ℝ) / L⟩ with hz
  have hneg : (⟨((-dx : ℤ) : ℝ) / L, ((-dy : ℤ) : ℝ) / L⟩ : ℂ) = -z := by
    rw [hz]
    apply Complex.ext
    · show ((-dx : ℤ) : ℝ) / L = -((dx : ℝ) / L)
      push_cast
      ring
    · show ((-dy : ℤ) : ℝ) / L = -((dy : ℝ) / L)
      push_cast
      ring
  rw [hneg]
  have h32 : (32 : ℝ) = ((32 : ℤ) : ℝ) := by norm_num
  rcases lt_trichotomy z.im 0 with hy | hy | hy
  · -- im < 0: arg (-z) = arg z + π
    left
    rw [Complex.arg_neg_eq_arg_add_pi_of_im_neg hy, add_div, pi_div_win_angle_step,
      h32, round_add_int]
  · -- im = 0: z is a nonzero real
    have hdy : dy = 0 := by
      have : (dy : ℝ) / L = 0 := hy
      rcases div_eq_zero_iff.mp this with h' | h'
      · exact_mod_cast h'
      · exact absurd h' (ne_of_gt hL)
    have hdx : dx ≠ 0 := fun hdx0 => h ⟨hdx0, hdy⟩
    have hzre : z = Complex.ofReal ((dx : ℝ) / L) := by
      apply Complex.ext
      · simp [hz]
      · simpa [hz] using hy
    have hne : (dx : ℝ) / L ≠ 0 :=
      div_ne_zero (by exact_mod_cast hdx) (ne_of_gt hL)
    rcases lt_or_gt_of_ne hne with hx | hx
    · -- negative real: arg z = π, arg (-z) = 0
      right
      have h1 : Complex.arg (Complex.ofReal ((dx : ℝ) / L)) = Real.pi :=
        Complex.arg_ofReal_of_neg hx
      have h2 : Complex.arg (Complex.ofReal (-((dx : ℝ) / L))) = 0 :=
        Complex.arg_ofReal_of_nonneg (by linarith)
      rw [hzre, ← Complex.ofReal_neg, h1, h2, zero_div, round_zero,
        pi_div_win_angle_step, h32, round_intCast]
      decide
    · -- positive real: arg z = 0, arg (-z) = π
      left
      have h1 : Complex.arg (Complex.ofReal ((dx : ℝ) / L)) = 0 :=
        Complex.arg_ofReal_of_nonneg (le_of_lt hx)
      have h2 : Complex.arg (Complex.ofReal (-((dx : ℝ) / L))) = Real.pi :=
        Complex.arg_ofReal_of_neg (by linarith)
      rw [hzre, ← Complex.ofReal_neg, h1, h2, zero_div, round_zero,
        pi_div_win_angle_step, h32, round_intCast]
      decide
  · -- im > 0: arg (-z) = arg z - π
    right
    rw [Complex.arg_neg_eq_arg_sub_pi_of_im_pos hy, sub_div, pi_div_win_angle_step,
      h32, round_sub_int]

/-- C6 witness for the amended theorem, at the concrete direction (1, 0). -/
theorem cwBucket_opposite_witness :
    cwBucket (-1) (-0) = cwBucket 1 0 + 32 ∨ cwBucket (-1) (-0) = cwBucket 1 0 - 32 :=
  cwBucket_opposite 1 0 (by simp)

/-! ### Threshold-specialized bridges and rounding helpers -/

theorem round_eq_int (x : ℝ) (n : ℤ) (h : x * ((SCALE : ℤ) : ℝ) = (n : ℝ)) :
    round (x * ((SCALE : ℤ) : ℝ)) = n := by
  rw [h, round_intCast]

theorem dist_lt_overlap_iff (a b : Point) :
    distance a b < ((SYMBOL_RADIUS * 2 : ℤ) : ℝ) ↔ sqDist a b < 400000000 := by
  rw [@distance_lt_iff a b (((SYMBOL_RADIUS * 2 : ℤ) : ℝ)) (by norm_num [SYMBOL_RADIUS])]
  have he : ((((SYMBOL_RADIUS * 2 : ℤ) : ℝ)) * 1000) ^ 2 = ((400000000 : ℤ) : ℝ) := by
    norm_num [SYMBOL_RADIUS]
  rw [he]
  exact_mod_cast Iff.rfl

theorem maxplace_lt_dist_iff (a b : Point) :
    ((MAX_PLACEMENT_DISTANCE : ℤ) : ℝ) < distance a b ↔ 3600000000 < sqDist a b := by
  rw [@lt_distance_iff a b (((MAX_PLACEMENT_DISTANCE : ℤ) : ℝ))
    (by norm_num [MAX_PLACEMENT_DISTANCE, SYMBOL_RADIUS])]
  have he : ((((MAX_PLACEMENT_DISTANCE : ℤ) : ℝ)) * 1000) ^ 2 = ((3600000000 : ℤ) : ℝ) := by
    norm_num [MAX_PLACEMENT_DISTANCE, SYMBOL_RADIUS]
  rw [he]
  exact_mod_cast Iff.rfl

theorem dist_le_maxplace_iff (a b : Point) :
    distance a b ≤ ((MAX_PLACEMENT_DISTANCE : ℤ) : ℝ) ↔ sqDist a b ≤ 3600000000 := by
  rw [@distance_le_iff a b (((MAX_PLACEMENT_DISTANCE : ℤ) : ℝ))
    (by norm_num [MAX_PLACEMENT_DISTANCE, SYMBOL_RADIUS])]
  have he : ((((MAX_PLACEMENT_DISTANCE : ℤ) : ℝ)) * 1000) ^ 2 = ((3600000000 : ℤ) : ℝ) := by
    norm_num [MAX_PLACEMENT_DISTANCE, SYMBOL_RADIUS]
  rw [he]
  exact_mod_cast Iff.rfl

theorem dist_lt_winsearch_iff (a b : Point) :
    distance a b < ((WIN_SEARCH_RADIUS : ℤ) : ℝ) ↔
      sqDist a b < 30625000000000000 := by
  rw [@distance_lt_iff a b (((WIN_SEARCH_RADIUS : ℤ) : ℝ))
    (by norm_num [WIN_SEARCH_RADIUS, WIN_D_MAX])]
  have he : ((((WIN_SEARCH_RADIUS : ℤ) : ℝ)) * 1000) ^ 2 = ((30625000000000000 : ℤ) : ℝ) := by
    norm_num [WIN_SEARCH_RADIUS, WIN_D_MAX]
  rw [he]
  exact_mod_cast Iff.rfl

theorem dist_lt_lgsr_iff (a b : Point) :
    distance a b < ((LINE_GROUP_SEARCH_RADIUS : ℤ) : ℝ) ↔ sqDist a b < 40000000000 := by
  rw [@distance_lt_iff a b (((LINE_GROUP_SEARCH_RADIUS : ℤ) : ℝ))
    (by norm_num [LINE_GROUP_SEARCH_RADIUS])]
  have he : ((((LINE_GROUP_SEARCH_RADIUS : ℤ) : ℝ)) * 1000) ^ 2 = ((40000000000 : ℤ) : ℝ) := by
    norm_num [LINE_GROUP_SEARCH_RADIUS]
  rw [he]
  exact_mod_cast Iff.rfl

/-! ### C7: public accessors expose scaled, not unscaled, coordinates -/

/-- Helper: the first move at world coordinates (25, 0) is accepted and
stored as the scaled integer point (25000, 0). -/
theorem addMove_fresh_25_accepts :
    (addMove freshGame 25 0 0).1 = some ⟨25000, 0, 0⟩ := by
  have hvalid : isValidMove freshGame 25 0 := ⟨rfl, Or.inl rfl⟩
  have hacc := isValidMove_addMove_accepts freshGame 25 0 0 hvalid
  have h25 : round ((25 : ℝ) * ((SCALE : ℤ) : ℝ)) = 25000 :=
    round_eq_int 25 25000 (by norm_num [SCALE])
  have h0 : round ((0 : ℝ) * ((SCALE : ℤ) : ℝ)) = 0 :=
    round_eq_int 0 0 (by norm_num [SCALE])
  rw [h25, h0] at hacc
  exact hacc

/-- C7 counterexample: after addMove(25, 0, 0) on a fresh game, getPoints
returns the symbol with x-coordinate 25000 = SCALE × 25, which is not the
submitted unscaled coordinate 25 (nor any quantization of it): getPoints
returns internally scaled values. -/
theorem getPoints_returns_scaled :
    getPoints ((addMove freshGame 25 0 0).2) = [⟨25000, 0, 0⟩] ∧
    (⟨25000, 0, 0⟩ : Point).x ≠ 25 := by
  obtain ⟨_, hpoints, _⟩ :=
    addMove_some_spec freshGame 25 0 0 _ addMove_fresh_25_accepts
  constructor
  · rw [getPoints, hpoints]
    rfl
  · decide

/-- C7 (amended claim theorem): addMove and isValidMove accept unscaled
world coordinates and quantize them internally, but the symbol observable
through getPoints carries the internally scaled integer coordinates: the
accepted symbol is appended to getPoints with coordinates
round(x·SCALE), round(y·SCALE) — SCALE times the submitted world coordinate
up to the ±1/2 rounding quantization — not the unscaled world coordinates. -/
theorem addMove_stores_scaled (g : Game) (x y : ℝ) (p : Player) (pt : Point)
    (h : (addMove g x y p).1 = some pt) :
    getPoints ((addMove g x y p).2) = getPoints g ++ [pt] ∧
    pt.x = round (x * ((SCALE : ℤ) : ℝ)) ∧
    pt.y = round (y * ((SCALE : ℤ) : ℝ)) ∧
    |(pt.x : ℝ) - x * ((SCALE : ℤ) : ℝ)| ≤ 1 / 2 ∧
    |(pt.y : ℝ) - y * ((SCALE : ℤ) : ℝ)| ≤ 1 / 2 := by
  obtain ⟨hpt, hpoints, _⟩ := addMove_some_spec g x y p pt h
  refine ⟨hpoints, by rw [hpt], by rw [hpt], ?_, ?_⟩
  · rw [hpt, abs_sub_comm]
    exact abs_sub_round (x * ((SCALE : ℤ) : ℝ))
  · rw [hpt, abs_sub_comm]
    exact abs_sub_round (y * ((SCALE : ℤ) : ℝ))

/-! ### Exact values on the x-axis row used by the concrete scenarios -/

theorem distance_xrow (a b : ℤ) (pa pb : Player) :
    distance ⟨a, 0, pa⟩ ⟨b, 0, pb⟩ = ((|a - b| : ℤ) : ℝ) / 1000 := by
  rw [distance_def']
  congr 1
  have hsq : sqDist ⟨a, 0, pa⟩ ⟨b, 0, pb⟩ = |a - b| ^ 2 := by
    simp [sqDist, sq_abs]
  rw [hsq]
  push_cast
  rw [Real.sqrt_sq (by positivity)]

theorem lenR_x (dx : ℤ) : lenR dx 0 = ((|dx| : ℤ) : ℝ) := by
  rw [lenR]
  have h : ((dx ^ 2 + 0 ^ 2 : ℤ) : ℝ) = ((dx : ℝ)) ^ 2 := by push_cast; ring
  rw [h, Real.sqrt_sq_eq_abs]
  push_cast
  rfl

theorem atan2_zero_one : atan2 0 1 = 0 := by
  rw [atan2]
  have hz : (⟨(1 : ℝ), (0 : ℝ)⟩ : ℂ) = 1 := by simp [Complex.ext_iff]
  rw [hz, Complex.arg_one]

theorem atan2_zero_neg_one : atan2 0 (-1) = Real.pi := by
  rw [atan2]
  have hz : (⟨(-1 : ℝ), (0 : ℝ)⟩ : ℂ) = -1 := by simp [Complex.ext_iff]
  rw [hz, Complex.arg_neg_one]

theorem canonicalDir_pos_x (d : ℤ) (hd : 0 < d) : canonicalDir d 0 = (1, 0, 0) := by
  rw [canonicalDir, lenR_x]
  have hd' : (0 : ℝ) < (d : ℝ) := by exact_mod_cast hd
  have hux : (d : ℝ) / ((|d| : ℤ) : ℝ) = 1 := by
    rw [abs_of_pos hd]
    exact div_self (ne_of_gt hd')
  have huy : ((0 : ℤ) : ℝ) / ((|d| : ℤ) : ℝ) = 0 := by simp
  rw [hux, huy, atan2_zero_one]
  rw [if_neg (lt_irrefl 0), if_neg (not_le.mpr Real.pi_pos), zero_div, round_zero]

theorem cwBucket_pos_x (d : ℤ) (hd : 0 < d) : cwBucket d 0 = 0 := by
  rw [cwBucket_eq_arg, lenR_x]
  have hd' : (0 : ℝ) < (d : ℝ) := by exact_mod_cast hd
  have hz : (⟨(d : ℝ) / ((|d| : ℤ) : ℝ), ((0 : ℤ) : ℝ) / ((|d| : ℤ) : ℝ)⟩ : ℂ) = 1 := by
    rw [abs_of_pos hd]
    simp [Complex.ext_iff, div_self (ne_of_gt hd')]
  rw [hz, Complex.arg_one, zero_div, round_zero]

theorem cwBucket_neg_x (d : ℤ) (hd : d < 0) : cwBucket d 0 = 32 := by
  rw [cwBucket_eq_arg, lenR_x]
  have hd' : ((d : ℝ)) < 0 := by exact_mod_cast hd
  have habs : ((|d| : ℤ) : ℝ) = -(d : ℝ) := by
    rw [abs_of_neg hd]
    push_cast
    ring
  have hz : (⟨(d : ℝ) / ((|d| : ℤ) : ℝ), ((0 : ℤ) : ℝ) / ((|d| : ℤ) : ℝ)⟩ : ℂ) = -1 := by
    rw [habs]
    have : (d : ℝ) / -(d : ℝ) = -1 := by
      rw [div_neg, div_self (ne_of_lt hd')]
    simp [Complex.ext_iff, this]
  rw [hz, Complex.arg_neg_one, pi_div_win_angle_step]
  have h32 : (32 : ℝ) = ((32 : ℤ) : ℝ) := by norm_num
  rw [h32, round_intCast]

/-- C7 witness for the amended theorem, at the accepted first move (25, 0). -/
theorem addMove_stores_scaled_witness :
    getPoints ((addMove freshGame 25 0 0).2) = getPoints freshGame ++ [⟨25000, 0, 0⟩] ∧
    (⟨25000, 0, 0⟩ : Point).x = round ((25 : ℝ) * ((SCALE : ℤ) : ℝ)) ∧
    (⟨25000, 0, 0⟩ : Point).y = round ((0 : ℝ) * ((SCALE : ℤ) : ℝ)) ∧
    |(((⟨25000, 0, 0⟩ : Point).x : ℤ) : ℝ) - (25 : ℝ) * ((SCALE : ℤ) : ℝ)| ≤ 1 / 2 ∧
    |(((⟨25000, 0, 0⟩ : Point).y : ℤ) : ℝ) - (0 : ℝ) * ((SCALE : ℤ) : ℝ)| ≤ 1 / 2 :=
  addMove_stores_scaled freshGame 25 0 0 _ addMove_fresh_25_accepts

/-! ### Generic evaluation helpers for line-group rebuilds -/

theorem sortOn_sorted_id (le : α → α → Prop) :
    ∀ l : List α, l.Pairwise le → sortOn le l = l := by
  intro l hl
  induction l with
  | nil => rfl
  | cons x xs ih =>
    rw [sortOn, ih (List.pairwise_cons.mp hl).2]
    cases xs with
    | nil => rfl
    | cons y ys =>
      rw [insertOn, if_pos ((List.pairwise_cons.mp hl).1 y (by simp))]

/-- A point all of whose tree neighbors already share a group with it adds
no groups (the neighbor filter empties). -/
theorem ulgPoint_absorbed (tree : List Point) (groups : List LineGroup) (point : Point)
    (h : ∀ p ∈ tree, p = point ∨ ∃ g ∈ groups, point ∈ g.stones ∧ p ∈ g.stones) :
    ulgPoint tree groups point = groups := by
  rw [ulgPoint]
  have hnil : (nearestK tree point 50 ((LINE_GROUP_SEARCH_RADIUS : ℤ) : ℝ)).filter
      (fun pd => decide (pd.1 ≠ point ∧
        ∀ g ∈ groups, ¬(point ∈ g.stones ∧ pd.1 ∈ g.stones))) = [] := by
    rw [List.filter_eq_nil]
    intro pd hpd
    obtain ⟨hmem, _, _⟩ := nearestK_mem tree point 50 _ pd hpd
    simp only [decide_eq_true_eq]
    rcases h pd.1 hmem with heq | ⟨g, hg, hpg⟩
    · rintro ⟨hne, _⟩
      exact hne heq
    · rintro ⟨_, hall⟩
      exact hall g hg ⟨hpg.1, hpg.2⟩
  rw [hnil]
  rfl

theorem updateLineGroups_eval (g : Game) (player : Player) (tree pts : List Point)
    (ht : (if player = 0 then g.tree0 else g.tree1) = tree)
    (hp : g.points.filter (fun p => decide (p.player = player)) = pts) :
    updateLineGroups g player =
      pts.foldl (fun groups point => ulgPoint tree groups point) [] := by
  simp only [updateLineGroups]
  rw [ht, hp]

/-! ### The concrete x-axis row games (C1 and C8 scenarios).  The stones sit
at world x-coordinates 0, 25, 50, 75, 100 (scaled: 0..100000), all player 0. -/

/-- The single line group of the k-stone row, for k = 2..5. -/
def G01 : LineGroup :=
  ⟨1, 0, 0, 0, 0, [0, 25000], [⟨0, 0, 0⟩, ⟨25000, 0, 0⟩]⟩

def G012 : LineGroup :=
  ⟨1, 0, 0, 0, 0, [0, 25000, 50000], [⟨0, 0, 0⟩, ⟨25000, 0, 0⟩, ⟨50000, 0, 0⟩]⟩

def G0123 : LineGroup :=
  ⟨1, 0, 0, 0, 0, [0, 25000, 50000, 75000],
    [⟨0, 0, 0⟩, ⟨25000, 0, 0⟩, ⟨50000, 0, 0⟩, ⟨75000, 0, 0⟩]⟩

def G01234 : LineGroup :=
  ⟨1, 0, 0, 0, 0, [0, 25000, 50000, 75000, 100000],
    [⟨0, 0, 0⟩, ⟨25000, 0, 0⟩, ⟨50000, 0, 0⟩, ⟨75000, 0, 0⟩, ⟨100000, 0, 0⟩]⟩

theorem nk_row2 :
    nearestK [⟨0, 0, 0⟩, ⟨25000, 0, 0⟩] (⟨0, 0, 0⟩ : Point) 50
      ((LINE_GROUP_SEARCH_RADIUS : ℤ) : ℝ) =
      [(⟨0, 0, 0⟩, 0), (⟨25000, 0, 0⟩, 25)] := by
  rw [nearestK]
  norm_num [sortOn, insertOn, distance_xrow, List.filter, LINE_GROUP_SEARCH_RADIUS]

theorem ulgN_row2 :
    ulgNeighbor ⟨0, 0, 0⟩ [(⟨25000, 0, 0⟩, 25)] ⟨25000, 0, 0⟩ = [G01] := by
  rw [ulgNeighbor]
  norm_num [lenR_x, EPSILON, WIN_D_MAX, canonicalDir_pos_x, perpDist,
    PERPENDICULAR_TOLERANCE, projAlong, sortOn, insertOn, splitRuns, addUnique,
    mkGroup, G01, List.filter]

theorem ulgPoint_row2 :
    ulgPoint [⟨0, 0, 0⟩, ⟨25000, 0, 0⟩] [] ⟨0, 0, 0⟩ = [G01] := by
  rw [ulgPoint, nk_row2]
  norm_num [List.filter, ulgN_row2]

/-- Neighbors farther than WIN_D_MAX produce no groups. -/
theorem ulgNeighbor_far (point : Point) (nb : List (Point × ℝ)) (neighbor : Point)
    (h : (WIN_D_MAX : ℝ) < lenR (neighbor.x - point.x) (neighbor.y - point.y)) :
    ulgNeighbor point nb neighbor = [] := by
  have h1 : ¬(lenR (neighbor.x - point.x) (neighbor.y - point.y) ≤ EPSILON) := by
    push_neg
    calc EPSILON < (WIN_D_MAX : ℝ) := by norm_num [EPSILON, WIN_D_MAX]
      _ < _ := h
  rw [ulgNeighbor, if_neg h1, if_pos h]

theorem nk_row3 :
    nearestK [⟨0, 0, 0⟩, ⟨25000, 0, 0⟩, ⟨50000, 0, 0⟩] (⟨0, 0, 0⟩ : Point) 50
      ((LINE_GROUP_SEARCH_RADIUS : ℤ) : ℝ) =
      [(⟨0, 0, 0⟩, 0), (⟨25000, 0, 0⟩, 25), (⟨50000, 0, 0⟩, 50)] := by
  rw [nearestK]
  norm_num [sortOn, insertOn, distance_xrow, List.filter, LINE_GROUP_SEARCH_RADIUS]

theorem ulgN_row3 :
    ulgNeighbor ⟨0, 0, 0⟩ [(⟨25000, 0, 0⟩, 25), (⟨50000, 0, 0⟩, 50)] ⟨25000, 0, 0⟩ =
      [G012] := by
  rw [ulgNeighbor]
  norm_num [lenR_x, EPSILON, WIN_D_MAX, canonicalDir_pos_x, perpDist,
    PERPENDICULAR_TOLERANCE, projAlong, sortOn, insertOn, splitRuns, addUnique,
    mkGroup, G012, List.filter]

theorem ulgPoint_row3 :
    ulgPoint [⟨0, 0, 0⟩, ⟨25000, 0, 0⟩, ⟨50000, 0, 0⟩] [] ⟨0, 0, 0⟩ = [G012] := by
  rw [ulgPoint, nk_row3]
  norm_num [List.filter, ulgN_row3,
    ulgNeighbor_far ⟨0, 0, 0⟩ _ ⟨50000, 0, 0⟩ (by norm_num [lenR_x, WIN_D_MAX])]

theorem nk_row4 :
    nearestK [⟨0, 0, 0⟩, ⟨25000, 0, 0⟩, ⟨50000, 0, 0⟩, ⟨75000, 0, 0⟩] (⟨0, 0, 0⟩ : Point)
      50 ((LINE_GROUP_SEARCH_RADIUS : ℤ) : ℝ) =
      [(⟨0, 0, 0⟩, 0), (⟨25000, 0, 0⟩, 25), (⟨50000, 0, 0⟩, 50), (⟨75000, 0, 0⟩, 75)] := by
  rw [nearestK]
  norm_num [sortOn, insertOn, distance_xrow, List.filter, LINE_GROUP_SEARCH_RADIUS]

theorem ulgN_row4 :
    ulgNeighbor ⟨0, 0, 0⟩
      [(⟨25000, 0, 0⟩, 25), (⟨50000, 0, 0⟩, 50), (⟨75000, 0, 0⟩, 75)] ⟨25000, 0, 0⟩ =
      [G0123] := by
  rw [ulgNeighbor]
  norm_num [lenR_x, EPSILON, WIN_D_MAX, canonicalDir_pos_x, perpDist,
    PERPENDICULAR_TOLERANCE, projAlong, sortOn, insertOn, splitRuns, addUnique,
    mkGroup, G0123, List.filter]

theorem ulgPoint_row4 :
    ulgPoint [⟨0, 0, 0⟩, ⟨25000, 0, 0⟩, ⟨50000, 0, 0⟩, ⟨75000, 0, 0⟩] [] ⟨0, 0, 0⟩ =
      [G0123] := by
  rw [ulgPoint, nk_row4]
  norm_num [List.filter, ulgN_row4,
    ulgNeighbor_far ⟨0, 0, 0⟩ _ ⟨50000, 0, 0⟩ (by norm_num [lenR_x, WIN_D_MAX]),
    ulgNeighbor_far ⟨0, 0, 0⟩ _ ⟨75000, 0, 0⟩ (by norm_num [lenR_x, WIN_D_MAX])]

theorem nk_row5 :
    nearestK [⟨0, 0, 0⟩, ⟨25000, 0, 0⟩, ⟨50000, 0, 0⟩, ⟨75000, 0, 0⟩, ⟨100000, 0, 0⟩]
      (⟨0, 0, 0⟩ : Point) 50 ((LINE_GROUP_SEARCH_RADIUS : ℤ) : ℝ) =
      [(⟨0, 0, 0⟩, 0), (⟨25000, 0, 0⟩, 25), (⟨50000, 0, 0⟩, 50), (⟨75000, 0, 0⟩, 75),
        (⟨100000, 0, 0⟩, 100)] := by
  rw [nearestK]
  norm_num [sortOn, insertOn, distance_xrow, List.filter, LINE_GROUP_SEARCH_RADIUS]

theorem ulgN_row5 :
    ulgNeighbor ⟨0, 0, 0⟩
      [(⟨25000, 0, 0⟩, 25), (⟨50000, 0, 0⟩, 50), (⟨75000, 0, 0⟩, 75),
        (⟨100000, 0, 0⟩, 100)] ⟨25000, 0, 0⟩ = [G01234] := by
  rw [ulgNeighbor]
  norm_num [lenR_x, EPSILON, WIN_D_MAX, canonicalDir_pos_x, perpDist,
    PERPENDICULAR_TOLERANCE, projAlong, sortOn, insertOn, splitRuns, addUnique,
    mkGroup, G01234, List.filter]

theorem ulgPoint_row5 :
    ulgPoint [⟨0, 0, 0⟩, ⟨25000, 0, 0⟩, ⟨50000, 0, 0⟩, ⟨75000, 0, 0⟩, ⟨100000, 0, 0⟩]
      [] ⟨0, 0, 0⟩ = [G01234] := by
  rw [ulgPoint, nk_row5]
  norm_num [List.filter, ulgN_row5,
    ulgNeighbor_far ⟨0, 0, 0⟩ _ ⟨50000, 0, 0⟩ (by norm_num [lenR_x, WIN_D_MAX]),
    ulgNeighbor_far ⟨0, 0, 0⟩ _ ⟨75000, 0, 0⟩ (by norm_num [lenR_x, WIN_D_MAX]),
    ulgNeighbor_far ⟨0, 0, 0⟩ _ ⟨100000, 0, 0⟩ (by norm_num [lenR_x, WIN_D_MAX])]

/-! ### Full line-group rebuilds for the rows: the later points are absorbed
into the group built from the first point. -/

theorem ulg_fold_row1 :
    ([⟨0, 0, 0⟩] : List Point).foldl
      (fun gs pt => ulgPoint [⟨0, 0, 0⟩] gs pt) [] = [] := by
  rw [List.foldl_cons, List.foldl_nil]
  exact ulgPoint_absorbed _ _ _ (by intro p hp; left; simpa using hp)

theorem ulg_fold_row2 :
    ([⟨0, 0, 0⟩, ⟨25000, 0, 0⟩] : List Point).foldl
      (fun gs pt => ulgPoint [⟨0, 0, 0⟩, ⟨25000, 0, 0⟩] gs pt) [] = [G01] := by
  rw [List.foldl_cons, ulgPoint_row2, List.foldl_cons, List.foldl_nil]
  refine ulgPoint_absorbed _ _ _ ?_
  intro p hp
  right
  refine ⟨G01, by simp, by simp [G01], ?_⟩
  simpa [G01] using hp

theorem ulg_fold_row3 :
    ([⟨0, 0, 0⟩, ⟨25000, 0, 0⟩, ⟨50000, 0, 0⟩] : List Point).foldl
      (fun gs pt => ulgPoint [⟨0, 0, 0⟩, ⟨25000, 0, 0⟩, ⟨50000, 0, 0⟩] gs pt) [] =
      [G012] := by
  rw [List.foldl_cons, ulgPoint_row3, List.foldl_cons]
  rw [ulgPoint_absorbed _ _ _ (by
    intro p hp
    right
    refine ⟨G012, by simp, by simp [G012], ?_⟩
    simpa [G012] using hp)]
  rw [List.foldl_cons, List.foldl_nil]
  refine ulgPoint_absorbed _ _ _ ?_
  intro p hp
  right
  refine ⟨G012, by simp, by simp [G012], ?_⟩
  simpa [G012] using hp

theorem ulg_fold_row4 :
    ([⟨0, 0, 0⟩, ⟨25000, 0, 0⟩, ⟨50000, 0, 0⟩, ⟨75000, 0, 0⟩] : List Point).foldl
      (fun gs pt =>
        ulgPoint [⟨0, 0, 0⟩, ⟨25000, 0, 0⟩, ⟨50000, 0, 0⟩, ⟨75000, 0, 0⟩] gs pt) [] =
      [G0123] := by
  rw [List.foldl_cons, ulgPoint_row4, List.foldl_cons]
  rw [ulgPoint_absorbed _ _ _ (by
    intro p hp
    right
    refine ⟨G0123, by simp, by simp [G0123], ?_⟩
    simpa [G0123] using hp)]
  rw [List.foldl_cons]
  rw [ulgPoint_absorbed _ _ _ (by
    intro p hp
    right
    refine ⟨G0123, by simp, by simp [G0123], ?_⟩
    simpa [G0123] using hp)]
  rw [List.foldl_cons, List.foldl_nil]
  refine ulgPoint_absorbed _ _ _ ?_
  intro p hp
  right
  refine ⟨G0123, by simp, by simp [G0123], ?_⟩
  simpa [G0123] using hp

theorem ulg_fold_row5 :
    ([⟨0, 0, 0⟩, ⟨25000, 0, 0⟩, ⟨50000, 0, 0⟩, ⟨75000, 0, 0⟩, ⟨100000, 0, 0⟩] :
        List Point).foldl
      (fun gs pt =>
        ulgPoint
          [⟨0, 0, 0⟩, ⟨25000, 0, 0⟩, ⟨50000, 0, 0⟩, ⟨75000, 0, 0⟩, ⟨100000, 0, 0⟩]
          gs pt) [] = [G01234] := by
  rw [List.foldl_cons, ulgPoint_row5, List.foldl_cons]
  rw [ulgPoint_absorbed _ _ _ (by
    intro p hp
    right
    refine ⟨G01234, by simp, by simp [G01234], ?_⟩
    simpa [G01234] using hp)]
  rw [List.foldl_cons]
  rw [ulgPoint_absorbed _ _ _ (by
    intro p hp
    right
    refine ⟨G01234, by simp, by simp [G01234], ?_⟩
    simpa [G01234] using hp)]
  rw [List.foldl_cons]
  rw [ulgPoint_absorbed _ _ _ (by
    intro p hp
    right
    refine ⟨G01234, by simp, by simp [G01234], ?_⟩
    simpa [G01234] using hp)]
  rw [List.foldl_cons, List.foldl_nil]
  refine ulgPoint_absorbed _ _ _ ?_
  intro p hp
  right
  refine ⟨G01234, by simp, by simp [G01234], ?_⟩
  simpa [G01234] using hp

/-! ### The row games after each accepted move -/

def rowGame1 : Game :=
  ⟨[⟨0, 0, 0⟩], [], [⟨0, 0, 0⟩], GameState.ONGOING, [], [], []⟩

def rowGame2 : Game :=
  ⟨[⟨0, 0, 0⟩, ⟨25000, 0, 0⟩], [], [⟨0, 0, 0⟩, ⟨25000, 0, 0⟩], GameState.ONGOING, [],
    [G01], []⟩

def rowGame3 : Game :=
  ⟨[⟨0, 0, 0⟩, ⟨25000, 0, 0⟩, ⟨50000, 0, 0⟩], [],
    [⟨0, 0, 0⟩, ⟨25000, 0, 0⟩, ⟨50000, 0, 0⟩], GameState.ONGOING, [], [G012], []⟩

/-- The 4-stone open row: C8's first game and C1's state before the fifth
move. -/
def rowGame4 : Game :=
  ⟨[⟨0, 0, 0⟩, ⟨25000, 0, 0⟩, ⟨50000, 0, 0⟩, ⟨75000, 0, 0⟩], [],
    [⟨0, 0, 0⟩, ⟨25000, 0, 0⟩, ⟨50000, 0, 0⟩, ⟨75000, 0, 0⟩], GameState.ONGOING, [],
    [G0123], []⟩

/-- The won 5-stone row: C1's final state. -/
def rowGame5 : Game :=
  ⟨[⟨0, 0, 0⟩, ⟨25000, 0, 0⟩, ⟨50000, 0, 0⟩, ⟨75000, 0, 0⟩, ⟨100000, 0, 0⟩], [],
    [⟨0, 0, 0⟩, ⟨25000, 0, 0⟩, ⟨50000, 0, 0⟩, ⟨75000, 0, 0⟩, ⟨100000, 0, 0⟩],
    GameState.WIN_0, [⟨100000, 0, 0⟩, ⟨0, 0, 0⟩], [G01234], []⟩

/-! ### checkWin evaluations along the row (on the intermediate records the
win check actually receives: stone inserted, groups rebuilt, state still
ONGOING) -/

theorem cw_row1 :
    checkWin ⟨[⟨0, 0, 0⟩], [], [⟨0, 0, 0⟩], GameState.ONGOING, [], [], []⟩
      ⟨0, 0, 0⟩ = none := by
  rw [checkWin]
  norm_num [nearestK, sortOn, insertOn, distance_xrow, List.filter,
    WIN_SEARCH_RADIUS, WIN_D_MAX]

theorem cw_row2 :
    checkWin
      ⟨[⟨0, 0, 0⟩, ⟨25000, 0, 0⟩], [], [⟨0, 0, 0⟩, ⟨25000, 0, 0⟩],
        GameState.ONGOING, [], [G01], []⟩ ⟨25000, 0, 0⟩ = none := by
  rw [checkWin]
  norm_num [nearestK, sortOn, insertOn, distance_xrow, List.filter,
    WIN_SEARCH_RADIUS, WIN_D_MAX]

theorem cw_row3 :
    checkWin
      ⟨[⟨0, 0, 0⟩, ⟨25000, 0, 0⟩, ⟨50000, 0, 0⟩], [],
        [⟨0, 0, 0⟩, ⟨25000, 0, 0⟩, ⟨50000, 0, 0⟩],
        GameState.ONGOING, [], [G012], []⟩ ⟨50000, 0, 0⟩ = none := by
  rw [checkWin]
  norm_num [nearestK, sortOn, insertOn, distance_xrow, List.filter,
    WIN_SEARCH_RADIUS, WIN_D_MAX]

theorem cw_row4 :
    checkWin
      ⟨[⟨0, 0, 0⟩, ⟨25000, 0, 0⟩, ⟨50000, 0, 0⟩, ⟨75000, 0, 0⟩], [],
        [⟨0, 0, 0⟩, ⟨25000, 0, 0⟩, ⟨50000, 0, 0⟩, ⟨75000, 0, 0⟩],
        GameState.ONGOING, [], [G0123], []⟩ ⟨75000, 0, 0⟩ = none := by
  rw [checkWin]
  norm_num [nearestK, sortOn, insertOn, distance_xrow, List.filter,
    WIN_SEARCH_RADIUS, WIN_D_MAX]

theorem cw_row5 :
    checkWin
      ⟨[⟨0, 0, 0⟩, ⟨25000, 0, 0⟩, ⟨50000, 0, 0⟩, ⟨75000, 0, 0⟩, ⟨100000, 0, 0⟩], [],
        [⟨0, 0, 0⟩, ⟨25000, 0, 0⟩, ⟨50000, 0, 0⟩, ⟨75000, 0, 0⟩, ⟨100000, 0, 0⟩],
        GameState.ONGOING, [], [G01234], []⟩ ⟨100000, 0, 0⟩ =
      some (⟨100000, 0, 0⟩, ⟨0, 0, 0⟩) := by
  rw [checkWin]
  norm_num [nearestK, sortOn, insertOn, distance_xrow, List.filter,
    WIN_SEARCH_RADIUS, cwLoop, lenR_x, EPSILON, perpDist, PERPENDICULAR_TOLERANCE,
    projAlong, scanRun, WIN_D_MAX, lastI]

/-! ### Line-group rebuilds on the intermediate records -/

theorem ulg_game1 :
    updateLineGroups ⟨[⟨0, 0, 0⟩], [], [⟨0, 0, 0⟩], GameState.ONGOING, [], [], []⟩ 0 =
      [] := by
  rw [updateLineGroups_eval
    ⟨[⟨0, 0, 0⟩], [], [⟨0, 0, 0⟩], GameState.ONGOING, [], [], []⟩ 0
    [⟨0, 0, 0⟩] [⟨0, 0, 0⟩] rfl (by norm_num [List.filter])]
  exact ulg_fold_row1

theorem ulg_game2 :
    updateLineGroups
      ⟨[⟨0, 0, 0⟩, ⟨25000, 0, 0⟩], [], [⟨0, 0, 0⟩, ⟨25000, 0, 0⟩],
        GameState.ONGOING, [], [], []⟩ 0 = [G01] := by
  rw [updateLineGroups_eval
    ⟨[⟨0, 0, 0⟩, ⟨25000, 0, 0⟩], [], [⟨0, 0, 0⟩, ⟨25000, 0, 0⟩],
      GameState.ONGOING, [], [], []⟩ 0
    [⟨0, 0, 0⟩, ⟨25000, 0, 0⟩] [⟨0, 0, 0⟩, ⟨25000, 0, 0⟩] rfl
    (by norm_num [List.filter])]
  exact ulg_fold_row2

theorem ulg_game3 :
    updateLineGroups
      ⟨[⟨0, 0, 0⟩, ⟨25000, 0, 0⟩, ⟨50000, 0, 0⟩], [],
        [⟨0, 0, 0⟩, ⟨25000, 0, 0⟩, ⟨50000, 0, 0⟩],
        GameState.ONGOING, [], [G01], []⟩ 0 = [G012] := by
  rw [updateLineGroups_eval
    ⟨[⟨0, 0, 0⟩, ⟨25000, 0, 0⟩, ⟨50000, 0, 0⟩], [],
      [⟨0, 0, 0⟩, ⟨25000, 0, 0⟩, ⟨50000, 0, 0⟩],
      GameState.ONGOING, [], [G01], []⟩ 0
    [⟨0, 0, 0⟩, ⟨25000, 0, 0⟩, ⟨50000, 0, 0⟩]
    [⟨0, 0, 0⟩, ⟨25000, 0, 0⟩, ⟨50000, 0, 0⟩] rfl (by norm_num [List.filter])]
  exact ulg_fold_row3

theorem ulg_game4 :
    updateLineGroups
      ⟨[⟨0, 0, 0⟩, ⟨25000, 0, 0⟩, ⟨50000, 0, 0⟩, ⟨75000, 0, 0⟩], [],
        [⟨0, 0, 0⟩, ⟨25000, 0, 0⟩, ⟨50000, 0, 0⟩, ⟨75000, 0, 0⟩],
        GameState.ONGOING, [], [G012], []⟩ 0 = [G0123] := by
  rw [updateLineGroups_eval
    ⟨[⟨0, 0, 0⟩, ⟨25000, 0, 0⟩, ⟨50000, 0, 0⟩, ⟨75000, 0, 0⟩], [],
      [⟨0, 0, 0⟩, ⟨25000, 0, 0⟩, ⟨50000, 0, 0⟩, ⟨75000, 0, 0⟩],
      GameState.ONGOING, [], [G012], []⟩ 0
    [⟨0, 0, 0⟩, ⟨25000, 0, 0⟩, ⟨50000, 0, 0⟩, ⟨75000, 0, 0⟩]
    [⟨0, 0, 0⟩, ⟨25000, 0, 0⟩, ⟨50000, 0, 0⟩, ⟨75000, 0, 0⟩] rfl
    (by norm_num [List.filter])]
  exact ulg_fold_row4

theorem ulg_game5 :
    updateLineGroups
      ⟨[⟨0, 0, 0⟩, ⟨25000, 0, 0⟩, ⟨50000, 0, 0⟩, ⟨75000, 0, 0⟩, ⟨100000, 0, 0⟩], [],
        [⟨0, 0, 0⟩, ⟨25000, 0, 0⟩, ⟨50000, 0, 0⟩, ⟨75000, 0, 0⟩, ⟨100000, 0, 0⟩],
        GameState.ONGOING, [], [G0123], []⟩ 0 = [G01234] := by
  rw [updateLineGroups_eval
    ⟨[⟨0, 0, 0⟩, ⟨25000, 0, 0⟩, ⟨50000, 0, 0⟩, ⟨75000, 0, 0⟩, ⟨100000, 0, 0⟩], [],
      [⟨0, 0, 0⟩, ⟨25000, 0, 0⟩, ⟨50000, 0, 0⟩, ⟨75000, 0, 0⟩, ⟨100000, 0, 0⟩],
      GameState.ONGOING, [], [G0123], []⟩ 0
    [⟨0, 0, 0⟩, ⟨25000, 0, 0⟩, ⟨50000, 0, 0⟩, ⟨75000, 0, 0⟩, ⟨100000, 0, 0⟩]
    [⟨0, 0, 0⟩, ⟨25000, 0, 0⟩, ⟨50000, 0, 0⟩, ⟨75000, 0, 0⟩, ⟨100000, 0, 0⟩] rfl
    (by norm_num [List.filter])]
  exact ulg_fold_row5

/-! ### The five addMove steps of the row -/

theorem step_row1 : addMove freshGame 0 0 0 = (some ⟨0, 0, 0⟩, rowGame1) := by
  have hx : round ((0 : ℝ) * ((SCALE : ℤ) : ℝ)) = 0 := round_eq_int 0 0 (by norm_num [SCALE])
  norm_num [addMove, freshGame, rowGame1, hx, nearest1, sortOn, ulg_game1, cw_row1]

theorem step_row2 : addMove rowGame1 25 0 0 = (some ⟨25000, 0, 0⟩, rowGame2) := by
  have hx : round ((25 : ℝ) * ((SCALE : ℤ) : ℝ)) = 25000 :=
    round_eq_int 25 25000 (by norm_num [SCALE])
  have hy : round ((0 : ℝ) * ((SCALE : ℤ) : ℝ)) = 0 := round_eq_int 0 0 (by norm_num [SCALE])
  norm_num [addMove, rowGame1, rowGame2, hx, hy, nearest1, distance_xrow, sortOn,
    insertOn, SYMBOL_RADIUS, MAX_PLACEMENT_DISTANCE, ulg_game2, cw_row2]

theorem step_row3 : addMove rowGame2 50 0 0 = (some ⟨50000, 0, 0⟩, rowGame3) := by
  have hx : round ((50 : ℝ) * ((SCALE : ℤ) : ℝ)) = 50000 :=
    round_eq_int 50 50000 (by norm_num [SCALE])
  have hy : round ((0 : ℝ) * ((SCALE : ℤ) : ℝ)) = 0 := round_eq_int 0 0 (by norm_num [SCALE])
  norm_num [addMove, rowGame2, rowGame3, hx, hy, nearest1, distance_xrow, sortOn,
    insertOn, SYMBOL_RADIUS, MAX_PLACEMENT_DISTANCE, ulg_game3, cw_row3]

theorem step_row4 : addMove rowGame3 75 0 0 = (some ⟨75000, 0, 0⟩, rowGame4) := by
  have hx : round ((75 : ℝ) * ((SCALE : ℤ) : ℝ)) = 75000 :=
    round_eq_int 75 75000 (by norm_num [SCALE])
  have hy : round ((0 : ℝ) * ((SCALE : ℤ) : ℝ)) = 0 := round_eq_int 0 0 (by norm_num [SCALE])
  norm_num [addMove, rowGame3, rowGame4, hx, hy, nearest1, distance_xrow, sortOn,
    insertOn, SYMBOL_RADIUS, MAX_PLACEMENT_DISTANCE, ulg_game4, cw_row4]

theorem step_row5 : addMove rowGame4 100 0 0 = (some ⟨100000, 0, 0⟩, rowGame5) := by
  have hx : round ((100 : ℝ) * ((SCALE : ℤ) : ℝ)) = 100000 :=
    round_eq_int 100 100000 (by norm_num [SCALE])
  have hy : round ((0 : ℝ) * ((SCALE : ℤ) : ℝ)) = 0 := round_eq_int 0 0 (by norm_num [SCALE])
  norm_num [addMove, rowGame4, rowGame5, hx, hy, nearest1, distance_xrow, sortOn,
    insertOn, SYMBOL_RADIUS, MAX_PLACEMENT_DISTANCE, ulg_game5, cw_row5]

/-! ### The reachable row games -/

theorem row_playGame4 :
    playGame [⟨0, 0, 0⟩, ⟨25, 0, 0⟩, ⟨50, 0, 0⟩, ⟨75, 0, 0⟩] = rowGame4 := by
  simp only [playGame, playMoves, List.foldl_cons, List.foldl_nil, step_row1,
    step_row2, step_row3, step_row4]

theorem row_playGame5 :
    playGame [⟨0, 0, 0⟩, ⟨25, 0, 0⟩, ⟨50, 0, 0⟩, ⟨75, 0, 0⟩, ⟨100, 0, 0⟩] = rowGame5 := by
  simp only [playGame, playMoves, List.foldl_cons, List.foldl_nil, step_row1,
    step_row2, step_row3, step_row4, step_row5]

/-- C1 (claim theorem): from a fresh game the four player-0 moves at world
coordinates (0,0), (25,0), (50,0), (75,0) are all accepted (they all appear
in getPoints) and leave the state ONGOING; the fifth move at (100,0) is
accepted and transitions the state to WIN_0, and getWinPoints returns the
stored symbols at world (100,0) and (0,0) — the first and last of the whole
aligned set ordered by projection along the winning direction (which points
from (100,0) toward (0,0)), as stored at the internal scale. -/
theorem concrete_row_win_scenario :
    getPoints (playGame [⟨0, 0, 0⟩, ⟨25, 0, 0⟩, ⟨50, 0, 0⟩, ⟨75, 0, 0⟩]) =
      [⟨0, 0, 0⟩, ⟨25000, 0, 0⟩, ⟨50000, 0, 0⟩, ⟨75000, 0, 0⟩] ∧
    getState (playGame [⟨0, 0, 0⟩, ⟨25, 0, 0⟩, ⟨50, 0, 0⟩, ⟨75, 0, 0⟩]) =
      GameState.ONGOING ∧
    getPoints (playGame [⟨0, 0, 0⟩, ⟨25, 0, 0⟩, ⟨50, 0, 0⟩, ⟨75, 0, 0⟩, ⟨100, 0, 0⟩]) =
      [⟨0, 0, 0⟩, ⟨25000, 0, 0⟩, ⟨50000, 0, 0⟩, ⟨75000, 0, 0⟩, ⟨100000, 0, 0⟩] ∧
    getState (playGame [⟨0, 0, 0⟩, ⟨25, 0, 0⟩, ⟨50, 0, 0⟩, ⟨75, 0, 0⟩, ⟨100, 0, 0⟩]) =
      GameState.WIN_0 ∧
    getWinPoints (playGame [⟨0, 0, 0⟩, ⟨25, 0, 0⟩, ⟨50, 0, 0⟩, ⟨75, 0, 0⟩, ⟨100, 0, 0⟩]) =
      [⟨100000, 0, 0⟩, ⟨0, 0, 0⟩] := by
  rw [row_playGame4, row_playGame5]
  exact ⟨rfl, rfl, rfl, rfl, rfl⟩

/-! ### C10: structural invariant of line groups -/

theorem mem_addUnique [DecidableEq α] (x a : α) (l : List α) :
    a ∈ addUnique x l ↔ a = x ∨ a ∈ l := by
  rw [addUnique]
  split_ifs with h
  · constructor
    · exact fun ha => Or.inr ha
    · rintro (rfl | ha)
      · exact h
      · exact ha
  · simp [or_comm]

theorem addUnique_ne_nil [DecidableEq α] (x : α) (l : List α) : addUnique x l ≠ [] := by
  rw [addUnique]
  split_ifs with h
  · intro hnil
    rw [hnil] at h
    simp at h
  · simp

theorem addUnique_headI [DecidableEq α] [Inhabited α] (x : α) (l : List α) :
    (addUnique x l).headI = if l = [] then x else l.headI := by
  rw [addUnique]
  by_cases hmem : x ∈ l
  · rw [if_pos hmem]
    have hne : l ≠ [] := by rintro rfl; simp at hmem
    rw [if_neg hne]
  · rw [if_neg hmem]
    by_cases hnil : l = []
    · rw [if_pos hnil, hnil]
      rfl
    · rw [if_neg hnil]
      cases l with
      | nil => exact absurd rfl hnil
      | cons a t => rfl

theorem addUnique_length_le [DecidableEq α] (x : α) (l : List α) :
    l.length ≤ (addUnique x l).length := by
  rw [addUnique]
  split_ifs with h
  · exact le_refl _
  · simp

theorem projAlong_sub (ux uy : ℝ) (a q p : Point) :
    projAlong ux uy q p = projAlong ux uy a p - projAlong ux uy a q := by
  unfold projAlong
  push_cast
  ring

theorem sorted_headI_zero (l : List ℝ) (hs : l.Pairwise (· ≤ ·)) (hm : (0 : ℝ) ∈ l)
    (hnn : ∀ z ∈ l, 0 ≤ z) : l.headI = 0 := by
  cases l with
  | nil => simp at hm
  | cons h t =>
    rcases List.mem_cons.mp hm with rfl | hm'
    · rfl
    · have h1 : h ≤ 0 := (List.pairwise_cons.mp hs).1 0 hm'
      have h2 : 0 ≤ h := hnn h (by simp)
      simpa using le_antisymm h1 h2

/-- The run-splitting loop of updateLineGroups: given a projection-sorted
pair list whose values are computed by `f` and whose points satisfy `S`,
every emitted run has at least 2 points, all satisfying `S`, is nonempty,
and its first point has the minimal `f`-value in the run. -/
theorem splitRuns_spec (f : Point → ℝ) (S : Point → Prop) :
    ∀ (l : List (Point × ℝ)) (potential : List Point) (acc : List (List Point)),
      l.Pairwise (fun a b => a.2 ≤ b.2) →
      (∀ pd ∈ l, pd.2 = f pd.1 ∧ S pd.1) →
      (∀ p ∈ potential, S p) →
      (∀ p ∈ potential, f potential.headI ≤ f p) →
      (∀ pd ∈ l, ∀ p ∈ potential, f p ≤ pd.2) →
      (∀ r ∈ acc, 2 ≤ r.length ∧ (∀ p ∈ r, S p) ∧ r ≠ [] ∧
        (∀ p ∈ r, f r.headI ≤ f p)) →
      ∀ r ∈ splitRuns l potential acc,
        2 ≤ r.length ∧ (∀ p ∈ r, S p) ∧ r ≠ [] ∧ (∀ p ∈ r, f r.headI ≤ f p) := by
  intro l
  induction l with
  | nil =>
    intro potential acc _ _ hpS hpmin _ hacc r hr
    simp only [splitRuns] at hr
    split_ifs at hr with hlen
    · rcases List.mem_append.mp hr with hr' | hr'
      · exact hacc r hr'
      · rw [List.mem_singleton.mp hr']
        refine ⟨hlen, hpS, ?_, hpmin⟩
        intro hnil
        rw [hnil] at hlen
        simp at hlen
    · exact hacc r hr
  | cons cur l' ih =>
    intro potential acc hsorted hmem hpS hpmin hple hacc r hr
    cases l' with
    | nil =>
      simp only [splitRuns] at hr
      split_ifs at hr with hlen
      · rcases List.mem_append.mp hr with hr' | hr'
        · exact hacc r hr'
        · rw [List.mem_singleton.mp hr']
          refine ⟨hlen, hpS, ?_, hpmin⟩
          intro hnil
          rw [hnil] at hlen
          simp at hlen
      · exact hacc r hr
    | cons next rest =>
      simp only [splitRuns] at hr
      have hc := hmem cur (by simp)
      have hn := hmem next (by simp)
      have hcn : cur.2 ≤ next.2 := (List.pairwise_cons.mp hsorted).1 next (by simp)
      split_ifs at hr with hgap hlen
      · -- small gap: cur and next join the running set
        refine ih (addUnique next.1 (addUnique cur.1 potential)) acc
          (List.pairwise_cons.mp hsorted).2 (fun pd hpd => hmem pd (by simp [hpd]))
          ?_ ?_ ?_ hacc r hr
        · intro p hp
          rcases (mem_addUnique _ _ _).mp hp with rfl | hp'
          · exact hn.2
          · rcases (mem_addUnique _ _ _).mp hp' with rfl | hp''
            · exact hc.2
            · exact hpS p hp''
        · -- the head of the enlarged set still has the minimal value
          have hhead : (addUnique next.1 (addUnique cur.1 potential)).headI =
              if potential = [] then cur.1 else potential.headI := by
            rw [addUnique_headI, if_neg (addUnique_ne_nil cur.1 potential),
              addUnique_headI]
          intro p hp
          rw [hhead]
          rcases (mem_addUnique _ _ _).mp hp with rfl | hp'
          · -- p = next.1
            by_cases hpot : potential = []
            · rw [if_pos hpot, ← hc.1, ← hn.1]
              exact hcn
            · rw [if_neg hpot]
              have hh : potential.headI ∈ potential := headI_mem_of_ne_nil hpot
              calc f potential.headI ≤ next.2 := hple next (by simp) _ hh
                _ = f next.1 := hn.1
          · rcases (mem_addUnique _ _ _).mp hp' with rfl | hp''
            · -- p = cur.1
              by_cases hpot : potential = []
              · rw [if_pos hpot]
              · rw [if_neg hpot]
                have hh : potential.headI ∈ potential := headI_mem_of_ne_nil hpot
                calc f potential.headI ≤ cur.2 := hple cur (by simp) _ hh
                  _ = f cur.1 := hc.1
            · by_cases hpot : potential = []
              · rw [hpot] at hp''
                simp at hp''
              · rw [if_neg hpot]
                exact hpmin p hp''
        · -- everything in the enlarged set is below all later values
          intro pd hpd p hp
          have hnextpd : next.2 ≤ pd.2 := by
            rcases List.mem_cons.mp hpd with rfl | hpd'
            · exact le_refl _
            · exact ((List.pairwise_cons.mp (List.pairwise_cons.mp hsorted).2).1) pd hpd'
          rcases (mem_addUnique _ _ _).mp hp with rfl | hp'
          · rw [← hn.1]
            exact hnextpd
          · rcases (mem_addUnique _ _ _).mp hp' with rfl | hp''
            · rw [← hc.1]
              exact le_trans hcn hnextpd
            · exact le_trans (hple next (by simp) p hp'') hnextpd
      · -- large gap: the flushed run (with cur added) is emitted
        have hflushS : ∀ p ∈ addUnique cur.1 potential, S p := by
          intro p hp
          rcases (mem_addUnique _ _ _).mp hp with rfl | hp'
          · exact hc.2
          · exact hpS p hp'
        have hflushMin : ∀ p ∈ addUnique cur.1 potential,
            f (addUnique cur.1 potential).headI ≤ f p := by
          intro p hp
          rw [addUnique_headI]
          rcases (mem_addUnique _ _ _).mp hp with rfl | hp'
          · by_cases hpot : potential = []
            · rw [if_pos hpot]
            · rw [if_neg hpot]
              have hh : potential.headI ∈ potential := headI_mem_of_ne_nil hpot
              calc f potential.headI ≤ cur.2 := hple cur (by simp) _ hh
                _ = f cur.1 := hc.1
          · by_cases hpot : potential = []
            · rw [hpot] at hp'
              simp at hp'
            · rw [if_neg hpot]
              exact hpmin p hp'
        refine ih [] _ (List.pairwise_cons.mp hsorted).2
          (fun pd hpd => hmem pd (by simp [hpd])) (by simp) (by simp) (by simp)
          ?_ r hr
        intro r' hr'
        rcases List.mem_append.mp hr' with hr'' | hr''
        · exact hacc r' hr''
        · rw [List.mem_singleton.mp hr'']
          exact ⟨hlen, hflushS, addUnique_ne_nil cur.1 potential, hflushMin⟩
      · -- large gap but the running set is too small: it is dropped
        exact ih [] _ (List.pairwise_cons.mp hsorted).2
          (fun pd hpd => hmem pd (by simp [hpd])) (by simp) (by simp) (by simp)
          hacc r hr

theorem mem_foldl_addUnique [DecidableEq α] :
    ∀ (l init : List α) (a : α),
      a ∈ l.foldl (fun acc x => addUnique x acc) init ↔ a ∈ init ∨ a ∈ l := by
  intro l
  induction l with
  | nil => intro init a; simp
  | cons x xs ih =>
    intro init a
    rw [List.foldl_cons, ih, mem_addUnique]
    constructor
    · rintro ((rfl | h) | h)
      · exact Or.inr (by simp)
      · exact Or.inl h
      · exact Or.inr (by simp [h])
    · rintro (h | h)
      · exact Or.inl (Or.inr h)
      · rcases List.mem_cons.mp h with rfl | h'
        · exact Or.inl (Or.inl rfl)
        · exact Or.inr h'

theorem projAlong_self (ux uy : ℝ) (a : Point) : projAlong ux uy a a = 0 := by
  unfold projAlong
  simp

/-- Every group emitted by the per-neighbor construction has at least two
stones (all from `S`), as many projections as stones, sorted ascending and
starting at 0, with the origin being the first stone (the member of minimal
projection). -/
theorem ulgNeighbor_groups_spec (point : Point) (nearby : List (Point × ℝ))
    (neighbor : Point) (S : Point → Prop) (hpt : S point) (hnb : S neighbor)
    (hnear : ∀ pd ∈ nearby, S pd.1) :
    ∀ lg ∈ ulgNeighbor point nearby neighbor,
      2 ≤ lg.stones.length ∧ lg.projections.length = lg.stones.length ∧
      lg.projections.Pairwise (· ≤ ·) ∧ lg.projections.headI = 0 ∧
      lg.stones ≠ [] ∧ lg.originX = lg.stones.headI.x ∧
      lg.originY = lg.stones.headI.y ∧ (∀ s ∈ lg.stones, S s) := by
  intro lg hlg
  simp only [ulgNeighbor] at hlg
  split_ifs at hlg with h1 h2
  · simp at hlg
  · simp at hlg
  · rcases List.mem_map.mp hlg with ⟨r, hr, rfl⟩
    set c := canonicalDir (neighbor.x - point.x) (neighbor.y - point.y) with hc
    set f : Point → ℝ := projAlong c.1 c.2.1 point with hf
    have hmemS : ∀ pd ∈ sortOn (fun (a b : Point × ℝ) => a.2 ≤ b.2)
        (List.map (fun p => (p, f p))
          (List.foldl (fun l q => addUnique q l) [point, neighbor]
            (List.map Prod.fst
              (List.filter
                (fun cd =>
                  decide
                    (cd.1 ≠ neighbor ∧
                      perpDist c.1 c.2.1 (cd.1.x - point.x) (cd.1.y - point.y) ≤
                        ((PERPENDICULAR_TOLERANCE : ℤ) : ℝ)))
                nearby)))), pd.2 = f pd.1 ∧ S pd.1 := by
      intro pd hpd
      have hpd' := (sortOn_perm (fun a b : Point × ℝ => a.2 ≤ b.2) _).mem_iff.mp hpd
      rcases List.mem_map.mp hpd' with ⟨p, hp, rfl⟩
      refine ⟨rfl, ?_⟩
      rcases (mem_foldl_addUnique _ _ _).mp hp with hinit | hlist
      · rcases List.mem_cons.mp hinit with rfl | hinit'
        · exact hpt
        · rw [List.mem_singleton.mp hinit']
          exact hnb
      · rcases List.mem_map.mp hlist with ⟨cd, hcd, rfl⟩
        exact hnear cd (List.mem_of_mem_filter hcd)
    have hrun := splitRuns_spec f S _ [] []
      (sortOn_pairwise (fun (a b : Point × ℝ) => a.2 ≤ b.2)
        (fun a b d hab hbd => le_trans hab hbd)
        (fun a b => le_total a.2 b.2) _)
      hmemS (by simp) (by simp) (by simp) (by simp) r hr
    obtain ⟨hlen2, hSr, hne, hmin⟩ := hrun
    have hproj_mem : ∀ z ∈ sortOn (· ≤ ·) (r.map (projAlong c.1 c.2.1 r.headI)),
        ∃ p ∈ r, z = projAlong c.1 c.2.1 r.headI p := by
      intro z hz
      have := (sortOn_perm (· ≤ ·) _).mem_iff.mp hz
      rcases List.mem_map.mp this with ⟨p, hp, rfl⟩
      exact ⟨p, hp, rfl⟩
    refine ⟨hlen2, ?_, ?_, ?_, hne, rfl, rfl, hSr⟩
    · simp only [mkGroup]
      rw [sortOn_length, List.length_map]
    · exact sortOn_pairwise (fun (a b : ℝ) => a ≤ b)
        (fun a b d hab hbd => le_trans hab hbd)
        (fun a b => le_total a b) _
    · -- the first projection is 0: the origin has the minimal projection
      simp only [mkGroup]
      apply sorted_headI_zero
      · exact sortOn_pairwise (fun (a b : ℝ) => a ≤ b)
          (fun a b d hab hbd => le_trans hab hbd)
          (fun a b => le_total a b) _
      · rw [(sortOn_perm (· ≤ ·) _).mem_iff]
        have h0 : projAlong c.1 c.2.1 r.headI r.headI = 0 := projAlong_self _ _ _
        rw [← h0]
        exact List.mem_map_of_mem _ (headI_mem_of_ne_nil hne)
      · intro z hz
        rcases hproj_mem z hz with ⟨p, hp, rfl⟩
        rw [projAlong_sub c.1 c.2.1 point r.headI p]
        have := hmin p hp
        rw [hf] at this
        linarith [hmin r.headI (headI_mem_of_ne_nil hne), this]

theorem mem_foldl_append {β : Type} (f : β → List LineGroup) :
    ∀ (l : List β) (init : List LineGroup) (lg : LineGroup),
      lg ∈ l.foldl (fun gs b => gs ++ f b) init → lg ∈ init ∨ ∃ b ∈ l, lg ∈ f b := by
  intro l
  induction l with
  | nil => intro init lg h; exact Or.inl h
  | cons x xs ih =>
    intro init lg h
    rw [List.foldl_cons] at h
    rcases ih (init ++ f x) lg h with h' | ⟨b, hb, hlb⟩
    · rcases List.mem_append.mp h' with h'' | h''
      · exact Or.inl h''
      · exact Or.inr ⟨x, by simp, h''⟩
    · exact Or.inr ⟨b, by simp [hb], hlb⟩

/-- The structural invariant of one line group of `player`. -/
def GoodGroup (player : Player) (lg : LineGroup) : Prop :=
  2 ≤ lg.stones.length ∧
  lg.projections.length = lg.stones.length ∧
  lg.projections.Pairwise (· ≤ ·) ∧
  lg.projections.headI = 0 ∧
  lg.stones ≠ [] ∧
  lg.originX = lg.stones.headI.x ∧
  lg.originY = lg.stones.headI.y ∧
  ∀ s ∈ lg.stones, s.player = player

theorem ulgPoint_groups_spec (tree : List Point) (groups : List LineGroup)
    (point : Point) (player : Player) (hpt : point.player = player)
    (htree : ∀ p ∈ tree, p.player = player)
    (hold : ∀ lg ∈ groups, GoodGroup player lg) :
    ∀ lg ∈ ulgPoint tree groups point, GoodGroup player lg := by
  intro lg hlg
  simp only [ulgPoint] at hlg
  rcases mem_foldl_append _ _ _ _ hlg with h | ⟨nb, hnb, hlb⟩
  · exact hold lg h
  · have hnbtree : ∀ pd ∈ (nearestK tree point 50
        ((LINE_GROUP_SEARCH_RADIUS : ℤ) : ℝ)).filter
        (fun pd => decide (pd.1 ≠ point ∧
          ∀ g ∈ groups, ¬(point ∈ g.stones ∧ pd.1 ∈ g.stones))),
        pd.1.player = player := by
      intro pd hpd
      exact htree pd.1 (nearestK_mem tree point 50 _ pd (List.mem_of_mem_filter hpd)).1
    exact ulgNeighbor_groups_spec point _ nb.1 (fun s => s.player = player)
      hpt (hnbtree nb hnb) hnbtree lg hlb

theorem updateLineGroups_good (g : Game) (player : Player)
    (htree : ∀ p ∈ (if player = 0 then g.tree0 else g.tree1), p.player = player) :
    ∀ lg ∈ updateLineGroups g player, GoodGroup player lg := by
  simp only [updateLineGroups]
  have key : ∀ (pts : List Point) (gacc : List LineGroup),
      (∀ p ∈ pts, p.player = player) → (∀ lg ∈ gacc, GoodGroup player lg) →
      ∀ lg ∈ pts.foldl
        (fun groups point =>
          ulgPoint (if player = 0 then g.tree0 else g.tree1) groups point) gacc,
        GoodGroup player lg := by
    intro pts
    induction pts with
    | nil => intro gacc _ hacc lg hlg; exact hacc lg hlg
    | cons p rest ih =>
      intro gacc hpts hacc lg hlg
      rw [List.foldl_cons] at hlg
      exact ih _ (fun p' hp' => hpts p' (by simp [hp'])) (ulgPoint_groups_spec _ _ _
        player (hpts p (by simp)) htree hacc) lg hlg
  apply key
  · intro p hp
    have := List.of_mem_filter hp
    simpa using this
  · simp

theorem updateLineGroups_good0 (g : Game) (htree : ∀ p ∈ g.tree0, p.player = 0) :
    ∀ lg ∈ updateLineGroups g 0, GoodGroup 0 lg :=
  updateLineGroups_good g 0 (by rw [if_pos (rfl : (0 : Player) = 0)]; exact htree)

theorem updateLineGroups_good1 (g : Game) (htree : ∀ p ∈ g.tree1, p.player = 1) :
    ∀ lg ∈ updateLineGroups g 1, GoodGroup 1 lg :=
  updateLineGroups_good g 1
    (by rw [if_neg (by decide : ¬(1 : Player) = 0)]; exact htree)

/-- Both players' line-group lists satisfy the structural invariant. -/
def GroupsGood (g : Game) : Prop :=
  (∀ lg ∈ g.lineGroups0, GoodGroup 0 lg) ∧ (∀ lg ∈ g.lineGroups1, GoodGroup 1 lg)

theorem groupsGood_fresh : GroupsGood freshGame := by
  constructor <;> simp [freshGame]

theorem groupsGood_step (g : Game) (x y : ℝ) (p : Player)
    (hInv : Inv g) (hG : GroupsGood g) : GroupsGood ((addMove g x y p).2) := by
  obtain ⟨ht0, ht1, _⟩ := hInv
  obtain ⟨hG0, hG1⟩ := hG
  have hpt0 : ∀ q ∈ g.tree0, q.player = 0 := by
    intro q hq
    rw [ht0] at hq
    simpa using (List.mem_filter.mp hq).2
  have hpt1 : ∀ q ∈ g.tree1, q.player = 1 := by
    intro q hq
    rw [ht1] at hq
    simpa using (List.mem_filter.mp hq).2
  simp only [GroupsGood, addMove]
  split_ifs with h1 h2 h3 h4
  · exact ⟨hG0, hG1⟩
  · exact ⟨hG0, hG1⟩
  · exact ⟨hG0, hG1⟩
  · -- accepted move by player 0: lineGroups0 is rebuilt, lineGroups1 kept
    split <;>
      (refine ⟨updateLineGroups_good0 _ ?_, hG1⟩
       intro q hq
       rcases List.mem_append.mp hq with hq' | hq'
       · exact hpt0 q hq'
       · rw [List.mem_singleton.mp hq']
         exact h4)
  · -- accepted move by player 1: lineGroups1 is rebuilt, lineGroups0 kept
    rcases player_cases p with hp | hp
    · exact absurd hp h4
    · split <;>
        (refine ⟨hG0, updateLineGroups_good1 _ ?_⟩
         intro q hq
         rcases List.mem_append.mp hq with hq' | hq'
         · exact hpt1 q hq'
         · rw [List.mem_singleton.mp hq']
           exact hp)

theorem groupsGood_playMoves (g : Game) (ms : List Move)
    (hI : Inv g) (hG : GroupsGood g) : GroupsGood (playMoves g ms) := by
  induction ms generalizing g with
  | nil => exact hG
  | cons m rest ih =>
    rw [playMoves, List.foldl_cons]
    exact ih _ (inv_step g m.x m.y m.player hI)
      (groupsGood_step g m.x m.y m.player hI hG)

/-- C10 (claim theorem): in every reachable game state, every line group
returned by getLineGroups(player) has at least 2 stones, exactly as many
projections as stones, projections sorted ascending starting at 0 (its
origin is the group member of minimal projection along the group
direction), and contains only that player's symbols. -/
theorem line_group_structural_invariant (ms : List Move) (p : Player)
    (lg : LineGroup) (h : lg ∈ getLineGroups (playGame ms) p) :
    2 ≤ lg.stones.length ∧
    lg.projections.length = lg.stones.length ∧
    lg.projections.Sorted (· ≤ ·) ∧
    lg.projections.headI = 0 ∧
    lg.originX = lg.stones.headI.x ∧ lg.originY = lg.stones.headI.y ∧
    (∀ s ∈ lg.stones, s.player = p) := by
  have hG := groupsGood_playMoves freshGame ms inv_fresh groupsGood_fresh
  have hgood : GoodGroup p lg := by
    simp only [getLineGroups] at h
    rcases player_cases p with hp | hp <;> subst hp
    · rw [if_pos (rfl : (0 : Player) = 0)] at h
      exact hG.1 lg h
    · rw [if_neg (by decide : ¬(1 : Player) = 0)] at h
      exact hG.2 lg h
  obtain ⟨ha, hb, hc, hd, _, hf1, hf2, hf3⟩ := hgood
  exact ⟨ha, hb, hc, hd, hf1, hf2, hf3⟩

theorem row_playGame2 : playGame [⟨0, 0, 0⟩, ⟨25, 0, 0⟩] = rowGame2 := by
  simp only [playGame, playMoves, List.foldl_cons, List.foldl_nil, step_row1,
    step_row2]

/-- C10 (witness): the two-stone row game reached by the moves (0,0) and
(25,0) has the group G01, and the claim theorem's conclusions hold for it. -/
theorem line_group_structural_invariant_witness :
    G01 ∈ getLineGroups (playGame [⟨0, 0, 0⟩, ⟨25, 0, 0⟩]) 0 ∧
    (2 ≤ G01.stones.length ∧
     G01.projections.length = G01.stones.length ∧
     G01.projections.Sorted (· ≤ ·) ∧
     G01.projections.headI = 0 ∧
     G01.originX = G01.stones.headI.x ∧ G01.originY = G01.stones.headI.y ∧
     (∀ s ∈ G01.stones, s.player = 0)) := by
  have hmem : G01 ∈ getLineGroups (playGame [⟨0, 0, 0⟩, ⟨25, 0, 0⟩]) 0 := by
    rw [row_playGame2]
    simp [getLineGroups, rowGame2]
  exact ⟨hmem, line_group_structural_invariant [⟨0, 0, 0⟩, ⟨25, 0, 0⟩] 0 G01 hmem⟩

/-! ### C8: the evaluator's dead-line rule -/

/-- A line whose longest run is between 2 and 4 and whose two extension
probes are both rejected scores 0. -/
theorem lineScore_dead (cfg : MediumAIConfig) (group : LineGroup) (state : Game)
    (h2 : 2 ≤ maxRun group.projections) (h5 : maxRun group.projections < 5)
    (hlow : ¬isValidMove state (extLow group).1 (extLow group).2)
    (hhigh : ¬isValidMove state (extHigh group).1 (extHigh group).2) :
    lineScore cfg group state = 0 := by
  simp only [lineScore, if_neg hlow, if_neg hhigh]
  split_ifs with hl hm5 hm2 hoe
  all_goals first
  | rfl
  | exact absurd hm5 (by omega)
  | exact absurd rfl hoe

/-- The dead 4-row: the open 4-row of rowGame4 with the two extension spots
occupied by opponent stones at world (-25,0) and (100,0). -/
def deadRow1 : Game :=
  ⟨[⟨0, 0, 0⟩, ⟨25000, 0, 0⟩, ⟨50000, 0, 0⟩, ⟨75000, 0, 0⟩], [⟨-25000, 0, 1⟩],
   [⟨0, 0, 0⟩, ⟨25000, 0, 0⟩, ⟨50000, 0, 0⟩, ⟨75000, 0, 0⟩, ⟨-25000, 0, 1⟩],
   GameState.ONGOING, [], [G0123], []⟩

def deadRowGame : Game :=
  ⟨[⟨0, 0, 0⟩, ⟨25000, 0, 0⟩, ⟨50000, 0, 0⟩, ⟨75000, 0, 0⟩],
   [⟨-25000, 0, 1⟩, ⟨100000, 0, 1⟩],
   [⟨0, 0, 0⟩, ⟨25000, 0, 0⟩, ⟨50000, 0, 0⟩, ⟨75000, 0, 0⟩, ⟨-25000, 0, 1⟩,
    ⟨100000, 0, 1⟩],
   GameState.ONGOING, [], [G0123], []⟩

theorem ulgPt_dead1 : ulgPoint [⟨-25000, 0, 1⟩] [] ⟨-25000, 0, 1⟩ = [] := by
  rw [ulgPoint]
  norm_num [nearestK, sortOn, insertOn, distance_xrow, List.filter,
    LINE_GROUP_SEARCH_RADIUS]

theorem ulg_dead1 :
    updateLineGroups
      ⟨[⟨0, 0, 0⟩, ⟨25000, 0, 0⟩, ⟨50000, 0, 0⟩, ⟨75000, 0, 0⟩], [⟨-25000, 0, 1⟩],
       [⟨0, 0, 0⟩, ⟨25000, 0, 0⟩, ⟨50000, 0, 0⟩, ⟨75000, 0, 0⟩, ⟨-25000, 0, 1⟩],
       GameState.ONGOING, [], [G0123], []⟩ 1 = [] := by
  rw [updateLineGroups_eval
    ⟨[⟨0, 0, 0⟩, ⟨25000, 0, 0⟩, ⟨50000, 0, 0⟩, ⟨75000, 0, 0⟩], [⟨-25000, 0, 1⟩],
     [⟨0, 0, 0⟩, ⟨25000, 0, 0⟩, ⟨50000, 0, 0⟩, ⟨75000, 0, 0⟩, ⟨-25000, 0, 1⟩],
     GameState.ONGOING, [], [G0123], []⟩ 1 [⟨-25000, 0, 1⟩] [⟨-25000, 0, 1⟩] rfl
    (by norm_num [List.filter])]
  rw [List.foldl_cons, ulgPt_dead1, List.foldl_nil]

theorem ulgPt_dead2a :
    ulgPoint [⟨-25000, 0, 1⟩, ⟨100000, 0, 1⟩] [] ⟨-25000, 0, 1⟩ = [] := by
  have hfar := ulgNeighbor_far ⟨-25000, 0, 1⟩
    [((⟨100000, 0, 1⟩ : Point), (125 : ℝ))] ⟨100000, 0, 1⟩
    (by norm_num [lenR_x, WIN_D_MAX])
  rw [ulgPoint]
  norm_num [nearestK, sortOn, insertOn, distance_xrow, List.filter,
    LINE_GROUP_SEARCH_RADIUS, hfar]

theorem ulgPt_dead2b :
    ulgPoint [⟨-25000, 0, 1⟩, ⟨100000, 0, 1⟩] [] ⟨100000, 0, 1⟩ = [] := by
  have hfar := ulgNeighbor_far ⟨100000, 0, 1⟩
    [((⟨-25000, 0, 1⟩ : Point), (125 : ℝ))] ⟨-25000, 0, 1⟩
    (by norm_num [lenR_x, WIN_D_MAX])
  rw [ulgPoint]
  norm_num [nearestK, sortOn, insertOn, distance_xrow, List.filter,
    LINE_GROUP_SEARCH_RADIUS, hfar]

theorem ulg_dead2 :
    updateLineGroups
      ⟨[⟨0, 0, 0⟩, ⟨25000, 0, 0⟩, ⟨50000, 0, 0⟩, ⟨75000, 0, 0⟩],
       [⟨-25000, 0, 1⟩, ⟨100000, 0, 1⟩],
       [⟨0, 0, 0⟩, ⟨25000, 0, 0⟩, ⟨50000, 0, 0⟩, ⟨75000, 0, 0⟩, ⟨-25000, 0, 1⟩,
        ⟨100000, 0, 1⟩],
       GameState.ONGOING, [], [G0123], []⟩ 1 = [] := by
  rw [updateLineGroups_eval
    ⟨[⟨0, 0, 0⟩, ⟨25000, 0, 0⟩, ⟨50000, 0, 0⟩, ⟨75000, 0, 0⟩],
     [⟨-25000, 0, 1⟩, ⟨100000, 0, 1⟩],
     [⟨0, 0, 0⟩, ⟨25000, 0, 0⟩, ⟨50000, 0, 0⟩, ⟨75000, 0, 0⟩, ⟨-25000, 0, 1⟩,
      ⟨100000, 0, 1⟩],
     GameState.ONGOING, [], [G0123], []⟩ 1 [⟨-25000, 0, 1⟩, ⟨100000, 0, 1⟩]
    [⟨-25000, 0, 1⟩, ⟨100000, 0, 1⟩] rfl (by norm_num [List.filter])]
  rw [List.foldl_cons, ulgPt_dead2a, List.foldl_cons, ulgPt_dead2b, List.foldl_nil]

theorem cw_dead1 :
    checkWin
      ⟨[⟨0, 0, 0⟩, ⟨25000, 0, 0⟩, ⟨50000, 0, 0⟩, ⟨75000, 0, 0⟩], [⟨-25000, 0, 1⟩],
       [⟨0, 0, 0⟩, ⟨25000, 0, 0⟩, ⟨50000, 0, 0⟩, ⟨75000, 0, 0⟩, ⟨-25000, 0, 1⟩],
       GameState.ONGOING, [], [G0123], []⟩ ⟨-25000, 0, 1⟩ = none := by
  rw [checkWin]
  norm_num [nearestK, sortOn, insertOn, distance_xrow, List.filter,
    WIN_SEARCH_RADIUS, WIN_D_MAX]

theorem cw_dead2 :
    checkWin
      ⟨[⟨0, 0, 0⟩, ⟨25000, 0, 0⟩, ⟨50000, 0, 0⟩, ⟨75000, 0, 0⟩],
       [⟨-25000, 0, 1⟩, ⟨100000, 0, 1⟩],
       [⟨0, 0, 0⟩, ⟨25000, 0, 0⟩, ⟨50000, 0, 0⟩, ⟨75000, 0, 0⟩, ⟨-25000, 0, 1⟩,
        ⟨100000, 0, 1⟩],
       GameState.ONGOING, [], [G0123], []⟩ ⟨100000, 0, 1⟩ = none := by
  rw [checkWin]
  norm_num [nearestK, sortOn, insertOn, distance_xrow, List.filter,
    WIN_SEARCH_RADIUS, WIN_D_MAX]

theorem step_dead5 : addMove rowGame4 (-25) 0 1 = (some ⟨-25000, 0, 1⟩, deadRow1) := by
  have hx : round (-(25 * ((SCALE : ℤ) : ℝ))) = -25000 := by
    have he : (-(25 * ((SCALE : ℤ) : ℝ))) = ((-25000 : ℤ) : ℝ) := by norm_num [SCALE]
    rw [he, round_intCast]
  have hy : round ((0 : ℝ) * ((SCALE : ℤ) : ℝ)) = 0 := round_eq_int 0 0 (by norm_num [SCALE])
  norm_num [addMove, rowGame4, deadRow1, hx, hy, nearest1, distance_xrow, sortOn,
    insertOn, SYMBOL_RADIUS, MAX_PLACEMENT_DISTANCE, ulg_dead1, cw_dead1]

theorem step_dead6 : addMove deadRow1 100 0 1 = (some ⟨100000, 0, 1⟩, deadRowGame) := by
  have hx : round ((100 : ℝ) * ((SCALE : ℤ) : ℝ)) = 100000 :=
    round_eq_int 100 100000 (by norm_num [SCALE])
  have hy : round ((0 : ℝ) * ((SCALE : ℤ) : ℝ)) = 0 := round_eq_int 0 0 (by norm_num [SCALE])
  norm_num [addMove, deadRow1, deadRowGame, hx, hy, nearest1, distance_xrow, sortOn,
    insertOn, SYMBOL_RADIUS, MAX_PLACEMENT_DISTANCE, ulg_dead2, cw_dead2]

theorem dead_playGame :
    playGame [⟨0, 0, 0⟩, ⟨25, 0, 0⟩, ⟨50, 0, 0⟩, ⟨75, 0, 0⟩, ⟨-25, 0, 1⟩,
      ⟨100, 0, 1⟩] = deadRowGame := by
  simp only [playGame, playMoves, List.foldl_cons, List.foldl_nil, step_row1,
    step_row2, step_row3, step_row4, step_dead5, step_dead6]

theorem ext_G0123_low : extLow G0123 = (-25, 0) := by
  norm_num [extLow, G0123, IDEAL_SPACING, SCALE]

theorem ext_G0123_high : extHigh G0123 = (100, 0) := by
  norm_num [extHigh, G0123, IDEAL_SPACING, SCALE, List.getLastD]

theorem mr_row4_lit : maxRun ([0, 25000, 50000, 75000] : List ℝ) = 4 := by
  norm_num [maxRun, maxRunAux, WIN_D_MAX]

theorem mr_G0123 : maxRun G0123.projections = 4 := mr_row4_lit

theorem iv_rowGame4_low : isValidMove rowGame4 (-25) 0 := by
  have hx : round (-(25 * ((SCALE : ℤ) : ℝ))) = -25000 := by
    have he : (-(25 * ((SCALE : ℤ) : ℝ))) = ((-25000 : ℤ) : ℝ) := by norm_num [SCALE]
    rw [he, round_intCast]
  have hy : round ((0 : ℝ) * ((SCALE : ℤ) : ℝ)) = 0 := round_eq_int 0 0 (by norm_num [SCALE])
  rw [isValidMove]
  refine ⟨rfl, ?_⟩
  norm_num [rowGame4, hx, hy, nearest1, distance_xrow, sortOn, insertOn,
    SYMBOL_RADIUS, MAX_PLACEMENT_DISTANCE]

theorem iv_rowGame4_high : isValidMove rowGame4 100 0 := by
  have hx : round ((100 : ℝ) * ((SCALE : ℤ) : ℝ)) = 100000 :=
    round_eq_int 100 100000 (by norm_num [SCALE])
  have hy : round ((0 : ℝ) * ((SCALE : ℤ) : ℝ)) = 0 := round_eq_int 0 0 (by norm_num [SCALE])
  rw [isValidMove]
  refine ⟨rfl, ?_⟩
  norm_num [rowGame4, hx, hy, nearest1, distance_xrow, sortOn, insertOn,
    SYMBOL_RADIUS, MAX_PLACEMENT_DISTANCE]

theorem iv_dead_low : ¬isValidMove deadRowGame (-25) 0 := by
  have hx : round (-(25 * ((SCALE : ℤ) : ℝ))) = -25000 := by
    have he : (-(25 * ((SCALE : ℤ) : ℝ))) = ((-25000 : ℤ) : ℝ) := by norm_num [SCALE]
    rw [he, round_intCast]
  have hy : round ((0 : ℝ) * ((SCALE : ℤ) : ℝ)) = 0 := round_eq_int 0 0 (by norm_num [SCALE])
  rw [isValidMove]
  norm_num [deadRowGame, hx, hy, nearest1, distance_xrow, sortOn, insertOn,
    SYMBOL_RADIUS, MAX_PLACEMENT_DISTANCE]
  simp

theorem iv_dead_high : ¬isValidMove deadRowGame 100 0 := by
  have hx : round ((100 : ℝ) * ((SCALE : ℤ) : ℝ)) = 100000 :=
    round_eq_int 100 100000 (by norm_num [SCALE])
  have hy : round ((0 : ℝ) * ((SCALE : ℤ) : ℝ)) = 0 := round_eq_int 0 0 (by norm_num [SCALE])
  rw [isValidMove]
  norm_num [deadRowGame, hx, hy, nearest1, distance_xrow, sortOn, insertOn,
    SYMBOL_RADIUS, MAX_PLACEMENT_DISTANCE]
  simp

theorem ls_rowGame4 : lineScore DEFAULT_MEDIUM_CONFIG G0123 rowGame4 = 15000 := by
  rw [lineScore, ext_G0123_low, ext_G0123_high]
  norm_num [G0123, mr_row4_lit, iv_rowGame4_low, iv_rowGame4_high,
    DEFAULT_MEDIUM_CONFIG]

theorem ls_dead : lineScore DEFAULT_MEDIUM_CONFIG G0123 deadRowGame = 0 := by
  refine lineScore_dead _ _ _ (by norm_num [mr_G0123]) (by norm_num [mr_G0123]) ?_ ?_
  · rw [ext_G0123_low]
    exact iv_dead_low
  · rw [ext_G0123_high]
    exact iv_dead_high

theorem eval_rowGame4 :
    evaluate DEFAULT_MEDIUM_CONFIG rowGame4 0 = 15000 + 5 * Real.exp (-(25 / 18)) := by
  have hlg0 : getLineGroups rowGame4 0 = [G0123] := rfl
  have hlg1 : getLineGroups rowGame4 1 = [] := rfl
  have hpts : getPlayerPoints rowGame4 0 =
      [⟨0, 0, 0⟩, ⟨25000, 0, 0⟩, ⟨50000, 0, 0⟩, ⟨75000, 0, 0⟩] := by
    norm_num [getPlayerPoints, rowGame4, List.filter]
  have hob : DEFAULT_MEDIUM_CONFIG.opponentBias = 13 / 10 := by
    norm_num [DEFAULT_MEDIUM_CONFIG]
  have hcw : DEFAULT_MEDIUM_CONFIG.clusteringWeight = 5 := rfl
  have hcd : DEFAULT_MEDIUM_CONFIG.clusteringDecay = 30 := rfl
  rw [evaluate]
  norm_num [hlg0, hlg1, hpts, ls_rowGame4, pairDists, distance_xrow,
    hob, hcw, hcd, Real.exp_eq_exp]

theorem eval_dead :
    evaluate DEFAULT_MEDIUM_CONFIG deadRowGame 0 = 5 * Real.exp (-(25 / 18)) := by
  have hlg0 : getLineGroups deadRowGame 0 = [G0123] := rfl
  have hlg1 : getLineGroups deadRowGame 1 = [] := rfl
  have hpts : getPlayerPoints deadRowGame 0 =
      [⟨0, 0, 0⟩, ⟨25000, 0, 0⟩, ⟨50000, 0, 0⟩, ⟨75000, 0, 0⟩] := by
    norm_num [getPlayerPoints, deadRowGame, List.filter]
  have hob : DEFAULT_MEDIUM_CONFIG.opponentBias = 13 / 10 := by
    norm_num [DEFAULT_MEDIUM_CONFIG]
  have hcw : DEFAULT_MEDIUM_CONFIG.clusteringWeight = 5 := rfl
  have hcd : DEFAULT_MEDIUM_CONFIG.clusteringDecay = 30 := rfl
  rw [evaluate]
  norm_num [hlg0, hlg1, hpts, ls_dead, pairDists, distance_xrow,
    hob, hcw, hcd, Real.exp_eq_exp]

/-- C8 (amended theorem): a line group whose longest gap-bounded run is at
least 2 AND AT MOST 4 with both extension probes rejected contributes 0
(runs of 5 or more return WIN_SCORE before the probes); and the reachable
open 4-row state evaluates strictly higher than the reachable state where
the same 4-row's two extension spots are blocked by opponent stones. -/
theorem dead_line_zero_and_open_beats_dead :
    (∀ (cfg : MediumAIConfig) (group : LineGroup) (state : Game),
      2 ≤ maxRun group.projections → maxRun group.projections < 5 →
      ¬isValidMove state (extLow group).1 (extLow group).2 →
      ¬isValidMove state (extHigh group).1 (extHigh group).2 →
      lineScore cfg group state = 0) ∧
    evaluate DEFAULT_MEDIUM_CONFIG
        (playGame [⟨0, 0, 0⟩, ⟨25, 0, 0⟩, ⟨50, 0, 0⟩, ⟨75, 0, 0⟩, ⟨-25, 0, 1⟩,
          ⟨100, 0, 1⟩]) 0 <
      evaluate DEFAULT_MEDIUM_CONFIG
        (playGame [⟨0, 0, 0⟩, ⟨25, 0, 0⟩, ⟨50, 0, 0⟩, ⟨75, 0, 0⟩]) 0 := by
  constructor
  · exact lineScore_dead
  · rw [row_playGame4, dead_playGame, eval_rowGame4, eval_dead]
    linarith

/-- C8 (witness): the amended dead-line rule applied at the concrete blocked
4-row: its run is 4, both probes fail, and its lineScore is 0. -/
theorem dead_line_zero_witness :
    (2 ≤ maxRun G0123.projections ∧ maxRun G0123.projections < 5 ∧
     ¬isValidMove deadRowGame (extLow G0123).1 (extLow G0123).2 ∧
     ¬isValidMove deadRowGame (extHigh G0123).1 (extHigh G0123).2) ∧
    lineScore DEFAULT_MEDIUM_CONFIG G0123 deadRowGame = 0 := by
  have h2 : 2 ≤ maxRun G0123.projections := by norm_num [mr_G0123]
  have h5 : maxRun G0123.projections < 5 := by norm_num [mr_G0123]
  have hlo : ¬isValidMove deadRowGame (extLow G0123).1 (extLow G0123).2 := by
    rw [ext_G0123_low]
    exact iv_dead_low
  have hhi : ¬isValidMove deadRowGame (extHigh G0123).1 (extHigh G0123).2 := by
    rw [ext_G0123_high]
    exact iv_dead_high
  exact ⟨⟨h2, h5, hlo, hhi⟩,
    dead_line_zero_and_open_beats_dead.1 DEFAULT_MEDIUM_CONFIG G0123 deadRowGame
      h2 h5 hlo hhi⟩

/-- C8 (counterexample): the claim is false as stated for runs of 5 or more:
in the reachable won 5-row state, the group's two extension probes are both
rejected (the state is no longer ONGOING), yet the group contributes
WIN_SCORE = 100000, not 0, to evaluate. -/
theorem dead_win_line_scores_win_score :
    G01234 ∈ getLineGroups
      (playGame [⟨0, 0, 0⟩, ⟨25, 0, 0⟩, ⟨50, 0, 0⟩, ⟨75, 0, 0⟩, ⟨100, 0, 0⟩]) 0 ∧
    2 ≤ maxRun G01234.projections ∧
    ¬isValidMove
      (playGame [⟨0, 0, 0⟩, ⟨25, 0, 0⟩, ⟨50, 0, 0⟩, ⟨75, 0, 0⟩, ⟨100, 0, 0⟩])
      (extLow G01234).1 (extLow G01234).2 ∧
    ¬isValidMove
      (playGame [⟨0, 0, 0⟩, ⟨25, 0, 0⟩, ⟨50, 0, 0⟩, ⟨75, 0, 0⟩, ⟨100, 0, 0⟩])
      (extHigh G01234).1 (extHigh G01234).2 ∧
    lineScore DEFAULT_MEDIUM_CONFIG G01234
      (playGame [⟨0, 0, 0⟩, ⟨25, 0, 0⟩, ⟨50, 0, 0⟩, ⟨75, 0, 0⟩, ⟨100, 0, 0⟩]) =
      100000 := by
  rw [row_playGame5]
  refine ⟨by simp [getLineGroups, rowGame5], ?_, ?_, ?_, ?_⟩
  · norm_num [G01234, maxRun, maxRunAux, WIN_D_MAX]
  · rw [isValidMove]
    simp [rowGame5]
  · rw [isValidMove]
    simp [rowGame5]
  · rw [lineScore]
    norm_num [G01234, maxRun, maxRunAux, WIN_D_MAX, WIN_SCORE]

/-! ### C9: validity of the search engine's returned move -/

/-- The root loop only ever selects a candidate from its input list. -/
theorem rootLoop_mem (cfg : MediumAIConfig) (game : Game) (player : Player) :
    ∀ (l : List Candidate) (bs : EReal) (bm : Option Candidate) (c : Candidate),
      (rootLoop cfg game player l bs bm).2 = some c → bm = some c ∨ c ∈ l := by
  intro l
  induction l with
  | nil => intro bs bm c h; exact Or.inl h
  | cons x rest ih =>
    intro bs bm c h
    rw [rootLoop] at h
    revert h
    rcases (addMove (clone game) x.x x.y player).1 with _ | pt
    · intro h
      rcases ih bs bm c h with h' | h'
      · exact Or.inl h'
      · exact Or.inr (List.mem_cons_of_mem x h')
    · intro h
      simp only at h
      split_ifs at h with hlt
      · rcases ih _ (some x) c h with h' | h'
        · rw [Option.some.injEq] at h'
          exact Or.inr (h' ▸ List.mem_cons_self x rest)
        · exact Or.inr (List.mem_cons_of_mem x h')
      · rcases ih bs bm c h with h' | h'
        · exact Or.inl h'
        · exact Or.inr (List.mem_cons_of_mem x h')

/-- getMove either reports reason FALLBACK or returns the coordinates of a
generated (isValidMove-filtered) candidate. -/
theorem getMove_reason_cases (cfg : MediumAIConfig) (game : Game)
    (player : Player) (rng : ℕ → ℝ) :
    (getMove cfg game player rng).reason = MoveReason.FALLBACK ∨
    ∃ c ∈ generateCandidates cfg game player,
      (getMove cfg game player rng).x = c.x ∧
      (getMove cfg game player rng).y = c.y := by
  simp only [getMove]
  split_ifs <;> try exact Or.inl rfl
  all_goals split
  all_goals try exact Or.inl rfl
  all_goals
    (rename_i bs best heq
     right
     have hmem := rootLoop_mem cfg game player _ ⊥ none best (by rw [heq])
     rcases hmem with h' | h'
     · exact absurd h' (by simp)
     · refine ⟨best, ?_, rfl, rfl⟩
       have hs := List.take_subset cfg.maxCandidates _ h'
       exact (mem_sortOn_iff _ _ _).mp hs)

/-- C9 (amended theorem): whenever getMove reports any reason other than
FALLBACK, the returned coordinates pass isValidMove on the unmutated game
(they come from the candidate list, which is filtered by isValidMove); the
FALLBACK paths (firstMove's and fallbackMove's final returns) skip that
check. -/
theorem search_nonfallback_move_valid (cfg : MediumAIConfig) (game : Game)
    (player : Player) (rng : ℕ → ℝ)
    (h : (getMove cfg game player rng).reason ≠ MoveReason.FALLBACK) :
    isValidMove game (getMove cfg game player rng).x
      (getMove cfg game player rng).y := by
  rcases getMove_reason_cases cfg game player rng with hf | ⟨c, hc, hx, hy⟩
  · exact absurd hf h
  · rw [hx, hy]
    simp only [generateCandidates] at hc
    exact of_decide_eq_true (List.mem_filter.mp hc).2

/-! ### C9 witness scenario: the medium AI with maxCandidates = 1 on the open
4-row returns the winning extension (-25,0) with reason OFFENSIVE_EXTENSION. -/

def cfgW : MediumAIConfig := { DEFAULT_MEDIUM_CONFIG with maxCandidates := 1 }

def candW1 : Candidate := ⟨-25, 0, MoveReason.OFFENSIVE_EXTENSION, 4⟩

def candW2 : Candidate := ⟨100, 0, MoveReason.OFFENSIVE_EXTENSION, 4⟩

theorem clone_rowGame4 : clone rowGame4 = rowGame4 := by
  have h := clone_playGame [⟨0, 0, 0⟩, ⟨25, 0, 0⟩, ⟨50, 0, 0⟩, ⟨75, 0, 0⟩]
  rwa [row_playGame4] at h

/-- checkWin detects the win when (-25,0) completes the row (the line-group
field is irrelevant to checkWin). -/
theorem cw_winrow (lg0 : List LineGroup) :
    checkWin
      ⟨[⟨0, 0, 0⟩, ⟨25000, 0, 0⟩, ⟨50000, 0, 0⟩, ⟨75000, 0, 0⟩, ⟨-25000, 0, 0⟩], [],
        [⟨0, 0, 0⟩, ⟨25000, 0, 0⟩, ⟨50000, 0, 0⟩, ⟨75000, 0, 0⟩, ⟨-25000, 0, 0⟩],
        GameState.ONGOING, [], lg0, []⟩ ⟨-25000, 0, 0⟩ =
      some (⟨-25000, 0, 0⟩, ⟨75000, 0, 0⟩) := by
  rw [checkWin]
  norm_num [nearestK, sortOn, insertOn, distance_xrow, List.filter,
    WIN_SEARCH_RADIUS, cwLoop, lenR_x, EPSILON, perpDist, PERPENDICULAR_TOLERANCE,
    projAlong, scanRun, WIN_D_MAX, lastI]

theorem addMoveW_parts :
    (addMove rowGame4 (-25) 0 0).1 = some ⟨-25000, 0, 0⟩ ∧
    (addMove rowGame4 (-25) 0 0).2.state = GameState.WIN_0 := by
  have hx : round (-(25 * ((SCALE : ℤ) : ℝ))) = -25000 := by
    have he : (-(25 * ((SCALE : ℤ) : ℝ))) = ((-25000 : ℤ) : ℝ) := by norm_num [SCALE]
    rw [he, round_intCast]
  have hy : round ((0 : ℝ) * ((SCALE : ℤ) : ℝ)) = 0 := round_eq_int 0 0 (by norm_num [SCALE])
  constructor <;>
    norm_num [addMove, rowGame4, hx, hy, nearest1, distance_xrow, sortOn,
      insertOn, SYMBOL_RADIUS, MAX_PLACEMENT_DISTANCE, cw_winrow]

theorem gen_rowGame4 : generateCandidates cfgW rowGame4 0 = [candW1, candW2] := by
  have hx : round (-(25 * ((SCALE : ℤ) : ℝ))) = -25000 := by
    have he : (-(25 * ((SCALE : ℤ) : ℝ))) = ((-25000 : ℤ) : ℝ) := by norm_num [SCALE]
    rw [he, round_intCast]
  have hx2 : round ((100 : ℝ) * ((SCALE : ℤ) : ℝ)) = 100000 :=
    round_eq_int 100 100000 (by norm_num [SCALE])
  have hy : round ((0 : ℝ) * ((SCALE : ℤ) : ℝ)) = 0 := round_eq_int 0 0 (by norm_num [SCALE])
  have h1 : getLineGroups rowGame4 0 = [G0123] := rfl
  have h2 : getLineGroups rowGame4 1 = [] := rfl
  have hmc : cfgW.maxCandidates = 1 := rfl
  have hlen : G0123.stones.length = 4 := rfl
  rw [generateCandidates]
  norm_num [h1, h2, hmc, hlen, addLineExtensions, addExtCand, addBlockingMoves,
    ext_G0123_low, ext_G0123_high, candidateKey, mapGet, mapSet,
    List.find?, hx, hx2, hy, candW1, candW2, iv_rowGame4_low, iv_rowGame4_high,
    List.filter]

theorem qs_candW1 :
    quickScore cfgW candW1 rowGame4 0 = 170 + 10 * Real.exp (-(5 / 6)) := by
  have hpts : getPlayerPoints rowGame4 0 =
      [⟨0, 0, 0⟩, ⟨25000, 0, 0⟩, ⟨50000, 0, 0⟩, ⟨75000, 0, 0⟩] := by
    norm_num [getPlayerPoints, rowGame4, List.filter]
  have s1 : Real.sqrt (625000000 : ℝ) = 25000 := by
    rw [show (625000000 : ℝ) = 25000 ^ 2 by norm_num, Real.sqrt_sq (by norm_num)]
  have s2 : Real.sqrt (2500000000 : ℝ) = 50000 := by
    rw [show (2500000000 : ℝ) = 50000 ^ 2 by norm_num, Real.sqrt_sq (by norm_num)]
  have s3 : Real.sqrt (5625000000 : ℝ) = 75000 := by
    rw [show (5625000000 : ℝ) = 75000 ^ 2 by norm_num, Real.sqrt_sq (by norm_num)]
  have s4 : Real.sqrt (10000000000 : ℝ) = 100000 := by
    rw [show (10000000000 : ℝ) = 100000 ^ 2 by norm_num, Real.sqrt_sq (by norm_num)]
  rw [quickScore, hpts]
  norm_num [candW1, cfgW, DEFAULT_MEDIUM_CONFIG, SCALE, s1, s2, s3, s4, min_def,
    Real.exp_eq_exp]
  rw [if_neg (by decide : ¬(MoveReason.OFFENSIVE_EXTENSION = MoveReason.CRITICAL_BLOCK)),
    if_neg (by decide : ¬(MoveReason.OFFENSIVE_EXTENSION = MoveReason.DEFENSIVE_BLOCK))]
  norm_num

theorem qs_candW2 :
    quickScore cfgW candW2 rowGame4 0 = 170 + 10 * Real.exp (-(5 / 6)) := by
  have hpts : getPlayerPoints rowGame4 0 =
      [⟨0, 0, 0⟩, ⟨25000, 0, 0⟩, ⟨50000, 0, 0⟩, ⟨75000, 0, 0⟩] := by
    norm_num [getPlayerPoints, rowGame4, List.filter]
  have s1 : Real.sqrt (625000000 : ℝ) = 25000 := by
    rw [show (625000000 : ℝ) = 25000 ^ 2 by norm_num, Real.sqrt_sq (by norm_num)]
  have s2 : Real.sqrt (2500000000 : ℝ) = 50000 := by
    rw [show (2500000000 : ℝ) = 50000 ^ 2 by norm_num, Real.sqrt_sq (by norm_num)]
  have s3 : Real.sqrt (5625000000 : ℝ) = 75000 := by
    rw [show (5625000000 : ℝ) = 75000 ^ 2 by norm_num, Real.sqrt_sq (by norm_num)]
  have s4 : Real.sqrt (10000000000 : ℝ) = 100000 := by
    rw [show (10000000000 : ℝ) = 100000 ^ 2 by norm_num, Real.sqrt_sq (by norm_num)]
  rw [quickScore, hpts]
  norm_num [candW2, cfgW, DEFAULT_MEDIUM_CONFIG, SCALE, s1, s2, s3, s4, min_def,
    Real.exp_eq_exp]
  rw [if_neg (by decide : ¬(MoveReason.OFFENSIVE_EXTENSION = MoveReason.CRITICAL_BLOCK)),
    if_neg (by decide : ¬(MoveReason.OFFENSIVE_EXTENSION = MoveReason.DEFENSIVE_BLOCK))]
  norm_num

theorem sortW :
    sortOn (fun a b => quickScore cfgW b rowGame4 0 ≤ quickScore cfgW a rowGame4 0)
      [candW1, candW2] = [candW1, candW2] := by
  norm_num [sortOn, insertOn, qs_candW1, qs_candW2]

/-- minimax on a state already won by the (player-0) AI returns WIN_SCORE
immediately. -/
theorem minimax_terminal_win0 (cfg : MediumAIConfig) (depth : ℕ) (state : Game)
    (alpha beta : EReal) (m : Bool) (h : state.state = GameState.WIN_0) :
    minimax cfg 0 depth state alpha beta m = ((WIN_SCORE : ℝ) : EReal) := by
  rw [minimax.eq_def]
  simp only []
  rw [h]
  norm_num
  exact fun hcon => absurd hcon (by decide)

theorem rootW :
    rootLoop cfgW rowGame4 0 [candW1] ⊥ none =
      (((WIN_SCORE : ℝ) : EReal), some candW1) := by
  rw [rootLoop]
  simp only [clone_rowGame4, candW1]
  rw [addMoveW_parts.1]
  simp only []
  rw [minimax_terminal_win0 cfgW MINIMAX_DEPTH _ ⊥ ⊤ false addMoveW_parts.2]
  norm_num [rootLoop, EReal.bot_lt_coe]

theorem getMoveW (rng : ℕ → ℝ) :
    getMove cfgW rowGame4 0 rng =
      ⟨-25, 0, ((WIN_SCORE : ℝ) : EReal), MoveReason.OFFENSIVE_EXTENSION⟩ := by
  have hpts : getPlayerPoints rowGame4 0 =
      [⟨0, 0, 0⟩, ⟨25000, 0, 0⟩, ⟨50000, 0, 0⟩, ⟨75000, 0, 0⟩] := by
    norm_num [getPlayerPoints, rowGame4, List.filter]
  have hmc : cfgW.maxCandidates = 1 := rfl
  simp only [getMove, gen_rowGame4, hpts, hmc, sortW]
  norm_num [List.take, rootW]
  simp [candW1]

/-- C9 (witness): on the reachable open 4-row with maxCandidates = 1 the
engine returns (-25,0) with reason OFFENSIVE_EXTENSION (a non-FALLBACK
reason), and the returned move passes isValidMove. -/
theorem search_nonfallback_move_valid_witness :
    (getMove cfgW rowGame4 0 (fun _ => 0)).reason ≠ MoveReason.FALLBACK ∧
    isValidMove rowGame4 (getMove cfgW rowGame4 0 (fun _ => 0)).x
      (getMove cfgW rowGame4 0 (fun _ => 0)).y := by
  have hne : (getMove cfgW rowGame4 0 (fun _ => 0)).reason ≠ MoveReason.FALLBACK := by
    rw [getMoveW]
    simp
  exact ⟨hne, search_nonfallback_move_valid cfgW rowGame4 0 (fun _ => 0) hne⟩

/-! ### C9 counterexample scenario: a ring of four opponent blockers leaves
no valid candidate, every fallback attempt of the all-zero random stream is
blocked, and fallbackMove's final return skips isValidMove. -/

theorem foldl_ulgNeighbor_far (point : Point) (nearby : List (Point × ℝ))
    (h : ∀ pd ∈ nearby, (WIN_D_MAX : ℝ) < lenR (pd.1.x - point.x) (pd.1.y - point.y)) :
    ∀ (l : List (Point × ℝ)) (groups : List LineGroup), (∀ pd ∈ l, pd ∈ nearby) →
      l.foldl (fun gs nb => gs ++ ulgNeighbor point nearby nb.1) groups = groups := by
  intro l
  induction l with
  | nil => intro groups _; rfl
  | cons x rest ih =>
    intro groups hl
    rw [List.foldl_cons, ulgNeighbor_far point nearby x.1 (h x (hl x (by simp))),
      List.append_nil]
    exact ih groups (fun pd hpd => hl pd (by simp [hpd]))

/-- A point all of whose same-player tree mates are farther than WIN_D_MAX
contributes no line groups. -/
theorem ulgPoint_far (tree : List Point) (groups : List LineGroup) (point : Point)
    (h : ∀ q ∈ tree, q ≠ point → 1225000000 < sqDist q point) :
    ulgPoint tree groups point = groups := by
  rw [ulgPoint]
  refine foldl_ulgNeighbor_far point _ ?_ _ groups (fun pd hpd => hpd)
  intro pd hpd
  have h1 : pd.1 ∈ tree :=
    (nearestK_mem tree point 50 _ pd (List.mem_of_mem_filter hpd)).1
  have h2 : pd.1 ≠ point :=
    (of_decide_eq_true (List.mem_filter.mp hpd).2).1
  have h3 := h pd.1 h1 h2
  rw [lt_lenR_iff _ _ (by norm_num [WIN_D_MAX])]
  have hwd : ((WIN_D_MAX : ℤ) : ℝ) ^ 2 = ((1225000000 : ℤ) : ℝ) := by
    norm_num [WIN_D_MAX]
  rw [hwd]
  rw [sqDist] at h3
  exact_mod_cast h3

/-- The overlap bound with the cast distributed, as norm_num normalizes it. -/
theorem dist_lt_overlap_iff' (a b : Point) :
    distance a b < ((SYMBOL_RADIUS : ℤ) : ℝ) * 2 ↔ sqDist a b < 400000000 := by
  rw [show ((SYMBOL_RADIUS : ℤ) : ℝ) * 2 = ((SYMBOL_RADIUS * 2 : ℤ) : ℝ) by
    push_cast; ring]
  exact dist_lt_overlap_iff a b

/-- The blocked-ring game: one player-0 stone at the origin and four player-1
blockers at world (37,15), (-15,37), (-37,-15), (15,-37). -/
def blockGame : Game :=
  ⟨[⟨0, 0, 0⟩],
   [⟨37000, 15000, 1⟩, ⟨-15000, 37000, 1⟩, ⟨-37000, -15000, 1⟩, ⟨15000, -37000, 1⟩],
   [⟨0, 0, 0⟩, ⟨37000, 15000, 1⟩, ⟨-15000, 37000, 1⟩, ⟨-37000, -15000, 1⟩,
    ⟨15000, -37000, 1⟩],
   GameState.ONGOING, [], [], []⟩

def bg2 : Game :=
  ⟨[⟨0, 0, 0⟩], [⟨37000, 15000, 1⟩], [⟨0, 0, 0⟩, ⟨37000, 15000, 1⟩],
   GameState.ONGOING, [], [], []⟩

def bg3 : Game :=
  ⟨[⟨0, 0, 0⟩], [⟨37000, 15000, 1⟩, ⟨-15000, 37000, 1⟩],
   [⟨0, 0, 0⟩, ⟨37000, 15000, 1⟩, ⟨-15000, 37000, 1⟩],
   GameState.ONGOING, [], [], []⟩

def bg4 : Game :=
  ⟨[⟨0, 0, 0⟩], [⟨37000, 15000, 1⟩, ⟨-15000, 37000, 1⟩, ⟨-37000, -15000, 1⟩],
   [⟨0, 0, 0⟩, ⟨37000, 15000, 1⟩, ⟨-15000, 37000, 1⟩, ⟨-37000, -15000, 1⟩],
   GameState.ONGOING, [], [], []⟩

theorem ulg_bg2 :
    updateLineGroups
      ⟨[⟨0, 0, 0⟩], [⟨37000, 15000, 1⟩], [⟨0, 0, 0⟩, ⟨37000, 15000, 1⟩],
       GameState.ONGOING, [], [], []⟩ 1 = [] := by
  rw [updateLineGroups_eval
    ⟨[⟨0, 0, 0⟩], [⟨37000, 15000, 1⟩], [⟨0, 0, 0⟩, ⟨37000, 15000, 1⟩],
     GameState.ONGOING, [], [], []⟩ 1 [⟨37000, 15000, 1⟩] [⟨37000, 15000, 1⟩] rfl
    (by norm_num [List.filter])]
  rw [List.foldl_cons, ulgPoint_far _ _ _ (by decide), List.foldl_nil]

theorem ulg_bg3 :
    updateLineGroups
      ⟨[⟨0, 0, 0⟩], [⟨37000, 15000, 1⟩, ⟨-15000, 37000, 1⟩],
       [⟨0, 0, 0⟩, ⟨37000, 15000, 1⟩, ⟨-15000, 37000, 1⟩],
       GameState.ONGOING, [], [], []⟩ 1 = [] := by
  rw [updateLineGroups_eval
    ⟨[⟨0, 0, 0⟩], [⟨37000, 15000, 1⟩, ⟨-15000, 37000, 1⟩],
     [⟨0, 0, 0⟩, ⟨37000, 15000, 1⟩, ⟨-15000, 37000, 1⟩],
     GameState.ONGOING, [], [], []⟩ 1 [⟨37000, 15000, 1⟩, ⟨-15000, 37000, 1⟩]
    [⟨37000, 15000, 1⟩, ⟨-15000, 37000, 1⟩] rfl (by norm_num [List.filter])]
  rw [List.foldl_cons, ulgPoint_far _ _ _ (by decide), List.foldl_cons,
    ulgPoint_far _ _ _ (by decide), List.foldl_nil]

theorem ulg_bg4 :
    updateLineGroups
      ⟨[⟨0, 0, 0⟩], [⟨37000, 15000, 1⟩, ⟨-15000, 37000, 1⟩, ⟨-37000, -15000, 1⟩],
       [⟨0, 0, 0⟩, ⟨37000, 15000, 1⟩, ⟨-15000, 37000, 1⟩, ⟨-37000, -15000, 1⟩],
       GameState.ONGOING, [], [], []⟩ 1 = [] := by
  rw [updateLineGroups_eval
    ⟨[⟨0, 0, 0⟩], [⟨37000, 15000, 1⟩, ⟨-15000, 37000, 1⟩, ⟨-37000, -15000, 1⟩],
     [⟨0, 0, 0⟩, ⟨37000, 15000, 1⟩, ⟨-15000, 37000, 1⟩, ⟨-37000, -15000, 1⟩],
     GameState.ONGOING, [], [], []⟩ 1
    [⟨37000, 15000, 1⟩, ⟨-15000, 37000, 1⟩, ⟨-37000, -15000, 1⟩]
    [⟨37000, 15000, 1⟩, ⟨-15000, 37000, 1⟩, ⟨-37000, -15000, 1⟩] rfl
    (by norm_num [List.filter])]
  rw [List.foldl_cons, ulgPoint_far _ _ _ (by decide), List.foldl_cons,
    ulgPoint_far _ _ _ (by decide), List.foldl_cons, ulgPoint_far _ _ _ (by decide),
    List.foldl_nil]

theorem ulg_bg5 :
    updateLineGroups
      ⟨[⟨0, 0, 0⟩],
       [⟨37000, 15000, 1⟩, ⟨-15000, 37000, 1⟩, ⟨-37000, -15000, 1⟩, ⟨15000, -37000, 1⟩],
       [⟨0, 0, 0⟩, ⟨37000, 15000, 1⟩, ⟨-15000, 37000, 1⟩, ⟨-37000, -15000, 1⟩,
        ⟨15000, -37000, 1⟩],
       GameState.ONGOING, [], [], []⟩ 1 = [] := by
  rw [updateLineGroups_eval
    ⟨[⟨0, 0, 0⟩],
     [⟨37000, 15000, 1⟩, ⟨-15000, 37000, 1⟩, ⟨-37000, -15000, 1⟩, ⟨15000, -37000, 1⟩],
     [⟨0, 0, 0⟩, ⟨37000, 15000, 1⟩, ⟨-15000, 37000, 1⟩, ⟨-37000, -15000, 1⟩,
      ⟨15000, -37000, 1⟩],
     GameState.ONGOING, [], [], []⟩ 1
    [⟨37000, 15000, 1⟩, ⟨-15000, 37000, 1⟩, ⟨-37000, -15000, 1⟩, ⟨15000, -37000, 1⟩]
    [⟨37000, 15000, 1⟩, ⟨-15000, 37000, 1⟩, ⟨-37000, -15000, 1⟩, ⟨15000, -37000, 1⟩]
    rfl (by norm_num [List.filter])]
  rw [List.foldl_cons, ulgPoint_far _ _ _ (by decide), List.foldl_cons,
    ulgPoint_far _ _ _ (by decide), List.foldl_cons, ulgPoint_far _ _ _ (by decide),
    List.foldl_cons, ulgPoint_far _ _ _ (by decide), List.foldl_nil]

theorem cw_bg2 :
    checkWin
      ⟨[⟨0, 0, 0⟩], [⟨37000, 15000, 1⟩], [⟨0, 0, 0⟩, ⟨37000, 15000, 1⟩],
       GameState.ONGOING, [], [], []⟩ ⟨37000, 15000, 1⟩ = none := by
  rw [checkWin]
  norm_num [nearestK, sortOn, insertOn, List.filter, dist_lt_winsearch_iff,
    distance_le_distance_iff, distance_lt_distance_iff, sqDist]

theorem cw_bg3 :
    checkWin
      ⟨[⟨0, 0, 0⟩], [⟨37000, 15000, 1⟩, ⟨-15000, 37000, 1⟩],
       [⟨0, 0, 0⟩, ⟨37000, 15000, 1⟩, ⟨-15000, 37000, 1⟩],
       GameState.ONGOING, [], [], []⟩ ⟨-15000, 37000, 1⟩ = none := by
  rw [checkWin]
  norm_num [nearestK, sortOn, insertOn, List.filter, dist_lt_winsearch_iff,
    distance_le_distance_iff, distance_lt_distance_iff, sqDist]

theorem cw_bg4 :
    checkWin
      ⟨[⟨0, 0, 0⟩], [⟨37000, 15000, 1⟩, ⟨-15000, 37000, 1⟩, ⟨-37000, -15000, 1⟩],
       [⟨0, 0, 0⟩, ⟨37000, 15000, 1⟩, ⟨-15000, 37000, 1⟩, ⟨-37000, -15000, 1⟩],
       GameState.ONGOING, [], [], []⟩ ⟨-37000, -15000, 1⟩ = none := by
  rw [checkWin]
  norm_num [nearestK, sortOn, insertOn, List.filter, dist_lt_winsearch_iff,
    distance_le_distance_iff, distance_lt_distance_iff, sqDist]

theorem cw_bg5 :
    checkWin
      ⟨[⟨0, 0, 0⟩],
       [⟨37000, 15000, 1⟩, ⟨-15000, 37000, 1⟩, ⟨-37000, -15000, 1⟩, ⟨15000, -37000, 1⟩],
       [⟨0, 0, 0⟩, ⟨37000, 15000, 1⟩, ⟨-15000, 37000, 1⟩, ⟨-37000, -15000, 1⟩,
        ⟨15000, -37000, 1⟩],
       GameState.ONGOING, [], [], []⟩ ⟨15000, -37000, 1⟩ = none := by
  rw [checkWin]
  norm_num [nearestK, sortOn, insertOn, List.filter, dist_lt_winsearch_iff,
    distance_le_distance_iff, distance_lt_distance_iff, sqDist]

theorem step_bg2 : addMove rowGame1 37 15 1 = (some ⟨37000, 15000, 1⟩, bg2) := by
  have hx : round ((37 : ℝ) * ((SCALE : ℤ) : ℝ)) = 37000 :=
    round_eq_int 37 37000 (by norm_num [SCALE])
  have hy : round ((15 : ℝ) * ((SCALE : ℤ) : ℝ)) = 15000 :=
    round_eq_int 15 15000 (by norm_num [SCALE])
  norm_num [addMove, rowGame1, bg2, hx, hy, nearest1, sortOn, insertOn,
    dist_lt_overlap_iff, dist_lt_overlap_iff', maxplace_lt_dist_iff,
    dist_le_maxplace_iff, distance_le_distance_iff, distance_lt_distance_iff,
    sqDist, ulg_bg2, cw_bg2]

theorem step_bg3 : addMove bg2 (-15) 37 1 = (some ⟨-15000, 37000, 1⟩, bg3) := by
  have hx : round (-(15 * ((SCALE : ℤ) : ℝ))) = -15000 := by
    have he : (-(15 * ((SCALE : ℤ) : ℝ))) = ((-15000 : ℤ) : ℝ) := by norm_num [SCALE]
    rw [he, round_intCast]
  have hy : round ((37 : ℝ) * ((SCALE : ℤ) : ℝ)) = 37000 :=
    round_eq_int 37 37000 (by norm_num [SCALE])
  norm_num [addMove, bg2, bg3, hx, hy, nearest1, sortOn, insertOn,
    dist_lt_overlap_iff, dist_lt_overlap_iff', maxplace_lt_dist_iff,
    dist_le_maxplace_iff, distance_le_distance_iff, distance_lt_distance_iff,
    sqDist, ulg_bg3, cw_bg3]

theorem step_bg4 : addMove bg3 (-37) (-15) 1 = (some ⟨-37000, -15000, 1⟩, bg4) := by
  have hx : round (-(37 * ((SCALE : ℤ) : ℝ))) = -37000 := by
    have he : (-(37 * ((SCALE : ℤ) : ℝ))) = ((-37000 : ℤ) : ℝ) := by norm_num [SCALE]
    rw [he, round_intCast]
  have hy : round (-(15 * ((SCALE : ℤ) : ℝ))) = -15000 := by
    have he : (-(15 * ((SCALE : ℤ) : ℝ))) = ((-15000 : ℤ) : ℝ) := by norm_num [SCALE]
    rw [he, round_intCast]
  norm_num [addMove, bg3, bg4, hx, hy, nearest1, sortOn, insertOn,
    dist_lt_overlap_iff, dist_lt_overlap_iff', maxplace_lt_dist_iff,
    dist_le_maxplace_iff, distance_le_distance_iff, distance_lt_distance_iff,
    sqDist, ulg_bg4, cw_bg4]

theorem step_bg5 : addMove bg4 15 (-37) 1 = (some ⟨15000, -37000, 1⟩, blockGame) := by
  have hx : round ((15 : ℝ) * ((SCALE : ℤ) : ℝ)) = 15000 :=
    round_eq_int 15 15000 (by norm_num [SCALE])
  have hy : round (-(37 * ((SCALE : ℤ) : ℝ))) = -37000 := by
    have he : (-(37 * ((SCALE : ℤ) : ℝ))) = ((-37000 : ℤ) : ℝ) := by norm_num [SCALE]
    rw [he, round_intCast]
  norm_num [addMove, bg4, blockGame, hx, hy, nearest1, sortOn, insertOn,
    dist_lt_overlap_iff, dist_lt_overlap_iff', maxplace_lt_dist_iff,
    dist_le_maxplace_iff, distance_le_distance_iff, distance_lt_distance_iff,
    sqDist, ulg_bg5, cw_bg5]

theorem block_playGame :
    playGame [⟨0, 0, 0⟩, ⟨37, 15, 1⟩, ⟨-15, 37, 1⟩, ⟨-37, -15, 1⟩, ⟨15, -37, 1⟩] =
      blockGame := by
  simp only [playGame, playMoves, List.foldl_cons, List.foldl_nil, step_row1,
    step_bg2, step_bg3, step_bg4, step_bg5]

/-! The eight tactical angles' cosines and sines. -/

theorem hc34 : Real.cos (3 * Real.pi / 4) = -(Real.sqrt 2 / 2) := by
  rw [show (3 : ℝ) * Real.pi / 4 = Real.pi - Real.pi / 4 by ring, Real.cos_pi_sub,
    Real.cos_pi_div_four]

theorem hs34 : Real.sin (3 * Real.pi / 4) = Real.sqrt 2 / 2 := by
  rw [show (3 : ℝ) * Real.pi / 4 = Real.pi - Real.pi / 4 by ring, Real.sin_pi_sub,
    Real.sin_pi_div_four]

theorem hc54 : Real.cos (5 * Real.pi / 4) = -(Real.sqrt 2 / 2) := by
  rw [show (5 : ℝ) * Real.pi / 4 = Real.pi + Real.pi / 4 by ring, Real.cos_add,
    Real.cos_pi, Real.sin_pi, Real.cos_pi_div_four, Real.sin_pi_div_four]
  ring

theorem hs54 : Real.sin (5 * Real.pi / 4) = -(Real.sqrt 2 / 2) := by
  rw [show (5 : ℝ) * Real.pi / 4 = Real.pi + Real.pi / 4 by ring, Real.sin_add,
    Real.cos_pi, Real.sin_pi, Real.cos_pi_div_four, Real.sin_pi_div_four]
  ring

theorem hc32 : Real.cos (3 * Real.pi / 2) = 0 := by
  rw [show (3 : ℝ) * Real.pi / 2 = Real.pi + Real.pi / 2 by ring, Real.cos_add,
    Real.cos_pi, Real.sin_pi, Real.cos_pi_div_two, Real.sin_pi_div_two]
  ring

theorem hs32 : Real.sin (3 * Real.pi / 2) = -1 := by
  rw [show (3 : ℝ) * Real.pi / 2 = Real.pi + Real.pi / 2 by ring, Real.sin_add,
    Real.cos_pi, Real.sin_pi, Real.cos_pi_div_two, Real.sin_pi_div_two]
  ring

theorem hc74 : Real.cos (7 * Real.pi / 4) = Real.sqrt 2 / 2 := by
  rw [show (7 : ℝ) * Real.pi / 4 = 2 * Real.pi - Real.pi / 4 by ring, Real.cos_sub,
    Real.cos_two_pi, Real.sin_two_pi, Real.cos_pi_div_four, Real.sin_pi_div_four]
  ring

theorem hs74 : Real.sin (7 * Real.pi / 4) = -(Real.sqrt 2 / 2) := by
  rw [show (7 : ℝ) * Real.pi / 4 = 2 * Real.pi - Real.pi / 4 by ring, Real.sin_sub,
    Real.cos_two_pi, Real.sin_two_pi, Real.cos_pi_div_four, Real.sin_pi_div_four]
  ring

/-! The diagonal tactical offset 25·(√2/2) world units rounds to 17678 at the
internal scale (12500·√2 = 17677.67). -/

theorem round_sqrt2_pos : round (Real.sqrt 2 / 2 * 25 * 1000) = 17678 := by
  have hs : Real.sqrt 2 ^ 2 = 2 := Real.sq_sqrt (by norm_num)
  have hnn : (0 : ℝ) ≤ Real.sqrt 2 := Real.sqrt_nonneg 2
  have h1 : (17677.5 : ℝ) < Real.sqrt 2 / 2 * 25 * 1000 := by nlinarith
  have h2 : Real.sqrt 2 / 2 * 25 * 1000 < 17678.5 := by nlinarith
  rw [round_eq, Int.floor_eq_iff]
  constructor
  · push_cast
    linarith
  · push_cast
    linarith

theorem round_sqrt2_neg : round (-(Real.sqrt 2 / 2 * 25 * 1000)) = -17678 := by
  have hs : Real.sqrt 2 ^ 2 = 2 := Real.sq_sqrt (by norm_num)
  have hnn : (0 : ℝ) ≤ Real.sqrt 2 := Real.sqrt_nonneg 2
  have h1 : (17677.5 : ℝ) < Real.sqrt 2 / 2 * 25 * 1000 := by nlinarith
  have h2 : Real.sqrt 2 / 2 * 25 * 1000 < 17678.5 := by nlinarith
  rw [round_eq, Int.floor_eq_iff]
  constructor
  · push_cast
    linarith
  · push_cast
    linarith

theorem round_neg_25000 : round ((-25000 : ℝ)) = -25000 := by
  rw [show ((-25000 : ℝ)) = ((-25000 : ℤ) : ℝ) by norm_num, round_intCast]

/-! Each of the eight tactical ring positions around the origin stone is
within 2×SYMBOL_RADIUS of one of the four blockers, hence invalid. -/

theorem hiv_c0 : ¬isValidMove blockGame 25 0 := by
  rw [isValidMove]
  norm_num [blockGame, SCALE, round_sqrt2_pos, round_sqrt2_neg, round_neg_25000,
    nearest1, sortOn, insertOn, dist_lt_overlap_iff, dist_lt_overlap_iff',
    dist_le_maxplace_iff, maxplace_lt_dist_iff, distance_le_distance_iff,
    distance_lt_distance_iff, sqDist]
  simp

theorem hiv_c1 :
    ¬isValidMove blockGame (Real.sqrt 2 / 2 * 25) (Real.sqrt 2 / 2 * 25) := by
  rw [isValidMove]
  norm_num [blockGame, SCALE, round_sqrt2_pos, round_sqrt2_neg, round_neg_25000,
    nearest1, sortOn, insertOn, dist_lt_overlap_iff, dist_lt_overlap_iff',
    dist_le_maxplace_iff, maxplace_lt_dist_iff, distance_le_distance_iff,
    distance_lt_distance_iff, sqDist]
  simp

theorem hiv_c2 : ¬isValidMove blockGame 0 25 := by
  rw [isValidMove]
  norm_num [blockGame, SCALE, round_sqrt2_pos, round_sqrt2_neg, round_neg_25000,
    nearest1, sortOn, insertOn, dist_lt_overlap_iff, dist_lt_overlap_iff',
    dist_le_maxplace_iff, maxplace_lt_dist_iff, distance_le_distance_iff,
    distance_lt_distance_iff, sqDist]
  simp

theorem hiv_c3 :
    ¬isValidMove blockGame (-(Real.sqrt 2 / 2 * 25)) (Real.sqrt 2 / 2 * 25) := by
  rw [isValidMove]
  norm_num [blockGame, SCALE, round_sqrt2_pos, round_sqrt2_neg, round_neg_25000,
    nearest1, sortOn, insertOn, dist_lt_overlap_iff, dist_lt_overlap_iff',
    dist_le_maxplace_iff, maxplace_lt_dist_iff, distance_le_distance_iff,
    distance_lt_distance_iff, sqDist]
  simp

theorem hiv_c4 : ¬isValidMove blockGame (-25) 0 := by
  rw [isValidMove]
  norm_num [blockGame, SCALE, round_sqrt2_pos, round_sqrt2_neg, round_neg_25000,
    nearest1, sortOn, insertOn, dist_lt_overlap_iff, dist_lt_overlap_iff',
    dist_le_maxplace_iff, maxplace_lt_dist_iff, distance_le_distance_iff,
    distance_lt_distance_iff, sqDist]
  simp

theorem hiv_c5 :
    ¬isValidMove blockGame (-(Real.sqrt 2 / 2 * 25)) (-(Real.sqrt 2 / 2 * 25)) := by
  rw [isValidMove]
  norm_num [blockGame, SCALE, round_sqrt2_pos, round_sqrt2_neg, round_neg_25000,
    nearest1, sortOn, insertOn, dist_lt_overlap_iff, dist_lt_overlap_iff',
    dist_le_maxplace_iff, maxplace_lt_dist_iff, distance_le_distance_iff,
    distance_lt_distance_iff, sqDist]
  simp

theorem hiv_c6 : ¬isValidMove blockGame 0 (-25) := by
  rw [isValidMove]
  norm_num [blockGame, SCALE, round_sqrt2_pos, round_sqrt2_neg, round_neg_25000,
    nearest1, sortOn, insertOn, dist_lt_overlap_iff, dist_lt_overlap_iff',
    dist_le_maxplace_iff, maxplace_lt_dist_iff, distance_le_distance_iff,
    distance_lt_distance_iff, sqDist]
  simp

theorem hiv_c7 :
    ¬isValidMove blockGame (Real.sqrt 2 / 2 * 25) (-(Real.sqrt 2 / 2 * 25)) := by
  rw [isValidMove]
  norm_num [blockGame, SCALE, round_sqrt2_pos, round_sqrt2_neg, round_neg_25000,
    nearest1, sortOn, insertOn, dist_lt_overlap_iff, dist_lt_overlap_iff',
    dist_le_maxplace_iff, maxplace_lt_dist_iff, distance_le_distance_iff,
    distance_lt_distance_iff, sqDist]
  simp

/-- With the default config, the blocked-ring game has no valid candidate:
no line groups exist, and all eight tactical neighbors of the origin stone
are rejected by isValidMove. -/
theorem gen_block : generateCandidates DEFAULT_MEDIUM_CONFIG blockGame 0 = [] := by
  have h0 : getLineGroups blockGame 0 = [] := rfl
  have h1 : getLineGroups blockGame 1 = [] := rfl
  have hpts : getPlayerPoints blockGame 0 = [⟨0, 0, 0⟩] := by
    norm_num [getPlayerPoints, blockGame, List.filter]
  rw [generateCandidates]
  norm_num [h0, h1, hpts, addLineExtensions, addBlockingMoves, DEFAULT_MEDIUM_CONFIG,
    addTacticalNeighbors, tacticalAngles, candidateKey, mapGet, mapSet, List.find?,
    SCALE, IDEAL_SPACING, hc34, hs34, hc54, hs54, hc32, hs32, hc74, hs74,
    Real.cos_pi_div_four, Real.sin_pi_div_four, round_sqrt2_pos, round_sqrt2_neg,
    round_neg_25000]
  exact ⟨hiv_c0, hiv_c1, hiv_c2, hiv_c3, hiv_c4, hiv_c5, hiv_c6, hiv_c7⟩

/-- With the all-zero random stream (a legitimate sequence of Math.random
outputs), every one of the 50 fallback attempts lands on the blocked spot
(25, 0), and the final validity-unchecked return is that same spot. -/
theorem fb_block :
    fallbackMove blockGame [⟨0, 0, 0⟩]
      [⟨37000, 15000, 1⟩, ⟨-15000, 37000, 1⟩, ⟨-37000, -15000, 1⟩, ⟨15000, -37000, 1⟩]
      (fun _ => 0) = (25, 0) := by
  rw [fallbackMove]
  have hnone : (List.range 50).find? (fun a => decide (isValidMove blockGame
      (fbCand ([⟨0, 0, 0⟩] ++
        [⟨37000, 15000, 1⟩, ⟨-15000, 37000, 1⟩, ⟨-37000, -15000, 1⟩,
         ⟨15000, -37000, 1⟩]) (fun _ => 0) a).1
      (fbCand ([⟨0, 0, 0⟩] ++
        [⟨37000, 15000, 1⟩, ⟨-15000, 37000, 1⟩, ⟨-37000, -15000, 1⟩,
         ⟨15000, -37000, 1⟩]) (fun _ => 0) a).2)) = none := by
    rw [List.find?_eq_none]
    intro a _
    simp only [fbCand, List.getD, decide_eq_true_eq]
    norm_num [SCALE, IDEAL_SPACING, Real.cos_zero, Real.sin_zero]
    exact hiv_c0
  rw [hnone]
  norm_num [SCALE, IDEAL_SPACING]

theorem getMove_block :
    getMove DEFAULT_MEDIUM_CONFIG blockGame 0 (fun _ => 0) =
      ⟨25, 0, ((0 : ℝ) : EReal), MoveReason.FALLBACK⟩ := by
  have hpts0 : getPlayerPoints blockGame 0 = [⟨0, 0, 0⟩] := by
    norm_num [getPlayerPoints, blockGame, List.filter]
  have hpts1 : getPlayerPoints blockGame 1 =
      [⟨37000, 15000, 1⟩, ⟨-15000, 37000, 1⟩, ⟨-37000, -15000, 1⟩,
       ⟨15000, -37000, 1⟩] := by
    norm_num [getPlayerPoints, blockGame, List.filter]
  simp only [getMove, hpts0, hpts1, gen_block]
  norm_num [hpts1, fb_block]

/-- C9 (counterexample): in the reachable ONGOING blocked-ring state, for the
all-zero outcome of the internal random stream, getMove returns (25, 0) with
reason FALLBACK, and that returned move is rejected by isValidMove at the
time it is returned — candidate generation found no valid candidate, all 50
random fallback attempts were blocked, and fallbackMove's final return does
not consult isValidMove. -/
theorem search_returns_invalid_move :
    getMove DEFAULT_MEDIUM_CONFIG
        (playGame [⟨0, 0, 0⟩, ⟨37, 15, 1⟩, ⟨-15, 37, 1⟩, ⟨-37, -15, 1⟩,
          ⟨15, -37, 1⟩]) 0 (fun _ => 0) =
      ⟨25, 0, ((0 : ℝ) : EReal), MoveReason.FALLBACK⟩ ∧
    ¬isValidMove
      (playGame [⟨0, 0, 0⟩, ⟨37, 15, 1⟩, ⟨-15, 37, 1⟩, ⟨-37, -15, 1⟩, ⟨15, -37, 1⟩])
      (getMove DEFAULT_MEDIUM_CONFIG
        (playGame [⟨0, 0, 0⟩, ⟨37, 15, 1⟩, ⟨-15, 37, 1⟩, ⟨-37, -15, 1⟩,
          ⟨15, -37, 1⟩]) 0 (fun _ => 0)).x
      (getMove DEFAULT_MEDIUM_CONFIG
        (playGame [⟨0, 0, 0⟩, ⟨37, 15, 1⟩, ⟨-15, 37, 1⟩, ⟨-37, -15, 1⟩,
          ⟨15, -37, 1⟩]) 0 (fun _ => 0)).y := by
  rw [block_playGame, getMove_block]
  exact ⟨rfl, hiv_c0⟩

end

end GomokuNoGrid
